import Mathlib

/-!
# errmux: merging error channels, consuming them, and cancelling

A small-step interleaving model of `errmux.go`.  Every goroutine of the package
(one merger worker per input channel, the goroutine that closes the merged
channel, `Handler.start`, `Handler.waitAndClose`) and every external party
(producers on the input channels, callers of `Handler.Cancel`) is a component of
one global state; an `Action` names which of them takes its next atomic step.
`step` is the executable transition function, `exec` runs a schedule.

Atomic steps are the single channel operations, WaitGroup operations and calls of
`Consume` of the source; a `return` is taken together with the statement before
it (`wg.Done()` deferred by a worker, `h.twg.Done(); return true` in `Cancel`).
An unbuffered or buffered input channel is seen from its receiving end: the
values that producers have offered, oldest first, and whether it was closed.

The state also carries a `log` of events.  It is ghost state: no transition
reads it.  Values travelling through the merged channel carry the index of the
input channel they came from, which is ghost information as well.
-/

namespace Errmux

/-! ## Data model -/

/-- An input error channel as the receiving worker sees it: the values that
producers have offered and that were not received yet, oldest first, and whether
the channel has been closed. -/
structure InChan (E : Type) where
  buf : List E
  closed : Bool
deriving DecidableEq, Repr

/-- Program counter of one merger worker (`errmux.go` lines 19-45). -/
inductive WorkerPc (E : Type) where
  /-- at `for err := range ch`, waiting for a value or for the close -/
  | recv : WorkerPc E
  /-- holds `err`, at `select { case <-q: return; default: }` -/
  | check (e : E) : WorkerPc E
  /-- passed the check, at `out <- err` -/
  | send (e : E) : WorkerPc E
  /-- returned; the deferred `wg.Done()` has run -/
  | done : WorkerPc E
deriving DecidableEq, Repr

/-- A merger worker together with the channel it closes over. -/
structure Worker (E : Type) where
  ch : InChan E
  pc : WorkerPc E
deriving DecidableEq, Repr

/-- Program counter of the goroutine `wg.Wait(); close(out)` (lines 49-52). -/
inductive CloserPc where
  | waiting : CloserPc
  | closing : CloserPc
  | done : CloserPc
deriving DecidableEq, Repr

/-- Program counter of `Handler.start` (lines 90-104).  `loop d` is the head of
`for err := range h.errs` with the local variable `done = d`. -/
inductive StartPc (E : Type) where
  | loop (done : Bool) : StartPc E
  /-- inside `if !done`, about to call `h.c.Consume(err)` -/
  | deliver (i : Nat) (e : E) : StartPc E
  /-- after `Consume` returned false: at the `select` of the `h.Cancel()` of line 97 -/
  | cancelIn : StartPc E
  /-- that `select` sent on `t`: at `h.twg.Done()` -/
  | cancelInDone : StartPc E
  /-- the range loop ended: at the `select` of the `h.Cancel()` of line 103 -/
  | cancelOut : StartPc E
  /-- that `select` sent on `t`: at `h.twg.Done()` -/
  | cancelOutDone : StartPc E
  | finished : StartPc E
deriving DecidableEq, Repr

/-- Program counter of `Handler.waitAndClose` (lines 107-111). -/
inductive WaiterPc where
  | waiting : WaiterPc
  | closing : WaiterPc
  | done : WaiterPc
deriving DecidableEq, Repr

/-- Observable events, in the order in which they happen. -/
inductive Event (E : Type) where
  /-- a producer offered `e` on input channel `i` -/
  | offer (i : Nat) (e : E) : Event E
  /-- worker `i` received `e` from its input channel -/
  | recv (i : Nat) (e : E) : Event E
  /-- worker `i` found `q` closed and returned without forwarding `e` -/
  | drop (i : Nat) (e : E) : Event E
  /-- worker `i` sent `e` on the merged channel -/
  | fwd (i : Nat) (e : E) : Event E
  /-- the consumption loop received `e` (forwarded by worker `i`) from the merged channel -/
  | take (i : Nat) (e : E) : Event E
  /-- the call `Consume(e)` was made and returned `ok` -/
  | consume (i : Nat) (e : E) (ok : Bool) : Event E
  /-- the consumption loop skipped `e` because `done` was set -/
  | discard (i : Nat) (e : E) : Event E
  /-- the `select` of a `Cancel` call ran; `ext` tells whether the call came from
  outside the handler, `ok` whether the send on `t` was accepted -/
  | cancel (ext : Bool) (ok : Bool) : Event E
  /-- a `Cancel` call returned `ok` -/
  | ret (ok : Bool) : Event E
  | closeOut : Event E
  | closeQ : Event E
deriving DecidableEq, Repr

/-- The `Consumer` interface: `Consume(error) bool` and `Err() error`, over an
explicit consumer state `σ`. -/
structure Consumer (E σ : Type) where
  Consume : σ → E → Bool × σ
  Err : σ → Option E

/-- Global state: the `Handler` fields (`c`, merged channel, `q`, `t`, `twg`),
the locals of `mergeErrors` (`wg`, the workers), and the program counters. -/
structure State (E σ : Type) where
  /-- merger workers, one per input channel -/
  ws : List (Worker E)
  /-- counter of the `sync.WaitGroup` of `mergeErrors` -/
  wg : Int
  /-- buffer of the merged channel `out` / `h.errs`, oldest first -/
  out : List (Nat × E)
  /-- capacity of the merged channel -/
  cap : Nat
  outClosed : Bool
  closer : CloserPc
  /-- state of the consumer `h.c` -/
  c : σ
  /-- whether `h.q` is closed -/
  q : Bool
  /-- whether the one-slot channel `h.t` holds its element -/
  t : Bool
  /-- counter of `h.twg` -/
  twg : Int
  start : StartPc E
  waiter : WaiterPc
  /-- external `Cancel` calls whose `select` sent on `t` and that have not yet run `h.twg.Done()` -/
  ext : Nat
  /-- a Go runtime panic happened (send on a closed channel, negative WaitGroup counter) -/
  panicked : Bool
  log : List (Event E)
deriving DecidableEq, Repr

/-- Scheduler and environment choices. -/
inductive Action (E : Type) where
  /-- a producer offers `e` on input channel `i` -/
  | send (i : Nat) (e : E) : Action E
  /-- a producer closes input channel `i` -/
  | close (i : Nat) : Action E
  /-- merger worker `i` takes its next step -/
  | worker (i : Nat) : Action E
  | closer : Action E
  | start : Action E
  | waiter : Action E
  /-- an external caller of `Cancel` executes its `select` -/
  | cancel : Action E
  /-- an external caller whose `select` sent on `t` executes `h.twg.Done(); return true` -/
  | cancelDone : Action E
deriving DecidableEq, Repr

/-! ## Operations -/

/-- The workers that `mergeErrors` spawns (lines 11-46): one per channel, each at the
head of its loop. -/
def mergeErrors {E : Type} (errs : List (InChan E)) : List (Worker E) :=
  errs.map (fun ch => { ch := ch, pc := WorkerPc.recv })

/-- The state in which `NewHandler(c, errs...)` returns.  `out` is made with
capacity `len(errs)`, `wg.Add(len(errs))`, `t` has capacity one and is empty,
`h.twg.Add(1)`, and all goroutines are spawned but have not run. -/
def NewHandler {E σ : Type} (c : σ) (errs : List (InChan E)) : State E σ :=
  { ws := mergeErrors errs
    wg := (errs.length : Int)
    out := []
    cap := errs.length
    outClosed := false
    closer := CloserPc.waiting
    c := c
    q := false
    t := false
    twg := 1
    start := StartPc.loop false
    waiter := WaiterPc.waiting
    ext := 0
    panicked := false
    log := [] }

/-- The `select` of `Handler.Cancel` (lines 130-137): a non-blocking send on `t`.
Returns whether the send was accepted.  The `default` branch logs and returns false. -/
def Cancel_select {E σ : Type} (ext : Bool) (s : State E σ) : Bool × State E σ :=
  if s.t then (false, { s with log := s.log ++ [Event.cancel ext false, Event.ret false] })
  else (true, { s with t := true, log := s.log ++ [Event.cancel ext true] })

/-- Lines 132-133 of `Handler.Cancel`: `h.twg.Done(); return true`.  A WaitGroup
whose counter would become negative panics. -/
def Cancel_done {E σ : Type} (s : State E σ) : State E σ :=
  { s with twg := s.twg - 1, panicked := s.panicked || decide (s.twg - 1 < 0),
           log := s.log ++ [Event.ret true] }

/-- The whole of `Handler.Cancel`, run without interruption by one external caller. -/
def Cancel {E σ : Type} (s : State E σ) : Bool × State E σ :=
  if (Cancel_select true s).1 then (true, Cancel_done (Cancel_select true s).2)
  else (false, (Cancel_select true s).2)

/-- The method `Handler.Wait`: it can return exactly when `q` is closed. -/
def Wait {E σ : Type} (s : State E σ) : Option Unit :=
  if s.q then some () else none

/-- The method `Handler.Err`: `Wait`, then the consumer's `Err()`. -/
def Err {E σ : Type} (C : Consumer E σ) (s : State E σ) : Option (Option E) :=
  (Wait s).map (fun _ => C.Err s.c)

/-- A producer's `ch <- e` on input channel `i`.  Sending on a closed channel is
the producer's panic and is not a step of this system. -/
def sendStep {E σ : Type} (i : Nat) (e : E) (s : State E σ) : Option (State E σ) :=
  match s.ws[i]? with
  | none => none
  | some w =>
    if w.ch.closed then none
    else some { s with ws := s.ws.set i { w with ch := { buf := w.ch.buf ++ [e], closed := false } },
                       log := s.log ++ [Event.offer i e] }

/-- A producer's `close(ch)` on input channel `i`. -/
def closeStep {E σ : Type} (i : Nat) (s : State E σ) : Option (State E σ) :=
  match s.ws[i]? with
  | none => none
  | some w =>
    if w.ch.closed then none
    else some { s with ws := s.ws.set i { w with ch := { buf := w.ch.buf, closed := true } } }

/-- One step of merger worker `i` (lines 19-45). -/
def workerStep {E σ : Type} (i : Nat) (s : State E σ) : Option (State E σ) :=
  match s.ws[i]? with
  | none => none
  | some w =>
    match w.pc with
    | WorkerPc.recv =>
      match w.ch.buf with
      | e :: rest =>
        some { s with ws := s.ws.set i { ch := { buf := rest, closed := w.ch.closed }, pc := WorkerPc.check e },
                      log := s.log ++ [Event.recv i e] }
      | [] =>
        if w.ch.closed then
          some { s with ws := s.ws.set i { w with pc := WorkerPc.done }, wg := s.wg - 1,
                        panicked := s.panicked || decide (s.wg - 1 < 0) }
        else none
    | WorkerPc.check e =>
      if s.q then
        some { s with ws := s.ws.set i { w with pc := WorkerPc.done }, wg := s.wg - 1,
                      panicked := s.panicked || decide (s.wg - 1 < 0),
                      log := s.log ++ [Event.drop i e] }
      else some { s with ws := s.ws.set i { w with pc := WorkerPc.send e } }
    | WorkerPc.send e =>
      if s.outClosed then some { s with panicked := true }
      else if s.out.length < s.cap then
        some { s with ws := s.ws.set i { w with pc := WorkerPc.recv }, out := s.out ++ [(i, e)],
                      log := s.log ++ [Event.fwd i e] }
      else none
    | WorkerPc.done => none

/-- One step of `wg.Wait(); close(out)` (lines 49-52). -/
def closerStep {E σ : Type} (s : State E σ) : Option (State E σ) :=
  match s.closer with
  | CloserPc.waiting => if s.wg = 0 then some { s with closer := CloserPc.closing } else none
  | CloserPc.closing =>
    some { s with outClosed := true, closer := CloserPc.done, panicked := s.panicked || s.outClosed,
                  log := s.log ++ [Event.closeOut] }
  | CloserPc.done => none

/-- One step of `Handler.start` (lines 90-104). -/
def start {E σ : Type} (C : Consumer E σ) (s : State E σ) : Option (State E σ) :=
  match s.start with
  | StartPc.loop d =>
    match s.out with
    | (i, e) :: rest =>
      if d then
        some { s with out := rest, log := s.log ++ [Event.take i e, Event.discard i e] }
      else
        some { s with out := rest, start := StartPc.deliver i e, log := s.log ++ [Event.take i e] }
    | [] => if s.outClosed then some { s with start := StartPc.cancelOut } else none
  | StartPc.deliver i e =>
    if (C.Consume s.c e).1 then
      some { s with c := (C.Consume s.c e).2, start := StartPc.loop false,
                    log := s.log ++ [Event.consume i e true] }
    else
      some { s with c := (C.Consume s.c e).2, start := StartPc.cancelIn,
                    log := s.log ++ [Event.consume i e false] }
  | StartPc.cancelIn =>
    if (Cancel_select false s).1 then
      some { (Cancel_select false s).2 with start := StartPc.cancelInDone }
    else some { (Cancel_select false s).2 with start := StartPc.loop true }
  | StartPc.cancelInDone => some { Cancel_done s with start := StartPc.loop true }
  | StartPc.cancelOut =>
    if (Cancel_select false s).1 then
      some { (Cancel_select false s).2 with start := StartPc.cancelOutDone }
    else some { (Cancel_select false s).2 with start := StartPc.finished }
  | StartPc.cancelOutDone => some { Cancel_done s with start := StartPc.finished }
  | StartPc.finished => none

/-- One step of `Handler.waitAndClose` (lines 107-111). -/
def waitAndClose {E σ : Type} (s : State E σ) : Option (State E σ) :=
  match s.waiter with
  | WaiterPc.waiting => if s.twg = 0 then some { s with waiter := WaiterPc.closing } else none
  | WaiterPc.closing =>
    some { s with q := true, waiter := WaiterPc.done, panicked := s.panicked || s.q,
                  log := s.log ++ [Event.closeQ] }
  | WaiterPc.done => none

/-- The `select` of an external `Cancel` call. -/
def cancelStep {E σ : Type} (s : State E σ) : Option (State E σ) :=
  if (Cancel_select true s).1 then some { (Cancel_select true s).2 with ext := s.ext + 1 }
  else some (Cancel_select true s).2

/-- The `h.twg.Done(); return true` of an external `Cancel` call that sent on `t`. -/
def cancelDoneStep {E σ : Type} (s : State E σ) : Option (State E σ) :=
  if 0 < s.ext then some { Cancel_done s with ext := s.ext - 1 } else none

/-- The transition function: `none` when the chosen party has no step to take
(blocked, finished or absent) or the program has panicked. -/
def step {E σ : Type} (C : Consumer E σ) (s : State E σ) (a : Action E) : Option (State E σ) :=
  if s.panicked then none
  else
    match a with
    | Action.send i e => sendStep i e s
    | Action.close i => closeStep i s
    | Action.worker i => workerStep i s
    | Action.closer => closerStep s
    | Action.start => start C s
    | Action.waiter => waitAndClose s
    | Action.cancel => cancelStep s
    | Action.cancelDone => cancelDoneStep s

/-- A scheduled action that has no step leaves the state as it is. -/
def next {E σ : Type} (C : Consumer E σ) (s : State E σ) (a : Action E) : State E σ :=
  (step C s a).getD s

/-- Run a schedule. -/
def exec {E σ : Type} (C : Consumer E σ) (s : State E σ) (acts : List (Action E)) : State E σ :=
  acts.foldl (next C) s

/-- States that some schedule reaches from `NewHandler c errs`.  Scheduling a
party that has no step changes nothing, so these are the states reachable by
steps that are taken. -/
def Reachable {E σ : Type} (C : Consumer E σ) (c : σ) (errs : List (InChan E)) (s : State E σ) : Prop :=
  ∃ acts : List (Action E), exec C (NewHandler c errs) acts = s

/-! ## Projections of the event log -/

/-- The value of a `offer` event of channel `i`. -/
def Event.offerAt {E : Type} (i : Nat) : Event E → Option E
  | Event.offer j e => if j = i then some e else none
  | _ => none

/-- Values offered on input channel `i`, in order. -/
def offerOf {E : Type} (i : Nat) (log : List (Event E)) : List E :=
  log.filterMap (Event.offerAt i)

/-- The value of a `recv` event of channel `i`. -/
def Event.recvAt {E : Type} (i : Nat) : Event E → Option E
  | Event.recv j e => if j = i then some e else none
  | _ => none

/-- Values worker `i` received from its input channel, in order. -/
def recvOf {E : Type} (i : Nat) (log : List (Event E)) : List E :=
  log.filterMap (Event.recvAt i)

/-- The value of a `drop` event of channel `i`. -/
def Event.dropAt {E : Type} (i : Nat) : Event E → Option E
  | Event.drop j e => if j = i then some e else none
  | _ => none

/-- Values worker `i` dropped at its cancellation check. -/
def dropOf {E : Type} (i : Nat) (log : List (Event E)) : List E :=
  log.filterMap (Event.dropAt i)

/-- The value of a `fwd` event of channel `i`. -/
def Event.fwdAt {E : Type} (i : Nat) : Event E → Option E
  | Event.fwd j e => if j = i then some e else none
  | _ => none

/-- Values worker `i` sent on the merged channel, in order. -/
def fwdOf {E : Type} (i : Nat) (log : List (Event E)) : List E :=
  log.filterMap (Event.fwdAt i)

/-- The tagged value of a `recv` event. -/
def Event.asRecv {E : Type} : Event E → Option (Nat × E)
  | Event.recv i e => some (i, e)
  | _ => none

/-- All values received from the input channels, tagged with the channel. -/
def recvL {E : Type} (log : List (Event E)) : List (Nat × E) :=
  log.filterMap Event.asRecv

/-- The tagged value of a `drop` event. -/
def Event.asDrop {E : Type} : Event E → Option (Nat × E)
  | Event.drop i e => some (i, e)
  | _ => none

/-- All values dropped at a cancellation check, tagged. -/
def dropL {E : Type} (log : List (Event E)) : List (Nat × E) :=
  log.filterMap Event.asDrop

/-- The tagged value of a `fwd` event. -/
def Event.asFwd {E : Type} : Event E → Option (Nat × E)
  | Event.fwd i e => some (i, e)
  | _ => none

/-- The merged sequence: everything sent on the merged channel, in order, tagged. -/
def fwdL {E : Type} (log : List (Event E)) : List (Nat × E) :=
  log.filterMap Event.asFwd

/-- The tagged value of a `take` event. -/
def Event.asTake {E : Type} : Event E → Option (Nat × E)
  | Event.take i e => some (i, e)
  | _ => none

/-- Everything the consumption loop received from the merged channel. -/
def takeL {E : Type} (log : List (Event E)) : List (Nat × E) :=
  log.filterMap Event.asTake

/-- The tagged value of a `discard` event. -/
def Event.asDiscard {E : Type} : Event E → Option (Nat × E)
  | Event.discard i e => some (i, e)
  | _ => none

/-- The values the consumption loop read and skipped. -/
def discardL {E : Type} (log : List (Event E)) : List (Nat × E) :=
  log.filterMap Event.asDiscard

/-- The tagged value and the result of a `consume` event. -/
def Event.asConsume {E : Type} : Event E → Option ((Nat × E) × Bool)
  | Event.consume i e ok => some ((i, e), ok)
  | _ => none

/-- The invocations of `Consume`, with their results. -/
def consumeL {E : Type} (log : List (Event E)) : List ((Nat × E) × Bool) :=
  log.filterMap Event.asConsume

/-- The outcome of a `cancel` event. -/
def Event.asCancel {E : Type} : Event E → Option Bool
  | Event.cancel _ ok => some ok
  | _ => none

/-- The outcomes of the `select`s of all `Cancel` calls, in the order they ran. -/
def cancelL {E : Type} (log : List (Event E)) : List Bool :=
  log.filterMap Event.asCancel

/-- The outcome of a `cancel` event of an external caller. -/
def Event.asExtCancel {E : Type} : Event E → Option Bool
  | Event.cancel true ok => some ok
  | _ => none

/-- The outcomes of the `select`s of the external `Cancel` calls. -/
def extCancelL {E : Type} (log : List (Event E)) : List Bool :=
  log.filterMap Event.asExtCancel

/-- The value of a `ret` event. -/
def Event.asRet {E : Type} : Event E → Option Bool
  | Event.ret ok => some ok
  | _ => none

/-- The values returned by the `Cancel` calls that have returned. -/
def retL {E : Type} (log : List (Event E)) : List Bool :=
  log.filterMap Event.asRet

/-- Whether the event is the closing of `q`. -/
def Event.isCloseQ {E : Type} : Event E → Bool
  | Event.closeQ => true
  | _ => false

/-- The events that happened before `q` was closed. -/
def beforeSignal {E : Type} (log : List (Event E)) : List (Event E) :=
  log.takeWhile (fun ev => !ev.isCloseQ)

/-- The closing of `q` and the events that happened after it. -/
def afterSignal {E : Type} (log : List (Event E)) : List (Event E) :=
  log.dropWhile (fun ev => !ev.isCloseQ)

/-- The values of the tagged list that carry tag `i`. -/
def ofTag {E : Type} (i : Nat) (l : List (Nat × E)) : List E :=
  (l.filter (fun x => decide (x.1 = i))).map Prod.snd

/-- The sequence of values of input stream `i`: what channel `i` held when the
handler was created, followed by what was offered on it since. -/
def streamOf {E : Type} (errs : List (InChan E)) (log : List (Event E)) (i : Nat) : List E :=
  ((errs[i]?).map InChan.buf).getD [] ++ offerOf i log

/-! ## Auxiliary notions on program counters -/

/-- The worker has not returned. -/
def Worker.live {E : Type} (w : Worker E) : Bool :=
  match w.pc with
  | WorkerPc.done => false
  | _ => true

/-- The value a worker has received and neither forwarded nor dropped. -/
def WorkerPc.held {E : Type} : WorkerPc E → List E
  | WorkerPc.check e => [e]
  | WorkerPc.send e => [e]
  | _ => []

/-- The worker holds a checked value and is about to forward it. -/
def Worker.sending {E : Type} (w : Worker E) : Bool :=
  match w.pc with
  | WorkerPc.send _ => true
  | _ => false

/-- The consumption loop is between a successful `select` of `Cancel` and `twg.Done()`. -/
def StartPc.holds {E : Type} : StartPc E → Nat
  | StartPc.cancelInDone => 1
  | StartPc.cancelOutDone => 1
  | _ => 0

/-- The consumption loop has left `for err := range h.errs`. -/
def StartPc.past {E : Type} : StartPc E → Bool
  | StartPc.cancelOut => true
  | StartPc.cancelOutDone => true
  | StartPc.finished => true
  | _ => false

/-- The value the consumption loop has received and not yet passed to `Consume`. -/
def StartPc.pending {E : Type} : StartPc E → List (Nat × E)
  | StartPc.deliver i e => [(i, e)]
  | _ => []

/-- The consumption loop will not call `Consume` again: `done` is set, or is
about to be set, or the loop is over. -/
def StartPc.stopped {E : Type} : StartPc E → Bool
  | StartPc.loop d => d
  | StartPc.deliver _ _ => false
  | StartPc.cancelIn => true
  | StartPc.cancelInDone => true
  | _ => false

/-- The `Handler` fields of the state (consumer, merged channel, `q`, `t`, `twg`). -/
def handlerView {E σ : Type} (s : State E σ) : σ × List (Nat × E) × Bool × Bool × Bool × Int :=
  (s.c, s.out, s.outClosed, s.q, s.t, s.twg)

/-! ## The consumption loop as the specification words it -/

/-- The `Consume` calls over a merged sequence: every value up to and including
the first for which `Consume` returns false, the whole sequence if it never does. -/
def deliveredSpec {E σ : Type} (C : Consumer E σ) : σ → List (Nat × E) → List ((Nat × E) × Bool)
  | _, [] => []
  | c, x :: xs =>
    if (C.Consume c x.2).1 then (x, true) :: deliveredSpec C (C.Consume c x.2).2 xs
    else [(x, false)]

/-- The consumer state after those calls. -/
def consumerAfter {E σ : Type} (C : Consumer E σ) : σ → List (Nat × E) → σ
  | c, [] => c
  | c, x :: xs =>
    if (C.Consume c x.2).1 then consumerAfter C (C.Consume c x.2).2 xs
    else (C.Consume c x.2).2

/-! ## The transitions, one constructor per atomic step -/

/-- The number of workers that have not returned. -/
def liveCount {E : Type} (ws : List (Worker E)) : Nat :=
  ws.countP Worker.live

/-- The consumption loop has run the `select` of a `Cancel` call. -/
def StartPc.didCancel {E : Type} : StartPc E → Bool
  | StartPc.loop d => d
  | StartPc.cancelInDone => true
  | StartPc.cancelOutDone => true
  | StartPc.finished => true
  | _ => false

/-- Relational presentation of `step`: `Step C s a s1` lists the atomic steps one
by one, with the guard under which each is taken. -/
inductive Step {E σ : Type} (C : Consumer E σ) (s : State E σ) : Action E → State E σ → Prop where
  | offer (i : Nat) (e : E) (w : Worker E) (hw : s.ws[i]? = some w) (hc : w.ch.closed = false) :
      Step C s (Action.send i e)
        { s with ws := s.ws.set i { w with ch := { buf := w.ch.buf ++ [e], closed := false } },
                 log := s.log ++ [Event.offer i e] }
  | close (i : Nat) (w : Worker E) (hw : s.ws[i]? = some w) (hc : w.ch.closed = false) :
      Step C s (Action.close i)
        { s with ws := s.ws.set i { w with ch := { buf := w.ch.buf, closed := true } } }
  | recv (i : Nat) (w : Worker E) (e : E) (rest : List E) (hw : s.ws[i]? = some w)
      (hpc : w.pc = WorkerPc.recv) (hb : w.ch.buf = e :: rest) :
      Step C s (Action.worker i)
        { s with ws := s.ws.set i { ch := { buf := rest, closed := w.ch.closed }, pc := WorkerPc.check e },
                 log := s.log ++ [Event.recv i e] }
  | eof (i : Nat) (w : Worker E) (hw : s.ws[i]? = some w)
      (hpc : w.pc = WorkerPc.recv) (hb : w.ch.buf = []) (hc : w.ch.closed = true) :
      Step C s (Action.worker i)
        { s with ws := s.ws.set i { w with pc := WorkerPc.done }, wg := s.wg - 1,
                 panicked := s.panicked || decide (s.wg - 1 < 0) }
  | drop (i : Nat) (w : Worker E) (e : E) (hw : s.ws[i]? = some w)
      (hpc : w.pc = WorkerPc.check e) (hq : s.q = true) :
      Step C s (Action.worker i)
        { s with ws := s.ws.set i { w with pc := WorkerPc.done }, wg := s.wg - 1,
                 panicked := s.panicked || decide (s.wg - 1 < 0),
                 log := s.log ++ [Event.drop i e] }
  | pass (i : Nat) (w : Worker E) (e : E) (hw : s.ws[i]? = some w)
      (hpc : w.pc = WorkerPc.check e) (hq : s.q = false) :
      Step C s (Action.worker i)
        { s with ws := s.ws.set i { w with pc := WorkerPc.send e } }
  | sendClosed (i : Nat) (w : Worker E) (e : E) (hw : s.ws[i]? = some w)
      (hpc : w.pc = WorkerPc.send e) (ho : s.outClosed = true) :
      Step C s (Action.worker i) { s with panicked := true }
  | fwd (i : Nat) (w : Worker E) (e : E) (hw : s.ws[i]? = some w)
      (hpc : w.pc = WorkerPc.send e) (ho : s.outClosed = false) (hlen : s.out.length < s.cap) :
      Step C s (Action.worker i)
        { s with ws := s.ws.set i { w with pc := WorkerPc.recv }, out := s.out ++ [(i, e)],
                 log := s.log ++ [Event.fwd i e] }
  | closerWake (hpc : s.closer = CloserPc.waiting) (hwg : s.wg = 0) :
      Step C s Action.closer { s with closer := CloserPc.closing }
  | closeOut (hpc : s.closer = CloserPc.closing) :
      Step C s Action.closer
        { s with outClosed := true, closer := CloserPc.done, panicked := s.panicked || s.outClosed,
                 log := s.log ++ [Event.closeOut] }
  | take (i : Nat) (e : E) (rest : List (Nat × E)) (hpc : s.start = StartPc.loop false)
      (ho : s.out = (i, e) :: rest) :
      Step C s Action.start
        { s with out := rest, start := StartPc.deliver i e, log := s.log ++ [Event.take i e] }
  | discard (i : Nat) (e : E) (rest : List (Nat × E)) (hpc : s.start = StartPc.loop true)
      (ho : s.out = (i, e) :: rest) :
      Step C s Action.start
        { s with out := rest, log := s.log ++ [Event.take i e, Event.discard i e] }
  | loopEnd (d : Bool) (hpc : s.start = StartPc.loop d) (ho : s.out = []) (hc : s.outClosed = true) :
      Step C s Action.start { s with start := StartPc.cancelOut }
  | consumeOk (i : Nat) (e : E) (hpc : s.start = StartPc.deliver i e)
      (hok : (C.Consume s.c e).1 = true) :
      Step C s Action.start
        { s with c := (C.Consume s.c e).2, start := StartPc.loop false,
                 log := s.log ++ [Event.consume i e true] }
  | consumeStop (i : Nat) (e : E) (hpc : s.start = StartPc.deliver i e)
      (hok : (C.Consume s.c e).1 = false) :
      Step C s Action.start
        { s with c := (C.Consume s.c e).2, start := StartPc.cancelIn,
                 log := s.log ++ [Event.consume i e false] }
  | cancelInWin (hpc : s.start = StartPc.cancelIn) (ht : s.t = false) :
      Step C s Action.start
        { s with t := true, start := StartPc.cancelInDone, log := s.log ++ [Event.cancel false true] }
  | cancelInLose (hpc : s.start = StartPc.cancelIn) (ht : s.t = true) :
      Step C s Action.start
        { s with start := StartPc.loop true,
                 log := s.log ++ [Event.cancel false false, Event.ret false] }
  | cancelInDone (hpc : s.start = StartPc.cancelInDone) :
      Step C s Action.start
        { s with twg := s.twg - 1, panicked := s.panicked || decide (s.twg - 1 < 0),
                 start := StartPc.loop true, log := s.log ++ [Event.ret true] }
  | cancelOutWin (hpc : s.start = StartPc.cancelOut) (ht : s.t = false) :
      Step C s Action.start
        { s with t := true, start := StartPc.cancelOutDone, log := s.log ++ [Event.cancel false true] }
  | cancelOutLose (hpc : s.start = StartPc.cancelOut) (ht : s.t = true) :
      Step C s Action.start
        { s with start := StartPc.finished,
                 log := s.log ++ [Event.cancel false false, Event.ret false] }
  | cancelOutDone (hpc : s.start = StartPc.cancelOutDone) :
      Step C s Action.start
        { s with twg := s.twg - 1, panicked := s.panicked || decide (s.twg - 1 < 0),
                 start := StartPc.finished, log := s.log ++ [Event.ret true] }
  | waiterWake (hpc : s.waiter = WaiterPc.waiting) (htwg : s.twg = 0) :
      Step C s Action.waiter { s with waiter := WaiterPc.closing }
  | closeQ (hpc : s.waiter = WaiterPc.closing) :
      Step C s Action.waiter
        { s with q := true, waiter := WaiterPc.done, panicked := s.panicked || s.q,
                 log := s.log ++ [Event.closeQ] }
  | extWin (ht : s.t = false) :
      Step C s Action.cancel
        { s with t := true, ext := s.ext + 1, log := s.log ++ [Event.cancel true true] }
  | extLose (ht : s.t = true) :
      Step C s Action.cancel
        { s with log := s.log ++ [Event.cancel true false, Event.ret false] }
  | extDone (hext : 0 < s.ext) :
      Step C s Action.cancelDone
        { s with twg := s.twg - 1, panicked := s.panicked || decide (s.twg - 1 < 0),
                 ext := s.ext - 1, log := s.log ++ [Event.ret true] }

/-- Control invariant: counters, channels and program counters agree. -/
structure InvA {E σ : Type} (s : State E σ) : Prop where
  noPanic : s.panicked = false
  cap_eq : s.cap = s.ws.length
  wg_eq : s.wg = (liveCount s.ws : Int)
  closer_wg : s.closer ≠ CloserPc.waiting → s.wg = 0
  closed_iff : s.outClosed = true ↔ s.closer = CloserPc.done
  out_le : s.out.length ≤ s.cap
  past_out : s.start.past = true → s.outClosed = true ∧ s.out = []
  latch : (s.t = false ∧ s.twg = 1 ∧ s.ext + s.start.holds = 0) ∨
    (s.t = true ∧ s.twg = 1 ∧ s.ext + s.start.holds = 1) ∨
    (s.t = true ∧ s.twg = 0 ∧ s.ext + s.start.holds = 0)
  waiter_twg : s.waiter ≠ WaiterPc.waiting → s.twg = 0
  q_iff : s.q = true ↔ s.waiter = WaiterPc.done
  did_t : s.start.didCancel = true → s.t = true

/-- Data-flow invariant: what the log says about the input streams, the workers
and the merged channel agrees with the state.  `errs` are the channels the
handler was created with. -/
structure InvB {E σ : Type} (errs : List (InChan E)) (s : State E σ) : Prop where
  len : s.ws.length = errs.length
  stream : ∀ (i : Nat) (w : Worker E), s.ws[i]? = some w →
    streamOf errs s.log i = recvOf i s.log ++ w.ch.buf
  flow : ∀ (i : Nat) (w : Worker E), s.ws[i]? = some w →
    recvOf i s.log = fwdOf i s.log ++ w.pc.held ++ dropOf i s.log
  drop_done : ∀ (i : Nat) (w : Worker E), s.ws[i]? = some w →
    dropOf i s.log ≠ [] → w.pc = WorkerPc.done
  drop_le : ∀ (i : Nat), (dropOf i s.log).length ≤ 1
  merged : fwdL s.log = takeL s.log ++ s.out
  tagsR : ∀ x ∈ recvL s.log, x.1 < s.ws.length
  tagsF : ∀ x ∈ fwdL s.log, x.1 < s.ws.length
  tagsD : ∀ x ∈ dropL s.log, x.1 < s.ws.length

/-- The consumption loop will not call `Consume` again. -/
def StartPc.quiet {E : Type} : StartPc E → Bool
  | StartPc.loop d => d
  | StartPc.deliver _ _ => false
  | StartPc.cancelIn => false
  | _ => true

/-- Handshake invariant: what the log says about `Cancel` calls and about the
closing of `q` agrees with `t`, `twg` and `q`. -/
structure InvH {E σ : Type} (s : State E σ) : Prop where
  shape : (s.t = false ∧ cancelL s.log = []) ∨
    (s.t = true ∧ ∃ n : Nat, cancelL s.log = true :: List.replicate n false)
  rets : ((retL s.log).count true : Int) + s.twg = 1
  winner : s.t = true → true ∈ extCancelL s.log ∨ s.start.quiet = true
  sigF : s.q = false → afterSignal s.log = []
  sigT : s.q = true → afterSignal s.log ≠ []

/-- Late-receive invariant: after `q` was closed a worker has received at most
one value, and if it has, it is at its cancellation check or has dropped a value
and returned. -/
structure InvD {E σ : Type} (s : State E σ) : Prop where
  late : ∀ (i : Nat) (w : Worker E), s.ws[i]? = some w →
    (recvOf i (afterSignal s.log)).length ≤ 1 ∧
    (recvOf i (afterSignal s.log) ≠ [] →
      (∃ e, w.pc = WorkerPc.check e) ∨ (w.pc = WorkerPc.done ∧ dropOf i s.log ≠ []))

/-- Causality invariant: what worker `i` had received when `q` was closed had
been offered on its channel by then. -/
structure InvE {E σ : Type} (errs : List (InChan E)) (s : State E σ) : Prop where
  causal : ∀ (i : Nat),
    (recvOf i (beforeSignal s.log)).length ≤ (streamOf errs (beforeSignal s.log) i).length

/-- The range loop of `Handler.start` run over a whole merged sequence, with the
local variable `done`: the list of `Consume` calls it makes, with their results. -/
def startLoop {E σ : Type} (C : Consumer E σ) : σ → Bool → List (Nat × E) → List ((Nat × E) × Bool)
  | _, _, [] => []
  | c, true, _ :: xs => startLoop C c true xs
  | c, false, x :: xs =>
    if (C.Consume c x.2).1 then (x, true) :: startLoop C (C.Consume c x.2).2 false xs
    else (x, false) :: startLoop C (C.Consume c x.2).2 true xs

/-- The consumption loop may still call `Consume`: it is in the loop with `done` unset. -/
def StartPc.fresh {E : Type} : StartPc E → Bool
  | StartPc.loop d => !d
  | StartPc.deliver _ _ => true
  | _ => false

/-- The consumption loop is in the loop and `Consume` has returned false. -/
def StartPc.halted {E : Type} : StartPc E → Bool
  | StartPc.loop d => d
  | StartPc.cancelIn => true
  | StartPc.cancelInDone => true
  | _ => false

/-- Consumption invariant: the calls of `Consume` in the log are the ones the
specification prescribes for the values read so far.  `c0` is the consumer state
the handler was created with. -/
structure InvC {E σ : Type} (C : Consumer E σ) (c0 : σ) (s : State E σ) : Prop where
  split : takeL s.log = (consumeL s.log).map Prod.fst ++ s.start.pending ++ discardL s.log
  spec : consumeL s.log = deliveredSpec C c0 ((consumeL s.log).map Prod.fst ++ discardL s.log)
  cons : s.c = consumerAfter C c0 ((consumeL s.log).map Prod.fst ++ discardL s.log)
  fresh : s.start.fresh = true → (∀ r ∈ consumeL s.log, r.2 = true) ∧ discardL s.log = []
  halted : s.start.halted = true → ∃ r ∈ consumeL s.log, r.2 = false

/-- Input streams that hold the given sequences of errors and are closed. -/
def closedStreams {E : Type} (streams : List (List E)) : List (InChan E) :=
  streams.map (fun vs => { buf := vs, closed := true })

/-- The consumption loop has not had `Consume` return false. -/
def StartPc.plain {E : Type} : StartPc E → Bool
  | StartPc.loop d => !d
  | StartPc.cancelIn => false
  | StartPc.cancelInDone => false
  | _ => true

/-- Invariant of the executions in which the consumer accepts every error, no
external caller cancels and all input streams are closed from the start: only the
consumption loop's final `Cancel` takes the permit, nothing is offered, dropped
or discarded, and a worker that has returned has emptied its channel. -/
structure InvF {E σ : Type} (s : State E σ) : Prop where
  noExt : s.ext = 0
  plain : s.start.plain = true
  taken : s.t = true → s.start = StartPc.cancelOutDone ∨ s.start = StartPc.finished
  closed : ∀ (i : Nat) (w : Worker E), s.ws[i]? = some w → w.ch.closed = true
  noOffer : ∀ i : Nat, offerOf i s.log = []
  noDrop : ∀ i : Nat, dropOf i s.log = []
  noDiscard : discardL s.log = []
  drained : ∀ (i : Nat) (w : Worker E), s.ws[i]? = some w → w.pc = WorkerPc.done → w.ch.buf = []

/-! ## A measure of the work that remains -/

/-- Steps the worker still has to take for the value it holds, plus one while it runs. -/
def WorkerPc.weight {E : Type} : WorkerPc E → Nat
  | WorkerPc.recv => 1
  | WorkerPc.check _ => 10
  | WorkerPc.send _ => 9
  | WorkerPc.done => 0

/-- Work left for one worker: ten units per value waiting in its channel. -/
def Worker.weight {E : Type} (w : Worker E) : Nat :=
  10 * w.ch.buf.length + w.pc.weight

/-- Work left for the goroutine that closes the merged channel. -/
def CloserPc.weight : CloserPc → Nat
  | CloserPc.waiting => 2
  | CloserPc.closing => 1
  | CloserPc.done => 0

/-- Work left for the consumption loop besides the values still to come. -/
def StartPc.weight {E : Type} : StartPc E → Nat
  | StartPc.loop _ => 4
  | StartPc.deliver _ _ => 10
  | StartPc.cancelIn => 4
  | StartPc.cancelInDone => 4
  | StartPc.cancelOut => 3
  | StartPc.cancelOutDone => 2
  | StartPc.finished => 0

/-- Work left for `waitAndClose`. -/
def WaiterPc.weight : WaiterPc → Nat
  | WaiterPc.waiting => 2
  | WaiterPc.closing => 1
  | WaiterPc.done => 0

/-- The work that remains in a state; every step of an execution with closed
streams, an accepting consumer and no external cancel decreases it. -/
def remaining {E σ : Type} (s : State E σ) : Nat :=
  (s.ws.map Worker.weight).sum + 7 * s.out.length + s.closer.weight + s.start.weight
    + s.waiter.weight

/-- All invariants together. -/
structure Inv {E σ : Type} (C : Consumer E σ) (c : σ) (errs : List (InChan E)) (s : State E σ) :
    Prop where
  ctl : InvA s
  flow : InvB errs s
  hand : InvH s
  late : InvD s
  cons : InvC C c s
  causal : InvE errs s

/-! ## Concrete scenarios -/

/-- The consumer of the tests (`mapConsumer`): records every error in a set,
always returns true, and has no final error. -/
def mapConsumer : Consumer String (List String) :=
  { Consume := fun m err => (true, if err ∈ m then m else m ++ [err])
    Err := fun _ => none }

/-- Modelled from the spec: `DefaultConsumer`, which the tests use and whose
declaration is not among the sources; the specification calls it a default
pass-through.  Error values are `Option String`, `none` being Go's `nil`. -/
def DefaultConsumer : Consumer (Option String) Unit :=
  { Consume := fun u _ => (true, u)
    Err := fun _ => none }

/-- A consumer that stops at the first error equal to `bad`. -/
def stopAt (bad : Nat) : Consumer Nat Unit :=
  { Consume := fun u err => (decide (err ≠ bad), u)
    Err := fun _ => none }

/-- The channels of `testRangeAll`: three channels of capacity one, each holding
one error and closed. -/
def rangeAllErrs : List (InChan String) :=
  [{ buf := ["0"], closed := true }, { buf := ["1"], closed := true }, { buf := ["2"], closed := true }]

/-- One complete schedule of `testRangeAll`. -/
def rangeAllSched : List (Action String) :=
  [Action.worker 2, Action.worker 0, Action.worker 2, Action.worker 1, Action.worker 2,
   Action.worker 0, Action.start, Action.worker 1, Action.worker 0, Action.worker 1,
   Action.start, Action.start, Action.worker 2, Action.worker 1, Action.start,
   Action.worker 0, Action.closer, Action.start, Action.closer, Action.start, Action.start,
   Action.start, Action.start, Action.waiter, Action.waiter]

/-- The channels of `testCancel`: two open unbuffered channels. -/
def cancelErrs : List (InChan (Option String)) :=
  [{ buf := [], closed := false }, { buf := [], closed := false }]

/-- A schedule of `testCancel`: `ch1 <- nil` is received and forwarded, `Cancel`
runs, `q` is closed, then both `ch2 <- nil` are attempted and the worker, the
consumption loop and the closer run as far as they can. -/
def cancelSched : List (Action (Option String)) :=
  [Action.send 0 none, Action.worker 0, Action.worker 0, Action.worker 0,
   Action.cancel, Action.cancelDone, Action.waiter, Action.waiter,
   Action.send 1 none, Action.send 1 none, Action.worker 1, Action.worker 1, Action.worker 1,
   Action.start, Action.start, Action.start, Action.worker 0, Action.closer]

/-- Three external `Cancel` calls on a fresh handler of `testCancel`; the first
one completes between the second and the third. -/
def cancelThrice : List (Action (Option String)) :=
  [Action.cancel, Action.cancel, Action.cancelDone, Action.cancel]

/-- One closed channel holding the errors 1, 2, 3. -/
def stopErrs : List (InChan Nat) :=
  [{ buf := [1, 2, 3], closed := true }]

/-- A complete schedule over `stopErrs` for the consumer `stopAt 2`: 1 is
consumed, 2 is consumed and refused, 3 is read and discarded. -/
def stopSched : List (Action Nat) :=
  [Action.worker 0, Action.worker 0, Action.worker 0, Action.start, Action.start,
   Action.worker 0, Action.worker 0, Action.worker 0, Action.start, Action.start,
   Action.start, Action.start,
   Action.worker 0, Action.worker 0, Action.worker 0, Action.start,
   Action.worker 0, Action.closer, Action.closer, Action.start, Action.start,
   Action.waiter, Action.waiter]

/-- One open channel on which the error 7 is waiting. -/
def lateErrs : List (InChan Nat) :=
  [{ buf := [7], closed := false }]

/-- The worker forwards 7, an external caller cancels, `q` is closed, and then
the consumption loop reads 7 from the merged channel. -/
def lateConsumeSched : List (Action Nat) :=
  [Action.worker 0, Action.worker 0, Action.worker 0, Action.cancel, Action.cancelDone,
   Action.waiter, Action.waiter, Action.start]

/-- An external caller cancels and `q` is closed before the worker has run. -/
def earlyCancelSched : List (Action Nat) :=
  [Action.cancel, Action.cancelDone, Action.waiter, Action.waiter]

/-- One closed channel holding the error 7. -/
def dropErrs : List (InChan Nat) :=
  [{ buf := [7], closed := true }]

/-- A complete execution over `dropErrs`: cancellation comes first, then the
worker receives 7, drops it and returns, the merged channel is closed and the
consumption loop finishes. -/
def dropSched : List (Action Nat) :=
  [Action.cancel, Action.cancelDone, Action.waiter, Action.waiter, Action.worker 0,
   Action.worker 0, Action.closer, Action.closer, Action.start, Action.start]

/-- One open channel on which the errors 7 and 8 are waiting. -/
def fullErrs : List (InChan Nat) :=
  [{ buf := [7, 8], closed := false }]

/-- The worker forwards 7, receives 8 and passes its cancellation check; then an
external caller cancels and `q` is closed. -/
def fullSched : List (Action Nat) :=
  [Action.worker 0, Action.worker 0, Action.worker 0, Action.worker 0, Action.worker 0,
   Action.cancel, Action.cancelDone, Action.waiter, Action.waiter]

/-! # Theorems -/

/-! ## Log projections over appended events -/

@[simp] theorem offerOf_nil {E : Type} (i : Nat) : offerOf i ([] : List (Event E)) = [] := rfl

@[simp] theorem offerOf_append {E : Type} (i : Nat) (l m : List (Event E)) :
    offerOf i (l ++ m) = offerOf i l ++ offerOf i m := by
  simp [offerOf]

@[simp] theorem offerOf_cons {E : Type} (i : Nat) (ev : Event E) (l : List (Event E)) :
    offerOf i (ev :: l) = (Event.offerAt i ev).toList ++ offerOf i l := by
  cases h : (Event.offerAt i ev) <;> simp [offerOf, List.filterMap_cons, h]

@[simp] theorem recvOf_nil {E : Type} (i : Nat) : recvOf i ([] : List (Event E)) = [] := rfl

@[simp] theorem recvOf_append {E : Type} (i : Nat) (l m : List (Event E)) :
    recvOf i (l ++ m) = recvOf i l ++ recvOf i m := by
  simp [recvOf]

@[simp] theorem recvOf_cons {E : Type} (i : Nat) (ev : Event E) (l : List (Event E)) :
    recvOf i (ev :: l) = (Event.recvAt i ev).toList ++ recvOf i l := by
  cases h : (Event.recvAt i ev) <;> simp [recvOf, List.filterMap_cons, h]

@[simp] theorem dropOf_nil {E : Type} (i : Nat) : dropOf i ([] : List (Event E)) = [] := rfl

@[simp] theorem dropOf_append {E : Type} (i : Nat) (l m : List (Event E)) :
    dropOf i (l ++ m) = dropOf i l ++ dropOf i m := by
  simp [dropOf]

@[simp] theorem dropOf_cons {E : Type} (i : Nat) (ev : Event E) (l : List (Event E)) :
    dropOf i (ev :: l) = (Event.dropAt i ev).toList ++ dropOf i l := by
  cases h : (Event.dropAt i ev) <;> simp [dropOf, List.filterMap_cons, h]

@[simp] theorem fwdOf_nil {E : Type} (i : Nat) : fwdOf i ([] : List (Event E)) = [] := rfl

@[simp] theorem fwdOf_append {E : Type} (i : Nat) (l m : List (Event E)) :
    fwdOf i (l ++ m) = fwdOf i l ++ fwdOf i m := by
  simp [fwdOf]

@[simp] theorem fwdOf_cons {E : Type} (i : Nat) (ev : Event E) (l : List (Event E)) :
    fwdOf i (ev :: l) = (Event.fwdAt i ev).toList ++ fwdOf i l := by
  cases h : (Event.fwdAt i ev) <;> simp [fwdOf, List.filterMap_cons, h]

@[simp] theorem recvL_nil {E : Type} : recvL ([] : List (Event E)) = [] := rfl

@[simp] theorem recvL_append {E : Type} (l m : List (Event E)) :
    recvL (l ++ m) = recvL l ++ recvL m := by
  simp [recvL]

@[simp] theorem recvL_cons {E : Type} (ev : Event E) (l : List (Event E)) :
    recvL (ev :: l) = (Event.asRecv ev).toList ++ recvL l := by
  cases h : (Event.asRecv ev) <;> simp [recvL, List.filterMap_cons, h]

@[simp] theorem dropL_nil {E : Type} : dropL ([] : List (Event E)) = [] := rfl

@[simp] theorem dropL_append {E : Type} (l m : List (Event E)) :
    dropL (l ++ m) = dropL l ++ dropL m := by
  simp [dropL]

@[simp] theorem dropL_cons {E : Type} (ev : Event E) (l : List (Event E)) :
    dropL (ev :: l) = (Event.asDrop ev).toList ++ dropL l := by
  cases h : (Event.asDrop ev) <;> simp [dropL, List.filterMap_cons, h]

@[simp] theorem fwdL_nil {E : Type} : fwdL ([] : List (Event E)) = [] := rfl

@[simp] theorem fwdL_append {E : Type} (l m : List (Event E)) :
    fwdL (l ++ m) = fwdL l ++ fwdL m := by
  simp [fwdL]

@[simp] theorem fwdL_cons {E : Type} (ev : Event E) (l : List (Event E)) :
    fwdL (ev :: l) = (Event.asFwd ev).toList ++ fwdL l := by
  cases h : (Event.asFwd ev) <;> simp [fwdL, List.filterMap_cons, h]

@[simp] theorem takeL_nil {E : Type} : takeL ([] : List (Event E)) = [] := rfl

@[simp] theorem takeL_append {E : Type} (l m : List (Event E)) :
    takeL (l ++ m) = takeL l ++ takeL m := by
  simp [takeL]

@[simp] theorem takeL_cons {E : Type} (ev : Event E) (l : List (Event E)) :
    takeL (ev :: l) = (Event.asTake ev).toList ++ takeL l := by
  cases h : (Event.asTake ev) <;> simp [takeL, List.filterMap_cons, h]

@[simp] theorem discardL_nil {E : Type} : discardL ([] : List (Event E)) = [] := rfl

@[simp] theorem discardL_append {E : Type} (l m : List (Event E)) :
    discardL (l ++ m) = discardL l ++ discardL m := by
  simp [discardL]

@[simp] theorem discardL_cons {E : Type} (ev : Event E) (l : List (Event E)) :
    discardL (ev :: l) = (Event.asDiscard ev).toList ++ discardL l := by
  cases h : (Event.asDiscard ev) <;> simp [discardL, List.filterMap_cons, h]

@[simp] theorem consumeL_nil {E : Type} : consumeL ([] : List (Event E)) = [] := rfl

@[simp] theorem consumeL_append {E : Type} (l m : List (Event E)) :
    consumeL (l ++ m) = consumeL l ++ consumeL m := by
  simp [consumeL]

@[simp] theorem consumeL_cons {E : Type} (ev : Event E) (l : List (Event E)) :
    consumeL (ev :: l) = (Event.asConsume ev).toList ++ consumeL l := by
  cases h : (Event.asConsume ev) <;> simp [consumeL, List.filterMap_cons, h]

@[simp] theorem cancelL_nil {E : Type} : cancelL ([] : List (Event E)) = [] := rfl

@[simp] theorem cancelL_append {E : Type} (l m : List (Event E)) :
    cancelL (l ++ m) = cancelL l ++ cancelL m := by
  simp [cancelL]

@[simp] theorem cancelL_cons {E : Type} (ev : Event E) (l : List (Event E)) :
    cancelL (ev :: l) = (Event.asCancel ev).toList ++ cancelL l := by
  cases h : (Event.asCancel ev) <;> simp [cancelL, List.filterMap_cons, h]

@[simp] theorem extCancelL_nil {E : Type} : extCancelL ([] : List (Event E)) = [] := rfl

@[simp] theorem extCancelL_append {E : Type} (l m : List (Event E)) :
    extCancelL (l ++ m) = extCancelL l ++ extCancelL m := by
  simp [extCancelL]

@[simp] theorem extCancelL_cons {E : Type} (ev : Event E) (l : List (Event E)) :
    extCancelL (ev :: l) = (Event.asExtCancel ev).toList ++ extCancelL l := by
  cases h : (Event.asExtCancel ev) <;> simp [extCancelL, List.filterMap_cons, h]

@[simp] theorem retL_nil {E : Type} : retL ([] : List (Event E)) = [] := rfl

@[simp] theorem retL_append {E : Type} (l m : List (Event E)) :
    retL (l ++ m) = retL l ++ retL m := by
  simp [retL]

@[simp] theorem retL_cons {E : Type} (ev : Event E) (l : List (Event E)) :
    retL (ev :: l) = (Event.asRet ev).toList ++ retL l := by
  cases h : (Event.asRet ev) <;> simp [retL, List.filterMap_cons, h]

/-! ## The relational presentation covers the transition function -/

theorem step_sound {E σ : Type} (C : Consumer E σ) {s s1 : State E σ} {a : Action E}
    (hs : step C s a = some s1) : s.panicked = false ∧ Step C s a s1 := by
  unfold step at hs
  cases hp : s.panicked with
  | true => simp [hp] at hs
  | false =>
    refine ⟨rfl, ?_⟩
    simp only [hp] at hs
    cases a with
    | send i e =>
      cases hw : s.ws[i]? with
      | none => simp [sendStep, hw] at hs
      | some w =>
        cases hcl : w.ch.closed with
        | true => simp [sendStep, hw, hcl] at hs
        | false =>
          simp [sendStep, hw, hcl] at hs
          subst hs
          simpa [hw, hcl, hp] using @Step.offer _ _ C _ i e w hw hcl
    | close i =>
      cases hw : s.ws[i]? with
      | none => simp [closeStep, hw] at hs
      | some w =>
        cases hcl : w.ch.closed with
        | true => simp [closeStep, hw, hcl] at hs
        | false =>
          simp [closeStep, hw, hcl] at hs
          subst hs
          simpa [hw, hcl, hp] using @Step.close _ _ C _ i w hw hcl
    | worker i =>
      cases hw : s.ws[i]? with
      | none => simp [workerStep, hw] at hs
      | some w =>
        cases hpc : w.pc with
        | recv =>
          cases hb : w.ch.buf with
          | nil =>
            cases hcl : w.ch.closed with
            | false => simp [workerStep, hw, hpc, hb, hcl] at hs
            | true =>
              simp [workerStep, hw, hpc, hb, hcl] at hs
              subst hs
              simpa [hw, hpc, hb, hcl, hp] using @Step.eof _ _ C _ i w hw hpc hb hcl
          | cons e rest =>
            simp [workerStep, hw, hpc, hb] at hs
            subst hs
            simpa [hw, hpc, hb, hp] using @Step.recv _ _ C _ i w e rest hw hpc hb
        | check e =>
          cases hq : s.q with
          | true =>
            simp [workerStep, hw, hpc, hq] at hs
            subst hs
            simpa [hw, hpc, hq, hp] using @Step.drop _ _ C _ i w e hw hpc hq
          | false =>
            simp [workerStep, hw, hpc, hq] at hs
            subst hs
            simpa [hw, hpc, hq, hp] using @Step.pass _ _ C _ i w e hw hpc hq
        | send e =>
          cases ho : s.outClosed with
          | true =>
            simp [workerStep, hw, hpc, ho] at hs
            subst hs
            simpa [hw, hpc, ho, hp] using @Step.sendClosed _ _ C _ i w e hw hpc ho
          | false =>
            by_cases hlen : s.out.length < s.cap
            · simp [workerStep, hw, hpc, ho, hlen] at hs
              subst hs
              simpa [hw, hpc, ho, hlen, hp] using @Step.fwd _ _ C _ i w e hw hpc ho hlen
            · simp [workerStep, hw, hpc, ho, hlen] at hs
        | done => simp [workerStep, hw, hpc] at hs
    | closer =>
      cases hpc : s.closer with
      | waiting =>
        by_cases hwg : s.wg = 0
        · simp [closerStep, hpc, hwg] at hs
          subst hs
          simpa [hpc, hwg, hp] using @Step.closerWake _ _ C _ hpc hwg
        · simp [closerStep, hpc, hwg] at hs
      | closing =>
        simp [closerStep, hpc] at hs
        subst hs
        simpa [hpc, hp] using @Step.closeOut _ _ C _ hpc
      | done => simp [closerStep, hpc] at hs
    | start =>
      cases hpc : s.start with
      | loop d =>
        cases ho : s.out with
        | nil =>
          cases hc : s.outClosed with
          | false => simp [start, hpc, ho, hc] at hs
          | true =>
            simp [start, hpc, ho, hc] at hs
            subst hs
            simpa [hpc, ho, hc, hp] using @Step.loopEnd _ _ C _ d hpc ho hc
        | cons x rest =>
          obtain ⟨i, e⟩ := x
          cases d with
          | true =>
            simp [start, hpc, ho] at hs
            subst hs
            simpa [hpc, ho, hp] using @Step.discard _ _ C _ i e rest hpc ho
          | false =>
            simp [start, hpc, ho] at hs
            subst hs
            simpa [hpc, ho, hp] using @Step.take _ _ C _ i e rest hpc ho
      | deliver i e =>
        cases hok : (C.Consume s.c e).1 with
        | true =>
          simp [start, hpc, hok] at hs
          subst hs
          simpa [hpc, hok, hp] using @Step.consumeOk _ _ C _ i e hpc hok
        | false =>
          simp [start, hpc, hok] at hs
          subst hs
          simpa [hpc, hok, hp] using @Step.consumeStop _ _ C _ i e hpc hok
      | cancelIn =>
        cases ht : s.t with
        | true =>
          simp [start, hpc, Cancel_select, ht] at hs
          subst hs
          simpa [hpc, ht, hp] using @Step.cancelInLose _ _ C _ hpc ht
        | false =>
          simp [start, hpc, Cancel_select, ht] at hs
          subst hs
          simpa [hpc, ht, hp] using @Step.cancelInWin _ _ C _ hpc ht
      | cancelInDone =>
        simp [start, hpc, Cancel_done] at hs
        subst hs
        simpa [hpc, hp] using @Step.cancelInDone _ _ C _ hpc
      | cancelOut =>
        cases ht : s.t with
        | true =>
          simp [start, hpc, Cancel_select, ht] at hs
          subst hs
          simpa [hpc, ht, hp] using @Step.cancelOutLose _ _ C _ hpc ht
        | false =>
          simp [start, hpc, Cancel_select, ht] at hs
          subst hs
          simpa [hpc, ht, hp] using @Step.cancelOutWin _ _ C _ hpc ht
      | cancelOutDone =>
        simp [start, hpc, Cancel_done] at hs
        subst hs
        simpa [hpc, hp] using @Step.cancelOutDone _ _ C _ hpc
      | finished => simp [start, hpc] at hs
    | waiter =>
      cases hpc : s.waiter with
      | waiting =>
        by_cases htwg : s.twg = 0
        · simp [waitAndClose, hpc, htwg] at hs
          subst hs
          simpa [hpc, htwg, hp] using @Step.waiterWake _ _ C _ hpc htwg
        · simp [waitAndClose, hpc, htwg] at hs
      | closing =>
        simp [waitAndClose, hpc] at hs
        subst hs
        simpa [hpc, hp] using @Step.closeQ _ _ C _ hpc
      | done => simp [waitAndClose, hpc] at hs
    | cancel =>
      cases ht : s.t with
      | true =>
        simp [cancelStep, Cancel_select, ht] at hs
        subst hs
        simpa [ht, hp] using @Step.extLose _ _ C _ ht
      | false =>
        simp [cancelStep, Cancel_select, ht] at hs
        subst hs
        simpa [ht, hp] using @Step.extWin _ _ C _ ht
    | cancelDone =>
      by_cases hext : 0 < s.ext
      · simp [cancelDoneStep, Cancel_done, hext] at hs
        subst hs
        simpa [hext, hp] using @Step.extDone _ _ C _ hext
      · simp [cancelDoneStep, hext] at hs

/-- Conversely every listed step is the step the transition function takes. -/
theorem step_complete {E σ : Type} (C : Consumer E σ) {s s1 : State E σ} {a : Action E}
    (hp : s.panicked = false) (hs : Step C s a s1) : step C s a = some s1 := by
  cases hs <;>
    simp [step, hp, sendStep, closeStep, workerStep, closerStep, start, waitAndClose,
      cancelStep, cancelDoneStep, Cancel_select, Cancel_done, *]

theorem next_cases {E σ : Type} (C : Consumer E σ) (s : State E σ) (a : Action E) :
    next C s a = s ∨ Step C s a (next C s a) := by
  unfold next
  cases h : step C s a with
  | none => exact Or.inl rfl
  | some s1 => exact Or.inr (step_sound C h).2

/-- Induction over schedules: a property of the start state that every atomic
step preserves holds after every schedule. -/
theorem exec_induct {E σ : Type} (C : Consumer E σ) (P : State E σ → Prop)
    (hstep : ∀ (s s1 : State E σ) (a : Action E), P s → Step C s a s1 → P s1)
    (s : State E σ) (h0 : P s) (acts : List (Action E)) : P (exec C s acts) := by
  induction acts generalizing s with
  | nil => exact h0
  | cons a as ih =>
    have : exec C s (a :: as) = exec C (next C s a) as := rfl
    rw [this]
    apply ih
    rcases next_cases C s a with h | h
    · rw [h]; exact h0
    · exact hstep s _ a h0 h

theorem exec_append {E σ : Type} (C : Consumer E σ) (s : State E σ) (as bs : List (Action E)) :
    exec C s (as ++ bs) = exec C (exec C s as) bs := by
  simp [exec, List.foldl_append]

/-! ## Control invariant -/

theorem liveCount_set {E : Type} (ws : List (Worker E)) (i : Nat) (w w1 : Worker E)
    (h : ws[i]? = some w) :
    liveCount (ws.set i w1) + (if w.live then 1 else 0)
      = liveCount ws + (if w1.live then 1 else 0) := by
  unfold liveCount
  induction ws generalizing i with
  | nil => simp at h
  | cons x xs ih =>
    cases i with
    | zero =>
      simp at h
      subst h
      simp [List.countP_cons]
      omega
    | succ n =>
      simp at h
      have := ih n h
      simp [List.countP_cons]
      omega

theorem liveCount_set_same {E : Type} (ws : List (Worker E)) (i : Nat) (w w1 : Worker E)
    (h : ws[i]? = some w) (hl : w1.live = w.live) : liveCount (ws.set i w1) = liveCount ws := by
  have := liveCount_set ws i w w1 h
  rw [hl] at this
  omega

theorem liveCount_set_done {E : Type} (ws : List (Worker E)) (i : Nat) (w w1 : Worker E)
    (h : ws[i]? = some w) (hl : w.live = true) (hd : w1.live = false) :
    liveCount (ws.set i w1) + 1 = liveCount ws := by
  have := liveCount_set ws i w w1 h
  rw [hl, hd] at this
  simpa using this

theorem liveCount_pos {E : Type} (ws : List (Worker E)) (i : Nat) (w : Worker E)
    (h : ws[i]? = some w) (hl : w.live = true) : 0 < liveCount ws := by
  have := liveCount_set ws i w w h
  unfold liveCount at *
  apply List.countP_pos_iff.mpr
  exact ⟨w, List.mem_iff_getElem?.mpr ⟨i, h⟩, hl⟩

theorem liveCount_zero {E : Type} (ws : List (Worker E)) (h0 : liveCount ws = 0)
    (i : Nat) (w : Worker E) (h : ws[i]? = some w) : w.pc = WorkerPc.done := by
  cases hpc : w.pc with
  | done => rfl
  | _ =>
    have := liveCount_pos ws i w h (by simp [Worker.live, hpc])
    omega

theorem InvA_init {E σ : Type} (c : σ) (errs : List (InChan E)) : InvA (NewHandler c errs) := by
  constructor <;>
    simp [NewHandler, mergeErrors, StartPc.past, StartPc.holds, StartPc.didCancel, liveCount]
  induction errs with
  | nil => simp
  | cons x xs ih => simp [List.countP_cons, Worker.live, ih]

set_option maxHeartbeats 2000000 in
theorem InvA_step {E σ : Type} (C : Consumer E σ) (s s1 : State E σ) (a : Action E)
    (h : InvA s) (hs : Step C s a s1) : InvA s1 := by
  obtain ⟨h1, h2, h3, h4, h5, h6, h7, h8, h9, h10, h11⟩ := h
  cases hs with
  | offer i e w hw hc =>
    have hl := liveCount_set_same s.ws i w { w with ch := { buf := w.ch.buf ++ [e], closed := false } } hw rfl
    constructor <;> simp only [List.length_set, hl] <;> assumption
  | close i w hw hc =>
    have hl := liveCount_set_same s.ws i w { w with ch := { buf := w.ch.buf, closed := true } } hw rfl
    constructor <;> simp only [List.length_set, hl] <;> assumption
  | recv i w e rest hw hpc hb =>
    have hl := liveCount_set_same s.ws i w { ch := { buf := rest, closed := w.ch.closed }, pc := WorkerPc.check e } hw
      (by simp [Worker.live, hpc])
    constructor <;> simp only [List.length_set, hl] <;> assumption
  | eof i w hw hpc hb hc =>
    have hl := liveCount_set_done s.ws i w { w with pc := WorkerPc.done } hw
      (by simp [Worker.live, hpc]) (by simp [Worker.live])
    constructor <;> simp only [List.length_set] <;> first | assumption | skip
    · simp [h1]; omega
    · omega
    · intro hcl; have := h4 hcl; omega
  | drop i w e hw hpc hq =>
    have hl := liveCount_set_done s.ws i w { w with pc := WorkerPc.done } hw
      (by simp [Worker.live, hpc]) (by simp [Worker.live])
    constructor <;> simp only [List.length_set] <;> first | assumption | skip
    · simp [h1]; omega
    · omega
    · intro hcl; have := h4 hcl; omega
  | pass i w e hw hpc hq =>
    have hl := liveCount_set_same s.ws i w { w with pc := WorkerPc.send e } hw
      (by simp [Worker.live, hpc])
    constructor <;> simp only [List.length_set, hl] <;> assumption
  | sendClosed i w e hw hpc ho =>
    exfalso
    have hp := liveCount_pos s.ws i w hw (by simp [Worker.live, hpc])
    have := h4 (by rw [h5.mp ho]; simp)
    omega
  | fwd i w e hw hpc ho hlen =>
    have hl := liveCount_set_same s.ws i w { w with pc := WorkerPc.recv } hw
      (by simp [Worker.live, hpc])
    constructor <;> simp only [List.length_set, hl, List.length_append, List.length_singleton] <;>
      first | assumption | skip
    intro hp; have := (h7 hp).1; simp [ho] at this
  | closerWake hpc hwg =>
    constructor <;> simp_all
  | closeOut hpc =>
    constructor <;> simp_all
  | waiterWake hpc htwg =>
    constructor <;> simp_all
  | closeQ hpc =>
    constructor <;> simp_all
  | extWin ht =>
    constructor <;> simp_all <;> omega
  | extLose ht =>
    constructor <;> simp_all
  | extDone hext =>
    rcases h8 with h8 | h8 | h8
    all_goals constructor <;> simp_all <;> omega
  | take i e rest hpc ho =>
    constructor <;> simp_all [StartPc.past, StartPc.holds, StartPc.didCancel] <;> omega
  | discard i e rest hpc ho =>
    constructor <;> simp_all [StartPc.past, StartPc.holds, StartPc.didCancel] <;> omega
  | loopEnd d hpc ho hc =>
    constructor <;> simp_all [StartPc.past, StartPc.holds, StartPc.didCancel]
  | consumeOk i e hpc hok =>
    constructor <;> simp_all [StartPc.past, StartPc.holds, StartPc.didCancel]
  | consumeStop i e hpc hok =>
    constructor <;> simp_all [StartPc.past, StartPc.holds, StartPc.didCancel]
  | cancelInWin hpc ht =>
    constructor <;> simp_all [StartPc.past, StartPc.holds, StartPc.didCancel]
  | cancelInLose hpc ht =>
    constructor <;> simp_all [StartPc.past, StartPc.holds, StartPc.didCancel]
  | cancelInDone hpc =>
    rcases h8 with h8 | h8 | h8
    all_goals constructor <;> simp_all [StartPc.past, StartPc.holds, StartPc.didCancel]
  | cancelOutWin hpc ht =>
    constructor <;> simp_all [StartPc.past, StartPc.holds, StartPc.didCancel]
  | cancelOutLose hpc ht =>
    constructor <;> simp_all [StartPc.past, StartPc.holds, StartPc.didCancel]
  | cancelOutDone hpc =>
    rcases h8 with h8 | h8 | h8
    all_goals constructor <;> simp_all [StartPc.past, StartPc.holds, StartPc.didCancel]

/-! ## Data-flow invariant -/

theorem getElem?_set_some {α : Type} (l : List α) (i j : Nat) (x y : α)
    (h : (l.set i x)[j]? = some y) : (j = i ∧ y = x) ∨ (j ≠ i ∧ l[j]? = some y) := by
  rw [List.getElem?_set] at h
  by_cases hij : i = j
  · subst hij
    simp only [if_true] at h
    split at h
    · left; exact ⟨rfl, (Option.some.inj h).symm⟩
    · cases h
  · simp only [hij, if_false] at h
    right
    exact ⟨fun hji => hij hji.symm, h⟩

theorem getElem?_lt_length {α : Type} (l : List α) (i : Nat) (x : α) (h : l[i]? = some x) :
    i < l.length := by
  by_contra hlt
  rw [List.getElem?_eq_none (by omega)] at h
  cases h

theorem getElem?_of_lt {α : Type} (l : List α) (i : Nat) (h : i < l.length) :
    ∃ x, l[i]? = some x := by
  cases hx : l[i]? with
  | some x => exact ⟨x, rfl⟩
  | none =>
    rw [List.getElem?_eq_none_iff] at hx
    omega

theorem ofTag_append {E : Type} (i : Nat) (l m : List (Nat × E)) :
    ofTag i (l ++ m) = ofTag i l ++ ofTag i m := by
  simp [ofTag]

theorem ofTag_recvL {E : Type} (i : Nat) (log : List (Event E)) :
    ofTag i (recvL log) = recvOf i log := by
  induction log with
  | nil => rfl
  | cons ev rest ih =>
    rw [recvL_cons, recvOf_cons, ofTag_append, ih]
    congr 1
    cases ev <;> simp [ofTag, Event.asRecv, Event.recvAt]
    split <;> simp_all [List.filter_cons]

theorem ofTag_fwdL {E : Type} (i : Nat) (log : List (Event E)) :
    ofTag i (fwdL log) = fwdOf i log := by
  induction log with
  | nil => rfl
  | cons ev rest ih =>
    rw [fwdL_cons, fwdOf_cons, ofTag_append, ih]
    congr 1
    cases ev <;> simp [ofTag, Event.asFwd, Event.fwdAt]
    split <;> simp_all [List.filter_cons]

theorem ofTag_dropL {E : Type} (i : Nat) (log : List (Event E)) :
    ofTag i (dropL log) = dropOf i log := by
  induction log with
  | nil => rfl
  | cons ev rest ih =>
    rw [dropL_cons, dropOf_cons, ofTag_append, ih]
    congr 1
    cases ev <;> simp [ofTag, Event.asDrop, Event.dropAt]
    split <;> simp_all [List.filter_cons]

theorem InvB_init {E σ : Type} (c : σ) (errs : List (InChan E)) :
    InvB errs (NewHandler c errs) := by
  constructor <;>
    simp [NewHandler, mergeErrors, streamOf]
  · intro i w hch
    simp [hch]
  · intro i w hch
    simp [WorkerPc.held]

set_option maxHeartbeats 4000000 in
theorem InvB_step {E σ : Type} (C : Consumer E σ) (errs : List (InChan E)) (s s1 : State E σ)
    (a : Action E) (h : InvB errs s) (hs : Step C s a s1) : InvB errs s1 := by
  obtain ⟨b1, b2, b3, b4, b5, b6, b7, b8, b9⟩ := h
  cases hs with
  | offer i e w hw hc =>
    have hi := getElem?_lt_length _ _ _ hw
    have c2 := b2 i w hw
    have c3 := b3 i w hw
    have c4 := b4 i w hw
    have hd0 : w.pc ≠ WorkerPc.done → dropOf i s.log = [] := fun hne => by
      by_contra hcon
      exact hne (c4 hcon)
    refine ⟨by simpa using b1, ?_, ?_, ?_, ?_, ?_, ?_, ?_, ?_⟩
    · intro j w1 hj
      rcases getElem?_set_some _ _ _ _ _ hj with ⟨rfl, rfl⟩ | ⟨hne, hj1⟩
      · simpa [streamOf, Event.offerAt, Event.recvAt, Event.fwdAt, Event.dropAt, Event.asRecv,
          Event.asFwd, Event.asTake, WorkerPc.held, Event.asDrop,
          List.append_assoc] using congrArg (fun l => l ++ [e]) c2
      · have := b2 j w1 hj1
        simpa [streamOf, Event.offerAt, Event.recvAt, Event.fwdAt, Event.dropAt, Event.asRecv,
            Event.asFwd, Event.asTake, WorkerPc.held, Event.asDrop, Ne.symm hne] using this
    · intro j w1 hj
      rcases getElem?_set_some _ _ _ _ _ hj with ⟨rfl, rfl⟩ | ⟨hne, hj1⟩
      · simpa [streamOf, Event.offerAt, Event.recvAt, Event.fwdAt, Event.dropAt, Event.asRecv,
          Event.asFwd, Event.asTake, WorkerPc.held, Event.asDrop] using c3
      · have := b3 j w1 hj1
        simpa [streamOf, Event.offerAt, Event.recvAt, Event.fwdAt, Event.dropAt, Event.asRecv,
            Event.asFwd, Event.asTake, WorkerPc.held, Event.asDrop, Ne.symm hne] using this
    · intro j w1 hj
      rcases getElem?_set_some _ _ _ _ _ hj with ⟨rfl, rfl⟩ | ⟨hne, hj1⟩
      · simpa [streamOf, Event.offerAt, Event.recvAt, Event.fwdAt, Event.dropAt, Event.asRecv,
          Event.asFwd, Event.asTake, WorkerPc.held, Event.asDrop] using c4
      · have := b4 j w1 hj1
        simpa [streamOf, Event.offerAt, Event.recvAt, Event.fwdAt, Event.dropAt, Event.asRecv,
            Event.asFwd, Event.asTake, WorkerPc.held, Event.asDrop, Ne.symm hne] using this
    · intro j
      simpa [streamOf, Event.offerAt, Event.recvAt, Event.fwdAt, Event.dropAt, Event.asRecv,
          Event.asFwd, Event.asTake, WorkerPc.held, Event.asDrop] using b5 j
    · simpa [streamOf, Event.offerAt, Event.recvAt, Event.fwdAt, Event.dropAt, Event.asRecv,
        Event.asFwd, Event.asTake, WorkerPc.held, Event.asDrop] using b6
    · simpa [streamOf, Event.offerAt, Event.recvAt, Event.fwdAt, Event.dropAt, Event.asRecv,
        Event.asFwd, Event.asTake, WorkerPc.held, Event.asDrop] using b7
    · simpa [streamOf, Event.offerAt, Event.recvAt, Event.fwdAt, Event.dropAt, Event.asRecv,
        Event.asFwd, Event.asTake, WorkerPc.held, Event.asDrop] using b8
    · simpa [streamOf, Event.offerAt, Event.recvAt, Event.fwdAt, Event.dropAt, Event.asRecv,
        Event.asFwd, Event.asTake, WorkerPc.held, Event.asDrop] using b9
  | close i w hw hc =>
    have hi := getElem?_lt_length _ _ _ hw
    have c2 := b2 i w hw
    have c3 := b3 i w hw
    have c4 := b4 i w hw
    have hd0 : w.pc ≠ WorkerPc.done → dropOf i s.log = [] := fun hne => by
      by_contra hcon
      exact hne (c4 hcon)
    refine ⟨by simpa using b1, ?_, ?_, ?_, ?_, ?_, ?_, ?_, ?_⟩
    · intro j w1 hj
      rcases getElem?_set_some _ _ _ _ _ hj with ⟨rfl, rfl⟩ | ⟨hne, hj1⟩
      · simpa [streamOf, Event.offerAt, Event.recvAt, Event.fwdAt, Event.dropAt, Event.asRecv,
          Event.asFwd, Event.asTake, WorkerPc.held, Event.asDrop] using c2
      · have := b2 j w1 hj1
        simpa [streamOf, Event.offerAt, Event.recvAt, Event.fwdAt, Event.dropAt, Event.asRecv,
            Event.asFwd, Event.asTake, WorkerPc.held, Event.asDrop, Ne.symm hne] using this
    · intro j w1 hj
      rcases getElem?_set_some _ _ _ _ _ hj with ⟨rfl, rfl⟩ | ⟨hne, hj1⟩
      · simpa [streamOf, Event.offerAt, Event.recvAt, Event.fwdAt, Event.dropAt, Event.asRecv,
          Event.asFwd, Event.asTake, WorkerPc.held, Event.asDrop] using c3
      · have := b3 j w1 hj1
        simpa [streamOf, Event.offerAt, Event.recvAt, Event.fwdAt, Event.dropAt, Event.asRecv,
            Event.asFwd, Event.asTake, WorkerPc.held, Event.asDrop, Ne.symm hne] using this
    · intro j w1 hj
      rcases getElem?_set_some _ _ _ _ _ hj with ⟨rfl, rfl⟩ | ⟨hne, hj1⟩
      · simpa [streamOf, Event.offerAt, Event.recvAt, Event.fwdAt, Event.dropAt, Event.asRecv,
          Event.asFwd, Event.asTake, WorkerPc.held, Event.asDrop] using c4
      · have := b4 j w1 hj1
        simpa [streamOf, Event.offerAt, Event.recvAt, Event.fwdAt, Event.dropAt, Event.asRecv,
            Event.asFwd, Event.asTake, WorkerPc.held, Event.asDrop, Ne.symm hne] using this
    · intro j
      simpa [streamOf, Event.offerAt, Event.recvAt, Event.fwdAt, Event.dropAt, Event.asRecv,
          Event.asFwd, Event.asTake, WorkerPc.held, Event.asDrop] using b5 j
    · simpa [streamOf, Event.offerAt, Event.recvAt, Event.fwdAt, Event.dropAt, Event.asRecv,
        Event.asFwd, Event.asTake, WorkerPc.held, Event.asDrop] using b6
    · simpa [streamOf, Event.offerAt, Event.recvAt, Event.fwdAt, Event.dropAt, Event.asRecv,
        Event.asFwd, Event.asTake, WorkerPc.held, Event.asDrop] using b7
    · simpa [streamOf, Event.offerAt, Event.recvAt, Event.fwdAt, Event.dropAt, Event.asRecv,
        Event.asFwd, Event.asTake, WorkerPc.held, Event.asDrop] using b8
    · simpa [streamOf, Event.offerAt, Event.recvAt, Event.fwdAt, Event.dropAt, Event.asRecv,
        Event.asFwd, Event.asTake, WorkerPc.held, Event.asDrop] using b9
  | recv i w e rest hw hpc hb =>
    have hi := getElem?_lt_length _ _ _ hw
    have c2 := b2 i w hw
    have c3 := b3 i w hw
    have c4 := b4 i w hw
    have hd0 : w.pc ≠ WorkerPc.done → dropOf i s.log = [] := fun hne => by
      by_contra hcon
      exact hne (c4 hcon)
    refine ⟨by simpa using b1, ?_, ?_, ?_, ?_, ?_, ?_, ?_, ?_⟩
    · intro j w1 hj
      rcases getElem?_set_some _ _ _ _ _ hj with ⟨rfl, rfl⟩ | ⟨hne, hj1⟩
      · rw [hb] at c2
        simpa [streamOf, Event.offerAt, Event.recvAt, Event.fwdAt, Event.dropAt, Event.asRecv,
            Event.asFwd, Event.asTake, WorkerPc.held, Event.asDrop] using c2
      · have := b2 j w1 hj1
        simpa [streamOf, Event.offerAt, Event.recvAt, Event.fwdAt, Event.dropAt, Event.asRecv,
            Event.asFwd, Event.asTake, WorkerPc.held, Event.asDrop, Ne.symm hne] using this
    · intro j w1 hj
      rcases getElem?_set_some _ _ _ _ _ hj with ⟨rfl, rfl⟩ | ⟨hne, hj1⟩
      · have hd := hd0 (by simp [hpc])
        simp [streamOf, Event.offerAt, Event.recvAt, Event.fwdAt, Event.dropAt, Event.asRecv,
            Event.asFwd, Event.asTake, WorkerPc.held, Event.asDrop, hpc, hd] at c3 ⊢
        rw [c3]
      · have := b3 j w1 hj1
        simpa [streamOf, Event.offerAt, Event.recvAt, Event.fwdAt, Event.dropAt, Event.asRecv,
            Event.asFwd, Event.asTake, WorkerPc.held, Event.asDrop, Ne.symm hne] using this
    · intro j w1 hj
      rcases getElem?_set_some _ _ _ _ _ hj with ⟨rfl, rfl⟩ | ⟨hne, hj1⟩
      · intro hcon
        exact absurd (hd0 (by simp [hpc])) (by simpa [streamOf, Event.offerAt, Event.recvAt,
            Event.fwdAt, Event.dropAt, Event.asRecv, Event.asFwd, Event.asTake, WorkerPc.held,
            Event.asDrop] using hcon)
      · have := b4 j w1 hj1
        simpa [streamOf, Event.offerAt, Event.recvAt, Event.fwdAt, Event.dropAt, Event.asRecv,
            Event.asFwd, Event.asTake, WorkerPc.held, Event.asDrop, Ne.symm hne] using this
    · intro j
      simpa [streamOf, Event.offerAt, Event.recvAt, Event.fwdAt, Event.dropAt, Event.asRecv,
          Event.asFwd, Event.asTake, WorkerPc.held, Event.asDrop] using b5 j
    · simpa [streamOf, Event.offerAt, Event.recvAt, Event.fwdAt, Event.dropAt, Event.asRecv,
        Event.asFwd, Event.asTake, WorkerPc.held, Event.asDrop] using b6
    · intro x hx
      simp [streamOf, Event.offerAt, Event.recvAt, Event.fwdAt, Event.dropAt, Event.asRecv,
          Event.asFwd, Event.asTake, WorkerPc.held, Event.asDrop] at hx ⊢
      rcases hx with hx | hx
      · exact b7 x hx
      · rw [hx]; exact hi
    · simpa [streamOf, Event.offerAt, Event.recvAt, Event.fwdAt, Event.dropAt, Event.asRecv,
        Event.asFwd, Event.asTake, WorkerPc.held, Event.asDrop] using b8
    · simpa [streamOf, Event.offerAt, Event.recvAt, Event.fwdAt, Event.dropAt, Event.asRecv,
        Event.asFwd, Event.asTake, WorkerPc.held, Event.asDrop] using b9
  | eof i w hw hpc hb hc =>
    have hi := getElem?_lt_length _ _ _ hw
    have c2 := b2 i w hw
    have c3 := b3 i w hw
    have c4 := b4 i w hw
    have hd0 : w.pc ≠ WorkerPc.done → dropOf i s.log = [] := fun hne => by
      by_contra hcon
      exact hne (c4 hcon)
    refine ⟨by simpa using b1, ?_, ?_, ?_, ?_, ?_, ?_, ?_, ?_⟩
    · intro j w1 hj
      rcases getElem?_set_some _ _ _ _ _ hj with ⟨rfl, rfl⟩ | ⟨hne, hj1⟩
      · simpa [streamOf, Event.offerAt, Event.recvAt, Event.fwdAt, Event.dropAt, Event.asRecv,
          Event.asFwd, Event.asTake, WorkerPc.held, Event.asDrop] using c2
      · have := b2 j w1 hj1
        simpa [streamOf, Event.offerAt, Event.recvAt, Event.fwdAt, Event.dropAt, Event.asRecv,
            Event.asFwd, Event.asTake, WorkerPc.held, Event.asDrop, Ne.symm hne] using this
    · intro j w1 hj
      rcases getElem?_set_some _ _ _ _ _ hj with ⟨rfl, rfl⟩ | ⟨hne, hj1⟩
      · simpa [streamOf, Event.offerAt, Event.recvAt, Event.fwdAt, Event.dropAt, Event.asRecv,
          Event.asFwd, Event.asTake, WorkerPc.held, Event.asDrop, hpc] using c3
      · have := b3 j w1 hj1
        simpa [streamOf, Event.offerAt, Event.recvAt, Event.fwdAt, Event.dropAt, Event.asRecv,
            Event.asFwd, Event.asTake, WorkerPc.held, Event.asDrop, Ne.symm hne] using this
    · intro j w1 hj
      rcases getElem?_set_some _ _ _ _ _ hj with ⟨rfl, rfl⟩ | ⟨hne, hj1⟩
      · intro _; rfl
      · have := b4 j w1 hj1
        simpa [streamOf, Event.offerAt, Event.recvAt, Event.fwdAt, Event.dropAt, Event.asRecv,
            Event.asFwd, Event.asTake, WorkerPc.held, Event.asDrop, Ne.symm hne] using this
    · intro j
      simpa [streamOf, Event.offerAt, Event.recvAt, Event.fwdAt, Event.dropAt, Event.asRecv,
          Event.asFwd, Event.asTake, WorkerPc.held, Event.asDrop] using b5 j
    · simpa [streamOf, Event.offerAt, Event.recvAt, Event.fwdAt, Event.dropAt, Event.asRecv,
        Event.asFwd, Event.asTake, WorkerPc.held, Event.asDrop] using b6
    · simpa [streamOf, Event.offerAt, Event.recvAt, Event.fwdAt, Event.dropAt, Event.asRecv,
        Event.asFwd, Event.asTake, WorkerPc.held, Event.asDrop] using b7
    · simpa [streamOf, Event.offerAt, Event.recvAt, Event.fwdAt, Event.dropAt, Event.asRecv,
        Event.asFwd, Event.asTake, WorkerPc.held, Event.asDrop] using b8
    · simpa [streamOf, Event.offerAt, Event.recvAt, Event.fwdAt, Event.dropAt, Event.asRecv,
        Event.asFwd, Event.asTake, WorkerPc.held, Event.asDrop] using b9
  | drop i w e hw hpc hq =>
    have hi := getElem?_lt_length _ _ _ hw
    have c2 := b2 i w hw
    have c3 := b3 i w hw
    have c4 := b4 i w hw
    have hd0 : w.pc ≠ WorkerPc.done → dropOf i s.log = [] := fun hne => by
      by_contra hcon
      exact hne (c4 hcon)
    refine ⟨by simpa using b1, ?_, ?_, ?_, ?_, ?_, ?_, ?_, ?_⟩
    · intro j w1 hj
      rcases getElem?_set_some _ _ _ _ _ hj with ⟨rfl, rfl⟩ | ⟨hne, hj1⟩
      · simpa [streamOf, Event.offerAt, Event.recvAt, Event.fwdAt, Event.dropAt, Event.asRecv,
          Event.asFwd, Event.asTake, WorkerPc.held, Event.asDrop] using c2
      · have := b2 j w1 hj1
        simpa [streamOf, Event.offerAt, Event.recvAt, Event.fwdAt, Event.dropAt, Event.asRecv,
            Event.asFwd, Event.asTake, WorkerPc.held, Event.asDrop, Ne.symm hne] using this
    · intro j w1 hj
      rcases getElem?_set_some _ _ _ _ _ hj with ⟨rfl, rfl⟩ | ⟨hne, hj1⟩
      · have hd := hd0 (by simp [hpc])
        simp [streamOf, Event.offerAt, Event.recvAt, Event.fwdAt, Event.dropAt, Event.asRecv,
            Event.asFwd, Event.asTake, WorkerPc.held, Event.asDrop, hpc, hd] at c3 ⊢
        rw [c3]
      · have := b3 j w1 hj1
        simpa [streamOf, Event.offerAt, Event.recvAt, Event.fwdAt, Event.dropAt, Event.asRecv,
            Event.asFwd, Event.asTake, WorkerPc.held, Event.asDrop, Ne.symm hne] using this
    · intro j w1 hj
      rcases getElem?_set_some _ _ _ _ _ hj with ⟨rfl, rfl⟩ | ⟨hne, hj1⟩
      · intro _; rfl
      · have := b4 j w1 hj1
        simpa [streamOf, Event.offerAt, Event.recvAt, Event.fwdAt, Event.dropAt, Event.asRecv,
            Event.asFwd, Event.asTake, WorkerPc.held, Event.asDrop, Ne.symm hne] using this
    · intro j
      by_cases hji : j = i
      · subst hji
        have hd := hd0 (by simp [hpc])
        simp [streamOf, Event.offerAt, Event.recvAt, Event.fwdAt, Event.dropAt, Event.asRecv,
            Event.asFwd, Event.asTake, WorkerPc.held, Event.asDrop, hd]
      · simpa [streamOf, Event.offerAt, Event.recvAt, Event.fwdAt, Event.dropAt, Event.asRecv,
          Event.asFwd, Event.asTake, WorkerPc.held, Event.asDrop, Ne.symm hji] using b5 j
    · simpa [streamOf, Event.offerAt, Event.recvAt, Event.fwdAt, Event.dropAt, Event.asRecv,
        Event.asFwd, Event.asTake, WorkerPc.held, Event.asDrop] using b6
    · simpa [streamOf, Event.offerAt, Event.recvAt, Event.fwdAt, Event.dropAt, Event.asRecv,
        Event.asFwd, Event.asTake, WorkerPc.held, Event.asDrop] using b7
    · simpa [streamOf, Event.offerAt, Event.recvAt, Event.fwdAt, Event.dropAt, Event.asRecv,
        Event.asFwd, Event.asTake, WorkerPc.held, Event.asDrop] using b8
    · intro x hx
      simp [streamOf, Event.offerAt, Event.recvAt, Event.fwdAt, Event.dropAt, Event.asRecv,
          Event.asFwd, Event.asTake, WorkerPc.held, Event.asDrop] at hx ⊢
      rcases hx with hx | hx
      · exact b9 x hx
      · rw [hx]; exact hi
  | pass i w e hw hpc hq =>
    have hi := getElem?_lt_length _ _ _ hw
    have c2 := b2 i w hw
    have c3 := b3 i w hw
    have c4 := b4 i w hw
    have hd0 : w.pc ≠ WorkerPc.done → dropOf i s.log = [] := fun hne => by
      by_contra hcon
      exact hne (c4 hcon)
    refine ⟨by simpa using b1, ?_, ?_, ?_, ?_, ?_, ?_, ?_, ?_⟩
    · intro j w1 hj
      rcases getElem?_set_some _ _ _ _ _ hj with ⟨rfl, rfl⟩ | ⟨hne, hj1⟩
      · simpa [streamOf, Event.offerAt, Event.recvAt, Event.fwdAt, Event.dropAt, Event.asRecv,
          Event.asFwd, Event.asTake, WorkerPc.held, Event.asDrop] using c2
      · have := b2 j w1 hj1
        simpa [streamOf, Event.offerAt, Event.recvAt, Event.fwdAt, Event.dropAt, Event.asRecv,
            Event.asFwd, Event.asTake, WorkerPc.held, Event.asDrop, Ne.symm hne] using this
    · intro j w1 hj
      rcases getElem?_set_some _ _ _ _ _ hj with ⟨rfl, rfl⟩ | ⟨hne, hj1⟩
      · simpa [streamOf, Event.offerAt, Event.recvAt, Event.fwdAt, Event.dropAt, Event.asRecv,
          Event.asFwd, Event.asTake, WorkerPc.held, Event.asDrop, hpc] using c3
      · have := b3 j w1 hj1
        simpa [streamOf, Event.offerAt, Event.recvAt, Event.fwdAt, Event.dropAt, Event.asRecv,
            Event.asFwd, Event.asTake, WorkerPc.held, Event.asDrop, Ne.symm hne] using this
    · intro j w1 hj
      rcases getElem?_set_some _ _ _ _ _ hj with ⟨rfl, rfl⟩ | ⟨hne, hj1⟩
      · intro hcon
        exact absurd (hd0 (by simp [hpc])) (by simpa [streamOf, Event.offerAt, Event.recvAt,
            Event.fwdAt, Event.dropAt, Event.asRecv, Event.asFwd, Event.asTake, WorkerPc.held,
            Event.asDrop] using hcon)
      · have := b4 j w1 hj1
        simpa [streamOf, Event.offerAt, Event.recvAt, Event.fwdAt, Event.dropAt, Event.asRecv,
            Event.asFwd, Event.asTake, WorkerPc.held, Event.asDrop, Ne.symm hne] using this
    · intro j
      simpa [streamOf, Event.offerAt, Event.recvAt, Event.fwdAt, Event.dropAt, Event.asRecv,
          Event.asFwd, Event.asTake, WorkerPc.held, Event.asDrop] using b5 j
    · simpa [streamOf, Event.offerAt, Event.recvAt, Event.fwdAt, Event.dropAt, Event.asRecv,
        Event.asFwd, Event.asTake, WorkerPc.held, Event.asDrop] using b6
    · simpa [streamOf, Event.offerAt, Event.recvAt, Event.fwdAt, Event.dropAt, Event.asRecv,
        Event.asFwd, Event.asTake, WorkerPc.held, Event.asDrop] using b7
    · simpa [streamOf, Event.offerAt, Event.recvAt, Event.fwdAt, Event.dropAt, Event.asRecv,
        Event.asFwd, Event.asTake, WorkerPc.held, Event.asDrop] using b8
    · simpa [streamOf, Event.offerAt, Event.recvAt, Event.fwdAt, Event.dropAt, Event.asRecv,
        Event.asFwd, Event.asTake, WorkerPc.held, Event.asDrop] using b9
  | fwd i w e hw hpc ho hlen =>
    have hi := getElem?_lt_length _ _ _ hw
    have c2 := b2 i w hw
    have c3 := b3 i w hw
    have c4 := b4 i w hw
    have hd0 : w.pc ≠ WorkerPc.done → dropOf i s.log = [] := fun hne => by
      by_contra hcon
      exact hne (c4 hcon)
    refine ⟨by simpa using b1, ?_, ?_, ?_, ?_, ?_, ?_, ?_, ?_⟩
    · intro j w1 hj
      rcases getElem?_set_some _ _ _ _ _ hj with ⟨rfl, rfl⟩ | ⟨hne, hj1⟩
      · simpa [streamOf, Event.offerAt, Event.recvAt, Event.fwdAt, Event.dropAt, Event.asRecv,
          Event.asFwd, Event.asTake, WorkerPc.held, Event.asDrop] using c2
      · have := b2 j w1 hj1
        simpa [streamOf, Event.offerAt, Event.recvAt, Event.fwdAt, Event.dropAt, Event.asRecv,
            Event.asFwd, Event.asTake, WorkerPc.held, Event.asDrop, Ne.symm hne] using this
    · intro j w1 hj
      rcases getElem?_set_some _ _ _ _ _ hj with ⟨rfl, rfl⟩ | ⟨hne, hj1⟩
      · simpa [streamOf, Event.offerAt, Event.recvAt, Event.fwdAt, Event.dropAt, Event.asRecv,
          Event.asFwd, Event.asTake, WorkerPc.held, Event.asDrop, hpc] using c3
      · have := b3 j w1 hj1
        simpa [streamOf, Event.offerAt, Event.recvAt, Event.fwdAt, Event.dropAt, Event.asRecv,
            Event.asFwd, Event.asTake, WorkerPc.held, Event.asDrop, Ne.symm hne] using this
    · intro j w1 hj
      rcases getElem?_set_some _ _ _ _ _ hj with ⟨rfl, rfl⟩ | ⟨hne, hj1⟩
      · intro hcon
        exact absurd (hd0 (by simp [hpc])) (by simpa [streamOf, Event.offerAt, Event.recvAt,
            Event.fwdAt, Event.dropAt, Event.asRecv, Event.asFwd, Event.asTake, WorkerPc.held,
            Event.asDrop] using hcon)
      · have := b4 j w1 hj1
        simpa [streamOf, Event.offerAt, Event.recvAt, Event.fwdAt, Event.dropAt, Event.asRecv,
            Event.asFwd, Event.asTake, WorkerPc.held, Event.asDrop, Ne.symm hne] using this
    · intro j
      simpa [streamOf, Event.offerAt, Event.recvAt, Event.fwdAt, Event.dropAt, Event.asRecv,
          Event.asFwd, Event.asTake, WorkerPc.held, Event.asDrop] using b5 j
    · simpa [streamOf, Event.offerAt, Event.recvAt, Event.fwdAt, Event.dropAt, Event.asRecv,
        Event.asFwd, Event.asTake, WorkerPc.held, Event.asDrop,
        List.append_assoc] using congrArg (fun l => l ++ [(i, e)]) b6
    · simpa [streamOf, Event.offerAt, Event.recvAt, Event.fwdAt, Event.dropAt, Event.asRecv,
        Event.asFwd, Event.asTake, WorkerPc.held, Event.asDrop] using b7
    · intro x hx
      simp [streamOf, Event.offerAt, Event.recvAt, Event.fwdAt, Event.dropAt, Event.asRecv,
          Event.asFwd, Event.asTake, WorkerPc.held, Event.asDrop] at hx ⊢
      rcases hx with hx | hx
      · exact b8 x hx
      · rw [hx]; exact hi
    · simpa [streamOf, Event.offerAt, Event.recvAt, Event.fwdAt, Event.dropAt, Event.asRecv,
        Event.asFwd, Event.asTake, WorkerPc.held, Event.asDrop] using b9
  | sendClosed i w e hw hpc ho =>
    exact ⟨b1, by simpa [streamOf, Event.offerAt, Event.recvAt, Event.fwdAt, Event.dropAt,
        Event.asRecv, Event.asFwd, Event.asTake, WorkerPc.held, Event.asDrop] using b2,
        by simpa [streamOf, Event.offerAt, Event.recvAt, Event.fwdAt, Event.dropAt, Event.asRecv,
        Event.asFwd, Event.asTake, WorkerPc.held, Event.asDrop] using b3, by simpa [streamOf,
        Event.offerAt, Event.recvAt, Event.fwdAt, Event.dropAt, Event.asRecv, Event.asFwd,
        Event.asTake, WorkerPc.held, Event.asDrop] using b4,
      by simpa [streamOf, Event.offerAt, Event.recvAt, Event.fwdAt, Event.dropAt, Event.asRecv,
          Event.asFwd, Event.asTake, WorkerPc.held, Event.asDrop] using b5, by simpa [streamOf,
          Event.offerAt, Event.recvAt, Event.fwdAt, Event.dropAt, Event.asRecv, Event.asFwd,
          Event.asTake, WorkerPc.held, Event.asDrop] using b6, by simpa [streamOf, Event.offerAt,
          Event.recvAt, Event.fwdAt, Event.dropAt, Event.asRecv, Event.asFwd, Event.asTake,
          WorkerPc.held, Event.asDrop] using b7,
      by simpa [streamOf, Event.offerAt, Event.recvAt, Event.fwdAt, Event.dropAt, Event.asRecv,
          Event.asFwd, Event.asTake, WorkerPc.held, Event.asDrop] using b8, by simpa [streamOf,
          Event.offerAt, Event.recvAt, Event.fwdAt, Event.dropAt, Event.asRecv, Event.asFwd,
          Event.asTake, WorkerPc.held, Event.asDrop] using b9⟩
  | closerWake hpc hwg =>
    exact ⟨b1, by simpa [streamOf, Event.offerAt, Event.recvAt, Event.fwdAt, Event.dropAt,
        Event.asRecv, Event.asFwd, Event.asTake, WorkerPc.held, Event.asDrop] using b2,
        by simpa [streamOf, Event.offerAt, Event.recvAt, Event.fwdAt, Event.dropAt, Event.asRecv,
        Event.asFwd, Event.asTake, WorkerPc.held, Event.asDrop] using b3, by simpa [streamOf,
        Event.offerAt, Event.recvAt, Event.fwdAt, Event.dropAt, Event.asRecv, Event.asFwd,
        Event.asTake, WorkerPc.held, Event.asDrop] using b4,
      by simpa [streamOf, Event.offerAt, Event.recvAt, Event.fwdAt, Event.dropAt, Event.asRecv,
          Event.asFwd, Event.asTake, WorkerPc.held, Event.asDrop] using b5, by simpa [streamOf,
          Event.offerAt, Event.recvAt, Event.fwdAt, Event.dropAt, Event.asRecv, Event.asFwd,
          Event.asTake, WorkerPc.held, Event.asDrop] using b6, by simpa [streamOf, Event.offerAt,
          Event.recvAt, Event.fwdAt, Event.dropAt, Event.asRecv, Event.asFwd, Event.asTake,
          WorkerPc.held, Event.asDrop] using b7,
      by simpa [streamOf, Event.offerAt, Event.recvAt, Event.fwdAt, Event.dropAt, Event.asRecv,
          Event.asFwd, Event.asTake, WorkerPc.held, Event.asDrop] using b8, by simpa [streamOf,
          Event.offerAt, Event.recvAt, Event.fwdAt, Event.dropAt, Event.asRecv, Event.asFwd,
          Event.asTake, WorkerPc.held, Event.asDrop] using b9⟩
  | closeOut hpc =>
    exact ⟨b1, by simpa [streamOf, Event.offerAt, Event.recvAt, Event.fwdAt, Event.dropAt,
        Event.asRecv, Event.asFwd, Event.asTake, WorkerPc.held, Event.asDrop] using b2,
        by simpa [streamOf, Event.offerAt, Event.recvAt, Event.fwdAt, Event.dropAt, Event.asRecv,
        Event.asFwd, Event.asTake, WorkerPc.held, Event.asDrop] using b3, by simpa [streamOf,
        Event.offerAt, Event.recvAt, Event.fwdAt, Event.dropAt, Event.asRecv, Event.asFwd,
        Event.asTake, WorkerPc.held, Event.asDrop] using b4,
      by simpa [streamOf, Event.offerAt, Event.recvAt, Event.fwdAt, Event.dropAt, Event.asRecv,
          Event.asFwd, Event.asTake, WorkerPc.held, Event.asDrop] using b5, by simpa [streamOf,
          Event.offerAt, Event.recvAt, Event.fwdAt, Event.dropAt, Event.asRecv, Event.asFwd,
          Event.asTake, WorkerPc.held, Event.asDrop] using b6, by simpa [streamOf, Event.offerAt,
          Event.recvAt, Event.fwdAt, Event.dropAt, Event.asRecv, Event.asFwd, Event.asTake,
          WorkerPc.held, Event.asDrop] using b7,
      by simpa [streamOf, Event.offerAt, Event.recvAt, Event.fwdAt, Event.dropAt, Event.asRecv,
          Event.asFwd, Event.asTake, WorkerPc.held, Event.asDrop] using b8, by simpa [streamOf,
          Event.offerAt, Event.recvAt, Event.fwdAt, Event.dropAt, Event.asRecv, Event.asFwd,
          Event.asTake, WorkerPc.held, Event.asDrop] using b9⟩
  | loopEnd d hpc ho hc =>
    exact ⟨b1, by simpa [streamOf, Event.offerAt, Event.recvAt, Event.fwdAt, Event.dropAt,
        Event.asRecv, Event.asFwd, Event.asTake, WorkerPc.held, Event.asDrop] using b2,
        by simpa [streamOf, Event.offerAt, Event.recvAt, Event.fwdAt, Event.dropAt, Event.asRecv,
        Event.asFwd, Event.asTake, WorkerPc.held, Event.asDrop] using b3, by simpa [streamOf,
        Event.offerAt, Event.recvAt, Event.fwdAt, Event.dropAt, Event.asRecv, Event.asFwd,
        Event.asTake, WorkerPc.held, Event.asDrop] using b4,
      by simpa [streamOf, Event.offerAt, Event.recvAt, Event.fwdAt, Event.dropAt, Event.asRecv,
          Event.asFwd, Event.asTake, WorkerPc.held, Event.asDrop] using b5, by simpa [streamOf,
          Event.offerAt, Event.recvAt, Event.fwdAt, Event.dropAt, Event.asRecv, Event.asFwd,
          Event.asTake, WorkerPc.held, Event.asDrop] using b6, by simpa [streamOf, Event.offerAt,
          Event.recvAt, Event.fwdAt, Event.dropAt, Event.asRecv, Event.asFwd, Event.asTake,
          WorkerPc.held, Event.asDrop] using b7,
      by simpa [streamOf, Event.offerAt, Event.recvAt, Event.fwdAt, Event.dropAt, Event.asRecv,
          Event.asFwd, Event.asTake, WorkerPc.held, Event.asDrop] using b8, by simpa [streamOf,
          Event.offerAt, Event.recvAt, Event.fwdAt, Event.dropAt, Event.asRecv, Event.asFwd,
          Event.asTake, WorkerPc.held, Event.asDrop] using b9⟩
  | consumeOk i e hpc hok =>
    exact ⟨b1, by simpa [streamOf, Event.offerAt, Event.recvAt, Event.fwdAt, Event.dropAt,
        Event.asRecv, Event.asFwd, Event.asTake, WorkerPc.held, Event.asDrop] using b2,
        by simpa [streamOf, Event.offerAt, Event.recvAt, Event.fwdAt, Event.dropAt, Event.asRecv,
        Event.asFwd, Event.asTake, WorkerPc.held, Event.asDrop] using b3, by simpa [streamOf,
        Event.offerAt, Event.recvAt, Event.fwdAt, Event.dropAt, Event.asRecv, Event.asFwd,
        Event.asTake, WorkerPc.held, Event.asDrop] using b4,
      by simpa [streamOf, Event.offerAt, Event.recvAt, Event.fwdAt, Event.dropAt, Event.asRecv,
          Event.asFwd, Event.asTake, WorkerPc.held, Event.asDrop] using b5, by simpa [streamOf,
          Event.offerAt, Event.recvAt, Event.fwdAt, Event.dropAt, Event.asRecv, Event.asFwd,
          Event.asTake, WorkerPc.held, Event.asDrop] using b6, by simpa [streamOf, Event.offerAt,
          Event.recvAt, Event.fwdAt, Event.dropAt, Event.asRecv, Event.asFwd, Event.asTake,
          WorkerPc.held, Event.asDrop] using b7,
      by simpa [streamOf, Event.offerAt, Event.recvAt, Event.fwdAt, Event.dropAt, Event.asRecv,
          Event.asFwd, Event.asTake, WorkerPc.held, Event.asDrop] using b8, by simpa [streamOf,
          Event.offerAt, Event.recvAt, Event.fwdAt, Event.dropAt, Event.asRecv, Event.asFwd,
          Event.asTake, WorkerPc.held, Event.asDrop] using b9⟩
  | consumeStop i e hpc hok =>
    exact ⟨b1, by simpa [streamOf, Event.offerAt, Event.recvAt, Event.fwdAt, Event.dropAt,
        Event.asRecv, Event.asFwd, Event.asTake, WorkerPc.held, Event.asDrop] using b2,
        by simpa [streamOf, Event.offerAt, Event.recvAt, Event.fwdAt, Event.dropAt, Event.asRecv,
        Event.asFwd, Event.asTake, WorkerPc.held, Event.asDrop] using b3, by simpa [streamOf,
        Event.offerAt, Event.recvAt, Event.fwdAt, Event.dropAt, Event.asRecv, Event.asFwd,
        Event.asTake, WorkerPc.held, Event.asDrop] using b4,
      by simpa [streamOf, Event.offerAt, Event.recvAt, Event.fwdAt, Event.dropAt, Event.asRecv,
          Event.asFwd, Event.asTake, WorkerPc.held, Event.asDrop] using b5, by simpa [streamOf,
          Event.offerAt, Event.recvAt, Event.fwdAt, Event.dropAt, Event.asRecv, Event.asFwd,
          Event.asTake, WorkerPc.held, Event.asDrop] using b6, by simpa [streamOf, Event.offerAt,
          Event.recvAt, Event.fwdAt, Event.dropAt, Event.asRecv, Event.asFwd, Event.asTake,
          WorkerPc.held, Event.asDrop] using b7,
      by simpa [streamOf, Event.offerAt, Event.recvAt, Event.fwdAt, Event.dropAt, Event.asRecv,
          Event.asFwd, Event.asTake, WorkerPc.held, Event.asDrop] using b8, by simpa [streamOf,
          Event.offerAt, Event.recvAt, Event.fwdAt, Event.dropAt, Event.asRecv, Event.asFwd,
          Event.asTake, WorkerPc.held, Event.asDrop] using b9⟩
  | cancelInWin hpc ht =>
    exact ⟨b1, by simpa [streamOf, Event.offerAt, Event.recvAt, Event.fwdAt, Event.dropAt,
        Event.asRecv, Event.asFwd, Event.asTake, WorkerPc.held, Event.asDrop] using b2,
        by simpa [streamOf, Event.offerAt, Event.recvAt, Event.fwdAt, Event.dropAt, Event.asRecv,
        Event.asFwd, Event.asTake, WorkerPc.held, Event.asDrop] using b3, by simpa [streamOf,
        Event.offerAt, Event.recvAt, Event.fwdAt, Event.dropAt, Event.asRecv, Event.asFwd,
        Event.asTake, WorkerPc.held, Event.asDrop] using b4,
      by simpa [streamOf, Event.offerAt, Event.recvAt, Event.fwdAt, Event.dropAt, Event.asRecv,
          Event.asFwd, Event.asTake, WorkerPc.held, Event.asDrop] using b5, by simpa [streamOf,
          Event.offerAt, Event.recvAt, Event.fwdAt, Event.dropAt, Event.asRecv, Event.asFwd,
          Event.asTake, WorkerPc.held, Event.asDrop] using b6, by simpa [streamOf, Event.offerAt,
          Event.recvAt, Event.fwdAt, Event.dropAt, Event.asRecv, Event.asFwd, Event.asTake,
          WorkerPc.held, Event.asDrop] using b7,
      by simpa [streamOf, Event.offerAt, Event.recvAt, Event.fwdAt, Event.dropAt, Event.asRecv,
          Event.asFwd, Event.asTake, WorkerPc.held, Event.asDrop] using b8, by simpa [streamOf,
          Event.offerAt, Event.recvAt, Event.fwdAt, Event.dropAt, Event.asRecv, Event.asFwd,
          Event.asTake, WorkerPc.held, Event.asDrop] using b9⟩
  | cancelInLose hpc ht =>
    exact ⟨b1, by simpa [streamOf, Event.offerAt, Event.recvAt, Event.fwdAt, Event.dropAt,
        Event.asRecv, Event.asFwd, Event.asTake, WorkerPc.held, Event.asDrop] using b2,
        by simpa [streamOf, Event.offerAt, Event.recvAt, Event.fwdAt, Event.dropAt, Event.asRecv,
        Event.asFwd, Event.asTake, WorkerPc.held, Event.asDrop] using b3, by simpa [streamOf,
        Event.offerAt, Event.recvAt, Event.fwdAt, Event.dropAt, Event.asRecv, Event.asFwd,
        Event.asTake, WorkerPc.held, Event.asDrop] using b4,
      by simpa [streamOf, Event.offerAt, Event.recvAt, Event.fwdAt, Event.dropAt, Event.asRecv,
          Event.asFwd, Event.asTake, WorkerPc.held, Event.asDrop] using b5, by simpa [streamOf,
          Event.offerAt, Event.recvAt, Event.fwdAt, Event.dropAt, Event.asRecv, Event.asFwd,
          Event.asTake, WorkerPc.held, Event.asDrop] using b6, by simpa [streamOf, Event.offerAt,
          Event.recvAt, Event.fwdAt, Event.dropAt, Event.asRecv, Event.asFwd, Event.asTake,
          WorkerPc.held, Event.asDrop] using b7,
      by simpa [streamOf, Event.offerAt, Event.recvAt, Event.fwdAt, Event.dropAt, Event.asRecv,
          Event.asFwd, Event.asTake, WorkerPc.held, Event.asDrop] using b8, by simpa [streamOf,
          Event.offerAt, Event.recvAt, Event.fwdAt, Event.dropAt, Event.asRecv, Event.asFwd,
          Event.asTake, WorkerPc.held, Event.asDrop] using b9⟩
  | cancelInDone hpc =>
    exact ⟨b1, by simpa [streamOf, Event.offerAt, Event.recvAt, Event.fwdAt, Event.dropAt,
        Event.asRecv, Event.asFwd, Event.asTake, WorkerPc.held, Event.asDrop] using b2,
        by simpa [streamOf, Event.offerAt, Event.recvAt, Event.fwdAt, Event.dropAt, Event.asRecv,
        Event.asFwd, Event.asTake, WorkerPc.held, Event.asDrop] using b3, by simpa [streamOf,
        Event.offerAt, Event.recvAt, Event.fwdAt, Event.dropAt, Event.asRecv, Event.asFwd,
        Event.asTake, WorkerPc.held, Event.asDrop] using b4,
      by simpa [streamOf, Event.offerAt, Event.recvAt, Event.fwdAt, Event.dropAt, Event.asRecv,
          Event.asFwd, Event.asTake, WorkerPc.held, Event.asDrop] using b5, by simpa [streamOf,
          Event.offerAt, Event.recvAt, Event.fwdAt, Event.dropAt, Event.asRecv, Event.asFwd,
          Event.asTake, WorkerPc.held, Event.asDrop] using b6, by simpa [streamOf, Event.offerAt,
          Event.recvAt, Event.fwdAt, Event.dropAt, Event.asRecv, Event.asFwd, Event.asTake,
          WorkerPc.held, Event.asDrop] using b7,
      by simpa [streamOf, Event.offerAt, Event.recvAt, Event.fwdAt, Event.dropAt, Event.asRecv,
          Event.asFwd, Event.asTake, WorkerPc.held, Event.asDrop] using b8, by simpa [streamOf,
          Event.offerAt, Event.recvAt, Event.fwdAt, Event.dropAt, Event.asRecv, Event.asFwd,
          Event.asTake, WorkerPc.held, Event.asDrop] using b9⟩
  | cancelOutWin hpc ht =>
    exact ⟨b1, by simpa [streamOf, Event.offerAt, Event.recvAt, Event.fwdAt, Event.dropAt,
        Event.asRecv, Event.asFwd, Event.asTake, WorkerPc.held, Event.asDrop] using b2,
        by simpa [streamOf, Event.offerAt, Event.recvAt, Event.fwdAt, Event.dropAt, Event.asRecv,
        Event.asFwd, Event.asTake, WorkerPc.held, Event.asDrop] using b3, by simpa [streamOf,
        Event.offerAt, Event.recvAt, Event.fwdAt, Event.dropAt, Event.asRecv, Event.asFwd,
        Event.asTake, WorkerPc.held, Event.asDrop] using b4,
      by simpa [streamOf, Event.offerAt, Event.recvAt, Event.fwdAt, Event.dropAt, Event.asRecv,
          Event.asFwd, Event.asTake, WorkerPc.held, Event.asDrop] using b5, by simpa [streamOf,
          Event.offerAt, Event.recvAt, Event.fwdAt, Event.dropAt, Event.asRecv, Event.asFwd,
          Event.asTake, WorkerPc.held, Event.asDrop] using b6, by simpa [streamOf, Event.offerAt,
          Event.recvAt, Event.fwdAt, Event.dropAt, Event.asRecv, Event.asFwd, Event.asTake,
          WorkerPc.held, Event.asDrop] using b7,
      by simpa [streamOf, Event.offerAt, Event.recvAt, Event.fwdAt, Event.dropAt, Event.asRecv,
          Event.asFwd, Event.asTake, WorkerPc.held, Event.asDrop] using b8, by simpa [streamOf,
          Event.offerAt, Event.recvAt, Event.fwdAt, Event.dropAt, Event.asRecv, Event.asFwd,
          Event.asTake, WorkerPc.held, Event.asDrop] using b9⟩
  | cancelOutLose hpc ht =>
    exact ⟨b1, by simpa [streamOf, Event.offerAt, Event.recvAt, Event.fwdAt, Event.dropAt,
        Event.asRecv, Event.asFwd, Event.asTake, WorkerPc.held, Event.asDrop] using b2,
        by simpa [streamOf, Event.offerAt, Event.recvAt, Event.fwdAt, Event.dropAt, Event.asRecv,
        Event.asFwd, Event.asTake, WorkerPc.held, Event.asDrop] using b3, by simpa [streamOf,
        Event.offerAt, Event.recvAt, Event.fwdAt, Event.dropAt, Event.asRecv, Event.asFwd,
        Event.asTake, WorkerPc.held, Event.asDrop] using b4,
      by simpa [streamOf, Event.offerAt, Event.recvAt, Event.fwdAt, Event.dropAt, Event.asRecv,
          Event.asFwd, Event.asTake, WorkerPc.held, Event.asDrop] using b5, by simpa [streamOf,
          Event.offerAt, Event.recvAt, Event.fwdAt, Event.dropAt, Event.asRecv, Event.asFwd,
          Event.asTake, WorkerPc.held, Event.asDrop] using b6, by simpa [streamOf, Event.offerAt,
          Event.recvAt, Event.fwdAt, Event.dropAt, Event.asRecv, Event.asFwd, Event.asTake,
          WorkerPc.held, Event.asDrop] using b7,
      by simpa [streamOf, Event.offerAt, Event.recvAt, Event.fwdAt, Event.dropAt, Event.asRecv,
          Event.asFwd, Event.asTake, WorkerPc.held, Event.asDrop] using b8, by simpa [streamOf,
          Event.offerAt, Event.recvAt, Event.fwdAt, Event.dropAt, Event.asRecv, Event.asFwd,
          Event.asTake, WorkerPc.held, Event.asDrop] using b9⟩
  | cancelOutDone hpc =>
    exact ⟨b1, by simpa [streamOf, Event.offerAt, Event.recvAt, Event.fwdAt, Event.dropAt,
        Event.asRecv, Event.asFwd, Event.asTake, WorkerPc.held, Event.asDrop] using b2,
        by simpa [streamOf, Event.offerAt, Event.recvAt, Event.fwdAt, Event.dropAt, Event.asRecv,
        Event.asFwd, Event.asTake, WorkerPc.held, Event.asDrop] using b3, by simpa [streamOf,
        Event.offerAt, Event.recvAt, Event.fwdAt, Event.dropAt, Event.asRecv, Event.asFwd,
        Event.asTake, WorkerPc.held, Event.asDrop] using b4,
      by simpa [streamOf, Event.offerAt, Event.recvAt, Event.fwdAt, Event.dropAt, Event.asRecv,
          Event.asFwd, Event.asTake, WorkerPc.held, Event.asDrop] using b5, by simpa [streamOf,
          Event.offerAt, Event.recvAt, Event.fwdAt, Event.dropAt, Event.asRecv, Event.asFwd,
          Event.asTake, WorkerPc.held, Event.asDrop] using b6, by simpa [streamOf, Event.offerAt,
          Event.recvAt, Event.fwdAt, Event.dropAt, Event.asRecv, Event.asFwd, Event.asTake,
          WorkerPc.held, Event.asDrop] using b7,
      by simpa [streamOf, Event.offerAt, Event.recvAt, Event.fwdAt, Event.dropAt, Event.asRecv,
          Event.asFwd, Event.asTake, WorkerPc.held, Event.asDrop] using b8, by simpa [streamOf,
          Event.offerAt, Event.recvAt, Event.fwdAt, Event.dropAt, Event.asRecv, Event.asFwd,
          Event.asTake, WorkerPc.held, Event.asDrop] using b9⟩
  | waiterWake hpc htwg =>
    exact ⟨b1, by simpa [streamOf, Event.offerAt, Event.recvAt, Event.fwdAt, Event.dropAt,
        Event.asRecv, Event.asFwd, Event.asTake, WorkerPc.held, Event.asDrop] using b2,
        by simpa [streamOf, Event.offerAt, Event.recvAt, Event.fwdAt, Event.dropAt, Event.asRecv,
        Event.asFwd, Event.asTake, WorkerPc.held, Event.asDrop] using b3, by simpa [streamOf,
        Event.offerAt, Event.recvAt, Event.fwdAt, Event.dropAt, Event.asRecv, Event.asFwd,
        Event.asTake, WorkerPc.held, Event.asDrop] using b4,
      by simpa [streamOf, Event.offerAt, Event.recvAt, Event.fwdAt, Event.dropAt, Event.asRecv,
          Event.asFwd, Event.asTake, WorkerPc.held, Event.asDrop] using b5, by simpa [streamOf,
          Event.offerAt, Event.recvAt, Event.fwdAt, Event.dropAt, Event.asRecv, Event.asFwd,
          Event.asTake, WorkerPc.held, Event.asDrop] using b6, by simpa [streamOf, Event.offerAt,
          Event.recvAt, Event.fwdAt, Event.dropAt, Event.asRecv, Event.asFwd, Event.asTake,
          WorkerPc.held, Event.asDrop] using b7,
      by simpa [streamOf, Event.offerAt, Event.recvAt, Event.fwdAt, Event.dropAt, Event.asRecv,
          Event.asFwd, Event.asTake, WorkerPc.held, Event.asDrop] using b8, by simpa [streamOf,
          Event.offerAt, Event.recvAt, Event.fwdAt, Event.dropAt, Event.asRecv, Event.asFwd,
          Event.asTake, WorkerPc.held, Event.asDrop] using b9⟩
  | closeQ hpc =>
    exact ⟨b1, by simpa [streamOf, Event.offerAt, Event.recvAt, Event.fwdAt, Event.dropAt,
        Event.asRecv, Event.asFwd, Event.asTake, WorkerPc.held, Event.asDrop] using b2,
        by simpa [streamOf, Event.offerAt, Event.recvAt, Event.fwdAt, Event.dropAt, Event.asRecv,
        Event.asFwd, Event.asTake, WorkerPc.held, Event.asDrop] using b3, by simpa [streamOf,
        Event.offerAt, Event.recvAt, Event.fwdAt, Event.dropAt, Event.asRecv, Event.asFwd,
        Event.asTake, WorkerPc.held, Event.asDrop] using b4,
      by simpa [streamOf, Event.offerAt, Event.recvAt, Event.fwdAt, Event.dropAt, Event.asRecv,
          Event.asFwd, Event.asTake, WorkerPc.held, Event.asDrop] using b5, by simpa [streamOf,
          Event.offerAt, Event.recvAt, Event.fwdAt, Event.dropAt, Event.asRecv, Event.asFwd,
          Event.asTake, WorkerPc.held, Event.asDrop] using b6, by simpa [streamOf, Event.offerAt,
          Event.recvAt, Event.fwdAt, Event.dropAt, Event.asRecv, Event.asFwd, Event.asTake,
          WorkerPc.held, Event.asDrop] using b7,
      by simpa [streamOf, Event.offerAt, Event.recvAt, Event.fwdAt, Event.dropAt, Event.asRecv,
          Event.asFwd, Event.asTake, WorkerPc.held, Event.asDrop] using b8, by simpa [streamOf,
          Event.offerAt, Event.recvAt, Event.fwdAt, Event.dropAt, Event.asRecv, Event.asFwd,
          Event.asTake, WorkerPc.held, Event.asDrop] using b9⟩
  | extWin ht =>
    exact ⟨b1, by simpa [streamOf, Event.offerAt, Event.recvAt, Event.fwdAt, Event.dropAt,
        Event.asRecv, Event.asFwd, Event.asTake, WorkerPc.held, Event.asDrop] using b2,
        by simpa [streamOf, Event.offerAt, Event.recvAt, Event.fwdAt, Event.dropAt, Event.asRecv,
        Event.asFwd, Event.asTake, WorkerPc.held, Event.asDrop] using b3, by simpa [streamOf,
        Event.offerAt, Event.recvAt, Event.fwdAt, Event.dropAt, Event.asRecv, Event.asFwd,
        Event.asTake, WorkerPc.held, Event.asDrop] using b4,
      by simpa [streamOf, Event.offerAt, Event.recvAt, Event.fwdAt, Event.dropAt, Event.asRecv,
          Event.asFwd, Event.asTake, WorkerPc.held, Event.asDrop] using b5, by simpa [streamOf,
          Event.offerAt, Event.recvAt, Event.fwdAt, Event.dropAt, Event.asRecv, Event.asFwd,
          Event.asTake, WorkerPc.held, Event.asDrop] using b6, by simpa [streamOf, Event.offerAt,
          Event.recvAt, Event.fwdAt, Event.dropAt, Event.asRecv, Event.asFwd, Event.asTake,
          WorkerPc.held, Event.asDrop] using b7,
      by simpa [streamOf, Event.offerAt, Event.recvAt, Event.fwdAt, Event.dropAt, Event.asRecv,
          Event.asFwd, Event.asTake, WorkerPc.held, Event.asDrop] using b8, by simpa [streamOf,
          Event.offerAt, Event.recvAt, Event.fwdAt, Event.dropAt, Event.asRecv, Event.asFwd,
          Event.asTake, WorkerPc.held, Event.asDrop] using b9⟩
  | extLose ht =>
    exact ⟨b1, by simpa [streamOf, Event.offerAt, Event.recvAt, Event.fwdAt, Event.dropAt,
        Event.asRecv, Event.asFwd, Event.asTake, WorkerPc.held, Event.asDrop] using b2,
        by simpa [streamOf, Event.offerAt, Event.recvAt, Event.fwdAt, Event.dropAt, Event.asRecv,
        Event.asFwd, Event.asTake, WorkerPc.held, Event.asDrop] using b3, by simpa [streamOf,
        Event.offerAt, Event.recvAt, Event.fwdAt, Event.dropAt, Event.asRecv, Event.asFwd,
        Event.asTake, WorkerPc.held, Event.asDrop] using b4,
      by simpa [streamOf, Event.offerAt, Event.recvAt, Event.fwdAt, Event.dropAt, Event.asRecv,
          Event.asFwd, Event.asTake, WorkerPc.held, Event.asDrop] using b5, by simpa [streamOf,
          Event.offerAt, Event.recvAt, Event.fwdAt, Event.dropAt, Event.asRecv, Event.asFwd,
          Event.asTake, WorkerPc.held, Event.asDrop] using b6, by simpa [streamOf, Event.offerAt,
          Event.recvAt, Event.fwdAt, Event.dropAt, Event.asRecv, Event.asFwd, Event.asTake,
          WorkerPc.held, Event.asDrop] using b7,
      by simpa [streamOf, Event.offerAt, Event.recvAt, Event.fwdAt, Event.dropAt, Event.asRecv,
          Event.asFwd, Event.asTake, WorkerPc.held, Event.asDrop] using b8, by simpa [streamOf,
          Event.offerAt, Event.recvAt, Event.fwdAt, Event.dropAt, Event.asRecv, Event.asFwd,
          Event.asTake, WorkerPc.held, Event.asDrop] using b9⟩
  | extDone hext =>
    exact ⟨b1, by simpa [streamOf, Event.offerAt, Event.recvAt, Event.fwdAt, Event.dropAt,
        Event.asRecv, Event.asFwd, Event.asTake, WorkerPc.held, Event.asDrop] using b2,
        by simpa [streamOf, Event.offerAt, Event.recvAt, Event.fwdAt, Event.dropAt, Event.asRecv,
        Event.asFwd, Event.asTake, WorkerPc.held, Event.asDrop] using b3, by simpa [streamOf,
        Event.offerAt, Event.recvAt, Event.fwdAt, Event.dropAt, Event.asRecv, Event.asFwd,
        Event.asTake, WorkerPc.held, Event.asDrop] using b4,
      by simpa [streamOf, Event.offerAt, Event.recvAt, Event.fwdAt, Event.dropAt, Event.asRecv,
          Event.asFwd, Event.asTake, WorkerPc.held, Event.asDrop] using b5, by simpa [streamOf,
          Event.offerAt, Event.recvAt, Event.fwdAt, Event.dropAt, Event.asRecv, Event.asFwd,
          Event.asTake, WorkerPc.held, Event.asDrop] using b6, by simpa [streamOf, Event.offerAt,
          Event.recvAt, Event.fwdAt, Event.dropAt, Event.asRecv, Event.asFwd, Event.asTake,
          WorkerPc.held, Event.asDrop] using b7,
      by simpa [streamOf, Event.offerAt, Event.recvAt, Event.fwdAt, Event.dropAt, Event.asRecv,
          Event.asFwd, Event.asTake, WorkerPc.held, Event.asDrop] using b8, by simpa [streamOf,
          Event.offerAt, Event.recvAt, Event.fwdAt, Event.dropAt, Event.asRecv, Event.asFwd,
          Event.asTake, WorkerPc.held, Event.asDrop] using b9⟩
  | take i e rest hpc ho =>
    exact ⟨b1, by simpa [streamOf, Event.offerAt, Event.recvAt, Event.fwdAt, Event.dropAt,
        Event.asRecv, Event.asFwd, Event.asTake, WorkerPc.held, Event.asDrop] using b2,
        by simpa [streamOf, Event.offerAt, Event.recvAt, Event.fwdAt, Event.dropAt, Event.asRecv,
        Event.asFwd, Event.asTake, WorkerPc.held, Event.asDrop] using b3, by simpa [streamOf,
        Event.offerAt, Event.recvAt, Event.fwdAt, Event.dropAt, Event.asRecv, Event.asFwd,
        Event.asTake, WorkerPc.held, Event.asDrop] using b4,
      by simpa [streamOf, Event.offerAt, Event.recvAt, Event.fwdAt, Event.dropAt, Event.asRecv,
          Event.asFwd, Event.asTake, WorkerPc.held, Event.asDrop] using b5, by simpa [streamOf,
          Event.offerAt, Event.recvAt, Event.fwdAt, Event.dropAt, Event.asRecv, Event.asFwd,
          Event.asTake, WorkerPc.held, Event.asDrop, ho] using b6, by simpa [streamOf,
          Event.offerAt, Event.recvAt, Event.fwdAt, Event.dropAt, Event.asRecv, Event.asFwd,
          Event.asTake, WorkerPc.held, Event.asDrop] using b7,
      by simpa [streamOf, Event.offerAt, Event.recvAt, Event.fwdAt, Event.dropAt, Event.asRecv,
          Event.asFwd, Event.asTake, WorkerPc.held, Event.asDrop] using b8, by simpa [streamOf,
          Event.offerAt, Event.recvAt, Event.fwdAt, Event.dropAt, Event.asRecv, Event.asFwd,
          Event.asTake, WorkerPc.held, Event.asDrop] using b9⟩
  | discard i e rest hpc ho =>
    exact ⟨b1, by simpa [streamOf, Event.offerAt, Event.recvAt, Event.fwdAt, Event.dropAt,
        Event.asRecv, Event.asFwd, Event.asTake, WorkerPc.held, Event.asDrop] using b2,
        by simpa [streamOf, Event.offerAt, Event.recvAt, Event.fwdAt, Event.dropAt, Event.asRecv,
        Event.asFwd, Event.asTake, WorkerPc.held, Event.asDrop] using b3, by simpa [streamOf,
        Event.offerAt, Event.recvAt, Event.fwdAt, Event.dropAt, Event.asRecv, Event.asFwd,
        Event.asTake, WorkerPc.held, Event.asDrop] using b4,
      by simpa [streamOf, Event.offerAt, Event.recvAt, Event.fwdAt, Event.dropAt, Event.asRecv,
          Event.asFwd, Event.asTake, WorkerPc.held, Event.asDrop] using b5, by simpa [streamOf,
          Event.offerAt, Event.recvAt, Event.fwdAt, Event.dropAt, Event.asRecv, Event.asFwd,
          Event.asTake, WorkerPc.held, Event.asDrop, ho] using b6, by simpa [streamOf,
          Event.offerAt, Event.recvAt, Event.fwdAt, Event.dropAt, Event.asRecv, Event.asFwd,
          Event.asTake, WorkerPc.held, Event.asDrop] using b7,
      by simpa [streamOf, Event.offerAt, Event.recvAt, Event.fwdAt, Event.dropAt, Event.asRecv,
          Event.asFwd, Event.asTake, WorkerPc.held, Event.asDrop] using b8, by simpa [streamOf,
          Event.offerAt, Event.recvAt, Event.fwdAt, Event.dropAt, Event.asRecv, Event.asFwd,
          Event.asTake, WorkerPc.held, Event.asDrop] using b9⟩

/-! ## Events before and after the closing of `q` -/

theorem before_append_after {E : Type} (log : List (Event E)) :
    beforeSignal log ++ afterSignal log = log := by
  simp [beforeSignal, afterSignal]

theorem afterSignal_append_of_ne {E : Type} (l m : List (Event E)) (h : afterSignal l ≠ []) :
    afterSignal (l ++ m) = afterSignal l ++ m := by
  induction l with
  | nil => simp [afterSignal] at h
  | cons x xs ih =>
    cases hx : x.isCloseQ with
    | true => simp [afterSignal, List.dropWhile_cons, hx]
    | false =>
      have h2 : afterSignal xs ≠ [] := by
        simpa [afterSignal, List.dropWhile_cons, hx] using h
      have := ih h2
      simpa [afterSignal, List.dropWhile_cons, hx] using this

theorem afterSignal_append_of_nil {E : Type} (l m : List (Event E)) (h : afterSignal l = []) :
    afterSignal (l ++ m) = afterSignal m := by
  induction l with
  | nil => rfl
  | cons x xs ih =>
    cases hx : x.isCloseQ with
    | true => simp [afterSignal, List.dropWhile_cons, hx] at h
    | false =>
      have h2 : afterSignal xs = [] := by
        simpa [afterSignal, List.dropWhile_cons, hx] using h
      have := ih h2
      simpa [afterSignal, List.dropWhile_cons, hx] using this

theorem beforeSignal_append_of_ne {E : Type} (l m : List (Event E)) (h : afterSignal l ≠ []) :
    beforeSignal (l ++ m) = beforeSignal l := by
  induction l with
  | nil => simp [afterSignal] at h
  | cons x xs ih =>
    cases hx : x.isCloseQ with
    | true => simp [beforeSignal, List.takeWhile_cons, hx]
    | false =>
      have h2 : afterSignal xs ≠ [] := by
        simpa [afterSignal, List.dropWhile_cons, hx] using h
      have := ih h2
      simpa [beforeSignal, List.takeWhile_cons, hx] using this

theorem beforeSignal_of_nil {E : Type} (l : List (Event E)) (h : afterSignal l = []) :
    beforeSignal l = l := by
  have := before_append_after l
  rw [h] at this
  simpa using this

/-- Appending events none of which is the closing of `q`, while `q` is open. -/
theorem afterSignal_snoc_open {E : Type} (l m : List (Event E)) (h : afterSignal l = [])
    (hm : ∀ ev ∈ m, ev.isCloseQ = false) : afterSignal (l ++ m) = [] := by
  rw [afterSignal_append_of_nil l m h]
  unfold afterSignal
  rw [List.dropWhile_eq_nil_iff]
  intro ev hev
  simp [hm ev hev]

/-! ## Handshake invariant -/

theorem sig_keep {E : Type} (l m : List (Event E)) (q : Bool)
    (hF : q = false → afterSignal l = []) (hT : q = true → afterSignal l ≠ [])
    (hm : ∀ ev ∈ m, ev.isCloseQ = false) :
    (q = false → afterSignal (l ++ m) = []) ∧ (q = true → afterSignal (l ++ m) ≠ []) := by
  constructor
  · intro hq
    exact afterSignal_snoc_open l m (hF hq) hm
  · intro hq
    rw [afterSignal_append_of_ne l m (hT hq)]
    simp [hT hq]

theorem InvH_init {E σ : Type} (c : σ) (errs : List (InChan E)) : InvH (NewHandler c errs) := by
  constructor <;> simp [NewHandler, afterSignal]

set_option maxHeartbeats 2000000 in
theorem InvH_step {E σ : Type} (C : Consumer E σ) (s s1 : State E σ) (a : Action E)
    (hA : InvA s) (h : InvH s) (hs : Step C s a s1) : InvH s1 := by
  obtain ⟨h1, h2, h3, h4, h5⟩ := h
  have hl := hA.latch
  have hdt := hA.did_t
  cases hs with
  | offer i e w hw hc =>
    have hsig := sig_keep s.log [Event.offer i e] s.q h4 h5 (by simp [Event.isCloseQ])
    refine ⟨by simpa [Event.asCancel, Event.asExtCancel, Event.asRet, StartPc.quiet,
        StartPc.holds] using h1, by simpa [Event.asCancel, Event.asExtCancel, Event.asRet,
        StartPc.quiet, StartPc.holds] using h2, ?_, hsig.1, hsig.2⟩
    intro htt; have := h3 htt; have := hdt; simp_all [Event.asCancel, Event.asExtCancel,
        Event.asRet, StartPc.quiet, StartPc.holds, StartPc.didCancel]
  | close i w hw hc =>
    refine ⟨by simpa [Event.asCancel, Event.asExtCancel, Event.asRet, StartPc.quiet,
        StartPc.holds] using h1, by simpa [Event.asCancel, Event.asExtCancel, Event.asRet,
        StartPc.quiet, StartPc.holds] using h2, ?_, h4, h5⟩
    intro htt; have := h3 htt; have := hdt; simp_all [Event.asCancel, Event.asExtCancel,
        Event.asRet, StartPc.quiet, StartPc.holds, StartPc.didCancel]
  | recv i w e rest hw hpc hb =>
    have hsig := sig_keep s.log [Event.recv i e] s.q h4 h5 (by simp [Event.isCloseQ])
    refine ⟨by simpa [Event.asCancel, Event.asExtCancel, Event.asRet, StartPc.quiet,
        StartPc.holds] using h1, by simpa [Event.asCancel, Event.asExtCancel, Event.asRet,
        StartPc.quiet, StartPc.holds] using h2, ?_, hsig.1, hsig.2⟩
    intro htt; have := h3 htt; have := hdt; simp_all [Event.asCancel, Event.asExtCancel,
        Event.asRet, StartPc.quiet, StartPc.holds, StartPc.didCancel]
  | eof i w hw hpc hb hc =>
    refine ⟨by simpa [Event.asCancel, Event.asExtCancel, Event.asRet, StartPc.quiet,
        StartPc.holds] using h1, by simpa [Event.asCancel, Event.asExtCancel, Event.asRet,
        StartPc.quiet, StartPc.holds] using h2, ?_, h4, h5⟩
    intro htt; have := h3 htt; have := hdt; simp_all [Event.asCancel, Event.asExtCancel,
        Event.asRet, StartPc.quiet, StartPc.holds, StartPc.didCancel]
  | drop i w e hw hpc hq =>
    have hsig := sig_keep s.log [Event.drop i e] s.q h4 h5 (by simp [Event.isCloseQ])
    refine ⟨by simpa [Event.asCancel, Event.asExtCancel, Event.asRet, StartPc.quiet,
        StartPc.holds] using h1, by simpa [Event.asCancel, Event.asExtCancel, Event.asRet,
        StartPc.quiet, StartPc.holds] using h2, ?_, hsig.1, hsig.2⟩
    intro htt; have := h3 htt; have := hdt; simp_all [Event.asCancel, Event.asExtCancel,
        Event.asRet, StartPc.quiet, StartPc.holds, StartPc.didCancel]
  | pass i w e hw hpc hq =>
    refine ⟨by simpa [Event.asCancel, Event.asExtCancel, Event.asRet, StartPc.quiet,
        StartPc.holds] using h1, by simpa [Event.asCancel, Event.asExtCancel, Event.asRet,
        StartPc.quiet, StartPc.holds] using h2, ?_, h4, h5⟩
    intro htt; have := h3 htt; have := hdt; simp_all [Event.asCancel, Event.asExtCancel,
        Event.asRet, StartPc.quiet, StartPc.holds, StartPc.didCancel]
  | sendClosed i w e hw hpc ho =>
    refine ⟨by simpa [Event.asCancel, Event.asExtCancel, Event.asRet, StartPc.quiet,
        StartPc.holds] using h1, by simpa [Event.asCancel, Event.asExtCancel, Event.asRet,
        StartPc.quiet, StartPc.holds] using h2, ?_, h4, h5⟩
    intro htt; have := h3 htt; have := hdt; simp_all [Event.asCancel, Event.asExtCancel,
        Event.asRet, StartPc.quiet, StartPc.holds, StartPc.didCancel]
  | fwd i w e hw hpc ho hlen =>
    have hsig := sig_keep s.log [Event.fwd i e] s.q h4 h5 (by simp [Event.isCloseQ])
    refine ⟨by simpa [Event.asCancel, Event.asExtCancel, Event.asRet, StartPc.quiet,
        StartPc.holds] using h1, by simpa [Event.asCancel, Event.asExtCancel, Event.asRet,
        StartPc.quiet, StartPc.holds] using h2, ?_, hsig.1, hsig.2⟩
    intro htt; have := h3 htt; have := hdt; simp_all [Event.asCancel, Event.asExtCancel,
        Event.asRet, StartPc.quiet, StartPc.holds, StartPc.didCancel]
  | closerWake hpc hwg =>
    refine ⟨by simpa [Event.asCancel, Event.asExtCancel, Event.asRet, StartPc.quiet,
        StartPc.holds] using h1, by simpa [Event.asCancel, Event.asExtCancel, Event.asRet,
        StartPc.quiet, StartPc.holds] using h2, ?_, h4, h5⟩
    intro htt; have := h3 htt; have := hdt; simp_all [Event.asCancel, Event.asExtCancel,
        Event.asRet, StartPc.quiet, StartPc.holds, StartPc.didCancel]
  | closeOut hpc =>
    have hsig := sig_keep s.log [Event.closeOut] s.q h4 h5 (by simp [Event.isCloseQ])
    refine ⟨by simpa [Event.asCancel, Event.asExtCancel, Event.asRet, StartPc.quiet,
        StartPc.holds] using h1, by simpa [Event.asCancel, Event.asExtCancel, Event.asRet,
        StartPc.quiet, StartPc.holds] using h2, ?_, hsig.1, hsig.2⟩
    intro htt; have := h3 htt; have := hdt; simp_all [Event.asCancel, Event.asExtCancel,
        Event.asRet, StartPc.quiet, StartPc.holds, StartPc.didCancel]
  | take i e rest hpc ho =>
    have hsig := sig_keep s.log [Event.take i e] s.q h4 h5 (by simp [Event.isCloseQ])
    refine ⟨by simpa [Event.asCancel, Event.asExtCancel, Event.asRet, StartPc.quiet,
        StartPc.holds] using h1, by simpa [Event.asCancel, Event.asExtCancel, Event.asRet,
        StartPc.quiet, StartPc.holds] using h2, ?_, hsig.1, hsig.2⟩
    intro htt; have := h3 htt; have := hdt; simp_all [Event.asCancel, Event.asExtCancel,
        Event.asRet, StartPc.quiet, StartPc.holds, StartPc.didCancel]
  | discard i e rest hpc ho =>
    have hsig := sig_keep s.log [Event.take i e,
        Event.discard i e] s.q h4 h5 (by simp [Event.isCloseQ])
    refine ⟨by simpa [Event.asCancel, Event.asExtCancel, Event.asRet, StartPc.quiet,
        StartPc.holds] using h1, by simpa [Event.asCancel, Event.asExtCancel, Event.asRet,
        StartPc.quiet, StartPc.holds] using h2, ?_, hsig.1, hsig.2⟩
    intro htt; have := h3 htt; have := hdt; simp_all [Event.asCancel, Event.asExtCancel,
        Event.asRet, StartPc.quiet, StartPc.holds, StartPc.didCancel]
  | loopEnd d hpc ho hc =>
    refine ⟨by simpa [Event.asCancel, Event.asExtCancel, Event.asRet, StartPc.quiet,
        StartPc.holds] using h1, by simpa [Event.asCancel, Event.asExtCancel, Event.asRet,
        StartPc.quiet, StartPc.holds] using h2, ?_, h4, h5⟩
    intro htt; have := h3 htt; have := hdt; simp_all [Event.asCancel, Event.asExtCancel,
        Event.asRet, StartPc.quiet, StartPc.holds, StartPc.didCancel]
  | consumeOk i e hpc hok =>
    have hsig := sig_keep s.log [Event.consume i e true] s.q h4 h5 (by simp [Event.isCloseQ])
    refine ⟨by simpa [Event.asCancel, Event.asExtCancel, Event.asRet, StartPc.quiet,
        StartPc.holds] using h1, by simpa [Event.asCancel, Event.asExtCancel, Event.asRet,
        StartPc.quiet, StartPc.holds] using h2, ?_, hsig.1, hsig.2⟩
    intro htt; have := h3 htt; have := hdt; simp_all [Event.asCancel, Event.asExtCancel,
        Event.asRet, StartPc.quiet, StartPc.holds, StartPc.didCancel]
  | consumeStop i e hpc hok =>
    have hsig := sig_keep s.log [Event.consume i e false] s.q h4 h5 (by simp [Event.isCloseQ])
    refine ⟨by simpa [Event.asCancel, Event.asExtCancel, Event.asRet, StartPc.quiet,
        StartPc.holds] using h1, by simpa [Event.asCancel, Event.asExtCancel, Event.asRet,
        StartPc.quiet, StartPc.holds] using h2, ?_, hsig.1, hsig.2⟩
    intro htt; have := h3 htt; have := hdt; simp_all [Event.asCancel, Event.asExtCancel,
        Event.asRet, StartPc.quiet, StartPc.holds, StartPc.didCancel]
  | cancelInWin hpc ht =>
    have hsig := sig_keep s.log [Event.cancel false true] s.q h4 h5 (by simp [Event.isCloseQ])
    refine ⟨?_, ?_, ?_, hsig.1, hsig.2⟩
    · right; rcases h1 with ⟨_, h1⟩ | ⟨h1, _⟩
      · exact ⟨rfl, 0, by simp [Event.asCancel, Event.asExtCancel, Event.asRet, StartPc.quiet,
          StartPc.holds, h1]⟩
      · simp [ht] at h1
    · simpa [Event.asCancel, Event.asExtCancel, Event.asRet, StartPc.quiet, StartPc.holds] using h2
    · simp [Event.asCancel, Event.asExtCancel, Event.asRet, StartPc.quiet, StartPc.holds]
  | cancelInLose hpc ht =>
    have hsig := sig_keep s.log [Event.cancel false false,
        Event.ret false] s.q h4 h5 (by simp [Event.isCloseQ])
    refine ⟨?_, ?_, ?_, hsig.1, hsig.2⟩
    · right; rcases h1 with ⟨h1, _⟩ | ⟨_, k, h1⟩
      · simp [ht] at h1
      · exact ⟨ht, k + 1, by simp [Event.asCancel, Event.asExtCancel, Event.asRet, StartPc.quiet,
          StartPc.holds, h1, List.replicate_succ']⟩
    · simpa [Event.asCancel, Event.asExtCancel, Event.asRet, StartPc.quiet, StartPc.holds] using h2
    · intro htt; have := h3 htt; simp_all [Event.asCancel, Event.asExtCancel, Event.asRet,
        StartPc.quiet, StartPc.holds]
  | cancelInDone hpc =>
    have hsig := sig_keep s.log [Event.ret true] s.q h4 h5 (by simp [Event.isCloseQ])
    refine ⟨by simpa [Event.asCancel, Event.asExtCancel, Event.asRet, StartPc.quiet,
        StartPc.holds] using h1, ?_, ?_, hsig.1, hsig.2⟩
    · simp only [retL_append, retL_cons, retL_nil, Event.asRet, Option.toList, List.count_append,
        List.count_singleton_self, List.append_nil]
      push_cast
      omega
    · intro htt; have := h3 htt; simp_all [Event.asCancel, Event.asExtCancel, Event.asRet,
        StartPc.quiet, StartPc.holds]
  | cancelOutWin hpc ht =>
    have hsig := sig_keep s.log [Event.cancel false true] s.q h4 h5 (by simp [Event.isCloseQ])
    refine ⟨?_, ?_, ?_, hsig.1, hsig.2⟩
    · right; rcases h1 with ⟨_, h1⟩ | ⟨h1, _⟩
      · exact ⟨rfl, 0, by simp [Event.asCancel, Event.asExtCancel, Event.asRet, StartPc.quiet,
          StartPc.holds, h1]⟩
      · simp [ht] at h1
    · simpa [Event.asCancel, Event.asExtCancel, Event.asRet, StartPc.quiet, StartPc.holds] using h2
    · simp [Event.asCancel, Event.asExtCancel, Event.asRet, StartPc.quiet, StartPc.holds]
  | cancelOutLose hpc ht =>
    have hsig := sig_keep s.log [Event.cancel false false,
        Event.ret false] s.q h4 h5 (by simp [Event.isCloseQ])
    refine ⟨?_, ?_, ?_, hsig.1, hsig.2⟩
    · right; rcases h1 with ⟨h1, _⟩ | ⟨_, k, h1⟩
      · simp [ht] at h1
      · exact ⟨ht, k + 1, by simp [Event.asCancel, Event.asExtCancel, Event.asRet, StartPc.quiet,
          StartPc.holds, h1, List.replicate_succ']⟩
    · simpa [Event.asCancel, Event.asExtCancel, Event.asRet, StartPc.quiet, StartPc.holds] using h2
    · intro htt; have := h3 htt; simp_all [Event.asCancel, Event.asExtCancel, Event.asRet,
        StartPc.quiet, StartPc.holds]
  | cancelOutDone hpc =>
    have hsig := sig_keep s.log [Event.ret true] s.q h4 h5 (by simp [Event.isCloseQ])
    refine ⟨by simpa [Event.asCancel, Event.asExtCancel, Event.asRet, StartPc.quiet,
        StartPc.holds] using h1, ?_, ?_, hsig.1, hsig.2⟩
    · simp only [retL_append, retL_cons, retL_nil, Event.asRet, Option.toList, List.count_append,
        List.count_singleton_self, List.append_nil]
      push_cast
      omega
    · intro htt; have := h3 htt; simp_all [Event.asCancel, Event.asExtCancel, Event.asRet,
        StartPc.quiet, StartPc.holds]
  | waiterWake hpc htwg =>
    refine ⟨by simpa [Event.asCancel, Event.asExtCancel, Event.asRet, StartPc.quiet,
        StartPc.holds] using h1, by simpa [Event.asCancel, Event.asExtCancel, Event.asRet,
        StartPc.quiet, StartPc.holds] using h2, ?_, h4, h5⟩
    intro htt; have := h3 htt; have := hdt; simp_all [Event.asCancel, Event.asExtCancel,
        Event.asRet, StartPc.quiet, StartPc.holds, StartPc.didCancel]
  | extWin ht =>
    have hsig := sig_keep s.log [Event.cancel true true] s.q h4 h5 (by simp [Event.isCloseQ])
    refine ⟨?_, ?_, ?_, hsig.1, hsig.2⟩
    · right; rcases h1 with ⟨_, h1⟩ | ⟨h1, _⟩
      · exact ⟨rfl, 0, by simp [Event.asCancel, Event.asExtCancel, Event.asRet, StartPc.quiet,
          StartPc.holds, h1]⟩
      · simp [ht] at h1
    · simpa [Event.asCancel, Event.asExtCancel, Event.asRet, StartPc.quiet, StartPc.holds] using h2
    · simp [Event.asCancel, Event.asExtCancel, Event.asRet, StartPc.quiet, StartPc.holds]
  | extLose ht =>
    have hsig := sig_keep s.log [Event.cancel true false,
        Event.ret false] s.q h4 h5 (by simp [Event.isCloseQ])
    refine ⟨?_, ?_, ?_, hsig.1, hsig.2⟩
    · right; rcases h1 with ⟨h1, _⟩ | ⟨_, k, h1⟩
      · simp [ht] at h1
      · exact ⟨ht, k + 1, by simp [Event.asCancel, Event.asExtCancel, Event.asRet, StartPc.quiet,
          StartPc.holds, h1, List.replicate_succ']⟩
    · simpa [Event.asCancel, Event.asExtCancel, Event.asRet, StartPc.quiet, StartPc.holds] using h2
    · intro htt; have := h3 htt; simp_all [Event.asCancel, Event.asExtCancel, Event.asRet,
        StartPc.quiet, StartPc.holds]
  | extDone hext =>
    have hsig := sig_keep s.log [Event.ret true] s.q h4 h5 (by simp [Event.isCloseQ])
    refine ⟨by simpa [Event.asCancel, Event.asExtCancel, Event.asRet, StartPc.quiet,
        StartPc.holds] using h1, ?_, ?_, hsig.1, hsig.2⟩
    · simp only [retL_append, retL_cons, retL_nil, Event.asRet, Option.toList, List.count_append,
        List.count_singleton_self, List.append_nil]
      push_cast
      omega
    · intro htt; have := h3 htt; simp_all [Event.asCancel, Event.asExtCancel, Event.asRet,
        StartPc.quiet, StartPc.holds]
  | closeQ hpc =>
    refine ⟨by simpa [Event.asCancel] using h1, by simpa [Event.asRet] using h2,
      by simpa [Event.asExtCancel] using h3, by simp, ?_⟩
    intro _
    have hq : s.q = false := by
      cases hq : s.q with
      | false => rfl
      | true => have := hA.q_iff.mp hq; simp [hpc] at this
    rw [afterSignal_append_of_nil _ _ (h4 hq)]
    simp [afterSignal, Event.isCloseQ]

/-! ## Late-receive invariant -/

theorem InvD_init {E σ : Type} (c : σ) (errs : List (InChan E)) : InvD (NewHandler c errs) := by
  constructor
  intro i w _
  simp [NewHandler, afterSignal]

theorem late_nil {E : Type} (i : Nat) (pc : WorkerPc E) (l d : List (Event E)) (h : l = []) :
    (recvOf i l).length ≤ 1 ∧
    (recvOf i l ≠ [] → (∃ e, pc = WorkerPc.check e) ∨ (pc = WorkerPc.done ∧ dropOf i d ≠ [])) := by
  subst h
  simp

set_option maxHeartbeats 2000000 in
theorem InvD_step {E σ : Type} (C : Consumer E σ) (s s1 : State E σ) (a : Action E)
    (hA : InvA s) (hH : InvH s) (h : InvD s) (hs : Step C s a s1) : InvD s1 := by
  obtain ⟨d1⟩ := h
  have hF := hH.sigF
  have hT := hH.sigT
  cases hs with
  | offer i e w hw hc =>
    constructor
    intro j w1 hj
    cases hq : s.q with
    | false =>
      exact late_nil j _ _ _ (afterSignal_snoc_open s.log [Event.offer i e] (hF hq) (by simp [Event.isCloseQ]))
    | true =>
      simp only [afterSignal_append_of_ne _ _ (hT hq)]
      rcases getElem?_set_some _ _ _ _ _ hj with ⟨rfl, rfl⟩ | ⟨hne, hj1⟩
      · simpa [Event.recvAt, Event.dropAt] using d1 j w hw
      · simpa [Event.recvAt, Event.dropAt, Ne.symm hne] using d1 j w1 hj1
  | close i w hw hc =>
    constructor
    intro j w1 hj
    rcases getElem?_set_some _ _ _ _ _ hj with ⟨rfl, rfl⟩ | ⟨hne, hj1⟩
    · simpa [Event.recvAt, Event.dropAt] using d1 j w hw
    · simpa [Event.recvAt, Event.dropAt, Ne.symm hne] using d1 j w1 hj1
  | recv i w e rest hw hpc hb =>
    constructor
    intro j w1 hj
    cases hq : s.q with
    | false =>
      exact late_nil j _ _ _ (afterSignal_snoc_open s.log [Event.recv i e] (hF hq) (by simp [Event.isCloseQ]))
    | true =>
      simp only [afterSignal_append_of_ne _ _ (hT hq)]
      rcases getElem?_set_some _ _ _ _ _ hj with ⟨rfl, rfl⟩ | ⟨hne, hj1⟩
      · have hd := d1 j w hw
        have hnil : recvOf j (afterSignal s.log) = [] := by
          by_contra hcon
          rcases hd.2 hcon with ⟨e1, he1⟩ | ⟨he1, _⟩ <;> simp [hpc] at he1
        simp [Event.recvAt, Event.dropAt, hnil]
      · simpa [Event.recvAt, Event.dropAt, Ne.symm hne] using d1 j w1 hj1
  | eof i w hw hpc hb hc =>
    constructor
    intro j w1 hj
    rcases getElem?_set_some _ _ _ _ _ hj with ⟨rfl, rfl⟩ | ⟨hne, hj1⟩
    · have hd := d1 j w hw
      have hnil : recvOf j (afterSignal s.log) = [] := by
        by_contra hcon
        rcases hd.2 hcon with ⟨e1, he1⟩ | ⟨he1, _⟩ <;> simp [hpc] at he1
      simp [Event.recvAt, Event.dropAt, hnil]
    · simpa [Event.recvAt, Event.dropAt, Ne.symm hne] using d1 j w1 hj1
  | drop i w e hw hpc hq =>
    constructor
    intro j w1 hj
    cases hq : s.q with
    | false =>
      exact late_nil j _ _ _ (afterSignal_snoc_open s.log [Event.drop i e] (hF hq) (by simp [Event.isCloseQ]))
    | true =>
      simp only [afterSignal_append_of_ne _ _ (hT hq)]
      rcases getElem?_set_some _ _ _ _ _ hj with ⟨rfl, rfl⟩ | ⟨hne, hj1⟩
      · have hd := d1 j w hw
        refine ⟨by simpa [Event.recvAt, Event.dropAt] using hd.1, ?_⟩
        intro _
        right
        simp [Event.recvAt, Event.dropAt]
      · simpa [Event.recvAt, Event.dropAt, Ne.symm hne] using d1 j w1 hj1
  | pass i w e hw hpc hq =>
    constructor
    intro j w1 hj
    rcases getElem?_set_some _ _ _ _ _ hj with ⟨rfl, rfl⟩ | ⟨hne, hj1⟩
    · have hd := d1 j w hw
      have hnil : recvOf j (afterSignal s.log) = [] := by rw [hF hq]; rfl
      simp [Event.recvAt, Event.dropAt, hnil]
    · simpa [Event.recvAt, Event.dropAt, Ne.symm hne] using d1 j w1 hj1
  | sendClosed i w e hw hpc ho =>
    constructor
    intro j w1 hj
    exact d1 j w1 hj
  | fwd i w e hw hpc ho hlen =>
    constructor
    intro j w1 hj
    cases hq : s.q with
    | false =>
      exact late_nil j _ _ _ (afterSignal_snoc_open s.log [Event.fwd i e] (hF hq) (by simp [Event.isCloseQ]))
    | true =>
      simp only [afterSignal_append_of_ne _ _ (hT hq)]
      rcases getElem?_set_some _ _ _ _ _ hj with ⟨rfl, rfl⟩ | ⟨hne, hj1⟩
      · have hd := d1 j w hw
        have hnil : recvOf j (afterSignal s.log) = [] := by
          by_contra hcon
          rcases hd.2 hcon with ⟨e1, he1⟩ | ⟨he1, _⟩ <;> simp [hpc] at he1
        simp [Event.recvAt, Event.dropAt, hnil]
      · simpa [Event.recvAt, Event.dropAt, Ne.symm hne] using d1 j w1 hj1
  | closerWake hpc hwg =>
    constructor
    intro j w1 hj
    exact d1 j w1 hj
  | closeOut hpc =>
    constructor
    intro j w1 hj
    cases hq : s.q with
    | false =>
      exact late_nil j _ _ _ (afterSignal_snoc_open s.log [Event.closeOut] (hF hq) (by simp [Event.isCloseQ]))
    | true =>
      simp only [afterSignal_append_of_ne _ _ (hT hq)]
      simpa [Event.recvAt, Event.dropAt] using d1 j w1 hj
  | take i e rest hpc ho =>
    constructor
    intro j w1 hj
    cases hq : s.q with
    | false =>
      exact late_nil j _ _ _ (afterSignal_snoc_open s.log [Event.take i e] (hF hq) (by simp [Event.isCloseQ]))
    | true =>
      simp only [afterSignal_append_of_ne _ _ (hT hq)]
      simpa [Event.recvAt, Event.dropAt] using d1 j w1 hj
  | discard i e rest hpc ho =>
    constructor
    intro j w1 hj
    cases hq : s.q with
    | false =>
      exact late_nil j _ _ _ (afterSignal_snoc_open s.log [Event.take i e,
          Event.discard i e] (hF hq) (by simp [Event.isCloseQ]))
    | true =>
      simp only [afterSignal_append_of_ne _ _ (hT hq)]
      simpa [Event.recvAt, Event.dropAt] using d1 j w1 hj
  | loopEnd d hpc ho hc =>
    constructor
    intro j w1 hj
    exact d1 j w1 hj
  | consumeOk i e hpc hok =>
    constructor
    intro j w1 hj
    cases hq : s.q with
    | false =>
      exact late_nil j _ _ _ (afterSignal_snoc_open s.log [Event.consume i e true] (hF hq) (by simp [Event.isCloseQ]))
    | true =>
      simp only [afterSignal_append_of_ne _ _ (hT hq)]
      simpa [Event.recvAt, Event.dropAt] using d1 j w1 hj
  | consumeStop i e hpc hok =>
    constructor
    intro j w1 hj
    cases hq : s.q with
    | false =>
      exact late_nil j _ _ _ (afterSignal_snoc_open s.log [Event.consume i e false] (hF hq) (by simp [Event.isCloseQ]))
    | true =>
      simp only [afterSignal_append_of_ne _ _ (hT hq)]
      simpa [Event.recvAt, Event.dropAt] using d1 j w1 hj
  | cancelInWin hpc ht =>
    constructor
    intro j w1 hj
    cases hq : s.q with
    | false =>
      exact late_nil j _ _ _ (afterSignal_snoc_open s.log [Event.cancel false true] (hF hq) (by simp [Event.isCloseQ]))
    | true =>
      simp only [afterSignal_append_of_ne _ _ (hT hq)]
      simpa [Event.recvAt, Event.dropAt] using d1 j w1 hj
  | cancelInLose hpc ht =>
    constructor
    intro j w1 hj
    cases hq : s.q with
    | false =>
      exact late_nil j _ _ _ (afterSignal_snoc_open s.log [Event.cancel false false,
          Event.ret false] (hF hq) (by simp [Event.isCloseQ]))
    | true =>
      simp only [afterSignal_append_of_ne _ _ (hT hq)]
      simpa [Event.recvAt, Event.dropAt] using d1 j w1 hj
  | cancelInDone hpc =>
    constructor
    intro j w1 hj
    cases hq : s.q with
    | false =>
      exact late_nil j _ _ _ (afterSignal_snoc_open s.log [Event.ret true] (hF hq) (by simp [Event.isCloseQ]))
    | true =>
      simp only [afterSignal_append_of_ne _ _ (hT hq)]
      simpa [Event.recvAt, Event.dropAt] using d1 j w1 hj
  | cancelOutWin hpc ht =>
    constructor
    intro j w1 hj
    cases hq : s.q with
    | false =>
      exact late_nil j _ _ _ (afterSignal_snoc_open s.log [Event.cancel false true] (hF hq) (by simp [Event.isCloseQ]))
    | true =>
      simp only [afterSignal_append_of_ne _ _ (hT hq)]
      simpa [Event.recvAt, Event.dropAt] using d1 j w1 hj
  | cancelOutLose hpc ht =>
    constructor
    intro j w1 hj
    cases hq : s.q with
    | false =>
      exact late_nil j _ _ _ (afterSignal_snoc_open s.log [Event.cancel false false,
          Event.ret false] (hF hq) (by simp [Event.isCloseQ]))
    | true =>
      simp only [afterSignal_append_of_ne _ _ (hT hq)]
      simpa [Event.recvAt, Event.dropAt] using d1 j w1 hj
  | cancelOutDone hpc =>
    constructor
    intro j w1 hj
    cases hq : s.q with
    | false =>
      exact late_nil j _ _ _ (afterSignal_snoc_open s.log [Event.ret true] (hF hq) (by simp [Event.isCloseQ]))
    | true =>
      simp only [afterSignal_append_of_ne _ _ (hT hq)]
      simpa [Event.recvAt, Event.dropAt] using d1 j w1 hj
  | waiterWake hpc htwg =>
    constructor
    intro j w1 hj
    exact d1 j w1 hj
  | extWin ht =>
    constructor
    intro j w1 hj
    cases hq : s.q with
    | false =>
      exact late_nil j _ _ _ (afterSignal_snoc_open s.log [Event.cancel true true] (hF hq) (by simp [Event.isCloseQ]))
    | true =>
      simp only [afterSignal_append_of_ne _ _ (hT hq)]
      simpa [Event.recvAt, Event.dropAt] using d1 j w1 hj
  | extLose ht =>
    constructor
    intro j w1 hj
    cases hq : s.q with
    | false =>
      exact late_nil j _ _ _ (afterSignal_snoc_open s.log [Event.cancel true false,
          Event.ret false] (hF hq) (by simp [Event.isCloseQ]))
    | true =>
      simp only [afterSignal_append_of_ne _ _ (hT hq)]
      simpa [Event.recvAt, Event.dropAt] using d1 j w1 hj
  | extDone hext =>
    constructor
    intro j w1 hj
    cases hq : s.q with
    | false =>
      exact late_nil j _ _ _ (afterSignal_snoc_open s.log [Event.ret true] (hF hq) (by simp [Event.isCloseQ]))
    | true =>
      simp only [afterSignal_append_of_ne _ _ (hT hq)]
      simpa [Event.recvAt, Event.dropAt] using d1 j w1 hj
  | closeQ hpc =>
    constructor
    intro j w1 hj
    have hq : s.q = false := by
      cases hq : s.q with
      | false => rfl
      | true => have := hA.q_iff.mp hq; simp [hpc] at this
    have h0 : recvOf j (afterSignal (s.log ++ [Event.closeQ])) = [] := by
      rw [afterSignal_append_of_nil _ _ (hF hq)]
      simp [afterSignal, Event.isCloseQ, Event.recvAt]
    simp [h0]

/-! ## The consumption loop -/

theorem deliveredSpec_snoc {E σ : Type} (C : Consumer E σ) (c : σ) (M : List (Nat × E))
    (x : Nat × E) (h : ∀ r ∈ deliveredSpec C c M, r.2 = true) :
    deliveredSpec C c (M ++ [x])
        = deliveredSpec C c M ++ [(x, (C.Consume (consumerAfter C c M) x.2).1)] ∧
      consumerAfter C c (M ++ [x]) = (C.Consume (consumerAfter C c M) x.2).2 := by
  induction M generalizing c with
  | nil =>
    cases hx : (C.Consume c x.2).1 <;> simp [deliveredSpec, consumerAfter, hx]
  | cons y ys ih =>
    cases hy : (C.Consume c y.2).1 with
    | false => simp [deliveredSpec, hy] at h
    | true =>
      have h2 : ∀ r ∈ deliveredSpec C (C.Consume c y.2).2 ys, r.2 = true := by
        intro r hr
        apply h
        simp [deliveredSpec, hy, hr]
      have := ih (C.Consume c y.2).2 h2
      simp [deliveredSpec, consumerAfter, hy, this]

theorem deliveredSpec_stop {E σ : Type} (C : Consumer E σ) (c : σ) (M X : List (Nat × E))
    (h : ∃ r ∈ deliveredSpec C c M, r.2 = false) :
    deliveredSpec C c (M ++ X) = deliveredSpec C c M ∧
      consumerAfter C c (M ++ X) = consumerAfter C c M := by
  induction M generalizing c with
  | nil => simp [deliveredSpec] at h
  | cons y ys ih =>
    cases hy : (C.Consume c y.2).1 with
    | false => simp [deliveredSpec, consumerAfter, hy]
    | true =>
      have h2 : ∃ r ∈ deliveredSpec C (C.Consume c y.2).2 ys, r.2 = false := by
        simpa [deliveredSpec, hy] using h
      have := ih (C.Consume c y.2).2 h2
      simp [deliveredSpec, consumerAfter, hy, this]

/-- The calls are made on an initial segment of the merged sequence, in order. -/
theorem deliveredSpec_fst {E σ : Type} (C : Consumer E σ) (c : σ) (M : List (Nat × E)) :
    (deliveredSpec C c M).map Prod.fst <+: M := by
  induction M generalizing c with
  | nil => simp [deliveredSpec]
  | cons y ys ih =>
    cases hy : (C.Consume c y.2).1 with
    | false => simp [deliveredSpec, hy]
    | true =>
      simp only [deliveredSpec, hy, if_true, List.map_cons]
      exact (List.prefix_cons_inj y).mpr (ih _)

/-- Every call but the last returned true. -/
theorem deliveredSpec_dropLast {E σ : Type} (C : Consumer E σ) (c : σ) (M : List (Nat × E)) :
    ∀ r ∈ (deliveredSpec C c M).dropLast, r.2 = true := by
  induction M generalizing c with
  | nil => simp [deliveredSpec]
  | cons y ys ih =>
    cases hy : (C.Consume c y.2).1 with
    | false => simp [deliveredSpec, hy]
    | true =>
      intro r hr
      simp only [deliveredSpec, hy, if_true] at hr
      cases hd : deliveredSpec C (C.Consume c y.2).2 ys with
      | nil => simp [hd] at hr
      | cons z zs =>
        rw [hd, List.dropLast_cons₂] at hr
        rcases List.mem_cons.mp hr with hr | hr
        · rw [hr]
        · exact ih (C.Consume c y.2).2 r (by rw [hd]; exact hr)

/-- At most one call returned false. -/
theorem deliveredSpec_count {E σ : Type} (C : Consumer E σ) (c : σ) (M : List (Nat × E)) :
    ((deliveredSpec C c M).map Prod.snd).count false ≤ 1 := by
  induction M generalizing c with
  | nil => simp [deliveredSpec]
  | cons y ys ih =>
    cases hy : (C.Consume c y.2).1 with
    | false => simp [deliveredSpec, hy]
    | true =>
      have := ih (C.Consume c y.2).2
      simpa [deliveredSpec, hy] using this

/-- The loop as written, with its `done` flag, makes exactly the calls the
specification describes. -/
theorem startLoop_eq_deliveredSpec {E σ : Type} (C : Consumer E σ) (c : σ) (M : List (Nat × E)) :
    startLoop C c false M = deliveredSpec C c M := by
  have hdone : ∀ (c1 : σ) (N : List (Nat × E)), startLoop C c1 true N = [] := by
    intro c1 N
    induction N with
    | nil => rfl
    | cons y ys ih => simpa [startLoop] using ih
  induction M generalizing c with
  | nil => rfl
  | cons y ys ih =>
    cases hy : (C.Consume c y.2).1 with
    | false => simp [startLoop, deliveredSpec, hy, hdone]
    | true => simp [startLoop, deliveredSpec, hy, ih]

theorem InvC_init {E σ : Type} (C : Consumer E σ) (c : σ) (errs : List (InChan E)) :
    InvC C c (NewHandler c errs) := by
  constructor <;> simp [NewHandler, StartPc.pending, deliveredSpec, consumerAfter, StartPc.halted]

set_option maxHeartbeats 2000000 in
theorem InvC_step {E σ : Type} (C : Consumer E σ) (c0 : σ) (s s1 : State E σ) (a : Action E)
    (h : InvC C c0 s) (hs : Step C s a s1) : InvC C c0 s1 := by
  obtain ⟨c1, c2, c3, c4, c5⟩ := h
  cases hs with
  | offer i e w hw hc =>
    exact ⟨by simpa [Event.asTake, Event.asConsume, Event.asDiscard, StartPc.pending, StartPc.fresh,
        StartPc.halted] using c1, by simpa [Event.asTake, Event.asConsume, Event.asDiscard,
        StartPc.pending, StartPc.fresh, StartPc.halted] using c2, by simpa [Event.asTake,
        Event.asConsume, Event.asDiscard, StartPc.pending, StartPc.fresh, StartPc.halted] using c3,
      by simpa [Event.asTake, Event.asConsume, Event.asDiscard, StartPc.pending, StartPc.fresh,
          StartPc.halted] using c4, by simpa [Event.asTake, Event.asConsume, Event.asDiscard,
          StartPc.pending, StartPc.fresh, StartPc.halted] using c5⟩
  | close i w hw hc =>
    exact ⟨by simpa [Event.asTake, Event.asConsume, Event.asDiscard, StartPc.pending, StartPc.fresh,
        StartPc.halted] using c1, by simpa [Event.asTake, Event.asConsume, Event.asDiscard,
        StartPc.pending, StartPc.fresh, StartPc.halted] using c2, by simpa [Event.asTake,
        Event.asConsume, Event.asDiscard, StartPc.pending, StartPc.fresh, StartPc.halted] using c3,
      by simpa [Event.asTake, Event.asConsume, Event.asDiscard, StartPc.pending, StartPc.fresh,
          StartPc.halted] using c4, by simpa [Event.asTake, Event.asConsume, Event.asDiscard,
          StartPc.pending, StartPc.fresh, StartPc.halted] using c5⟩
  | recv i w e rest hw hpc hb =>
    exact ⟨by simpa [Event.asTake, Event.asConsume, Event.asDiscard, StartPc.pending, StartPc.fresh,
        StartPc.halted] using c1, by simpa [Event.asTake, Event.asConsume, Event.asDiscard,
        StartPc.pending, StartPc.fresh, StartPc.halted] using c2, by simpa [Event.asTake,
        Event.asConsume, Event.asDiscard, StartPc.pending, StartPc.fresh, StartPc.halted] using c3,
      by simpa [Event.asTake, Event.asConsume, Event.asDiscard, StartPc.pending, StartPc.fresh,
          StartPc.halted] using c4, by simpa [Event.asTake, Event.asConsume, Event.asDiscard,
          StartPc.pending, StartPc.fresh, StartPc.halted] using c5⟩
  | eof i w hw hpc hb hc =>
    exact ⟨by simpa [Event.asTake, Event.asConsume, Event.asDiscard, StartPc.pending, StartPc.fresh,
        StartPc.halted] using c1, by simpa [Event.asTake, Event.asConsume, Event.asDiscard,
        StartPc.pending, StartPc.fresh, StartPc.halted] using c2, by simpa [Event.asTake,
        Event.asConsume, Event.asDiscard, StartPc.pending, StartPc.fresh, StartPc.halted] using c3,
      by simpa [Event.asTake, Event.asConsume, Event.asDiscard, StartPc.pending, StartPc.fresh,
          StartPc.halted] using c4, by simpa [Event.asTake, Event.asConsume, Event.asDiscard,
          StartPc.pending, StartPc.fresh, StartPc.halted] using c5⟩
  | drop i w e hw hpc hq =>
    exact ⟨by simpa [Event.asTake, Event.asConsume, Event.asDiscard, StartPc.pending, StartPc.fresh,
        StartPc.halted] using c1, by simpa [Event.asTake, Event.asConsume, Event.asDiscard,
        StartPc.pending, StartPc.fresh, StartPc.halted] using c2, by simpa [Event.asTake,
        Event.asConsume, Event.asDiscard, StartPc.pending, StartPc.fresh, StartPc.halted] using c3,
      by simpa [Event.asTake, Event.asConsume, Event.asDiscard, StartPc.pending, StartPc.fresh,
          StartPc.halted] using c4, by simpa [Event.asTake, Event.asConsume, Event.asDiscard,
          StartPc.pending, StartPc.fresh, StartPc.halted] using c5⟩
  | pass i w e hw hpc hq =>
    exact ⟨by simpa [Event.asTake, Event.asConsume, Event.asDiscard, StartPc.pending, StartPc.fresh,
        StartPc.halted] using c1, by simpa [Event.asTake, Event.asConsume, Event.asDiscard,
        StartPc.pending, StartPc.fresh, StartPc.halted] using c2, by simpa [Event.asTake,
        Event.asConsume, Event.asDiscard, StartPc.pending, StartPc.fresh, StartPc.halted] using c3,
      by simpa [Event.asTake, Event.asConsume, Event.asDiscard, StartPc.pending, StartPc.fresh,
          StartPc.halted] using c4, by simpa [Event.asTake, Event.asConsume, Event.asDiscard,
          StartPc.pending, StartPc.fresh, StartPc.halted] using c5⟩
  | sendClosed i w e hw hpc ho =>
    exact ⟨by simpa [Event.asTake, Event.asConsume, Event.asDiscard, StartPc.pending, StartPc.fresh,
        StartPc.halted] using c1, by simpa [Event.asTake, Event.asConsume, Event.asDiscard,
        StartPc.pending, StartPc.fresh, StartPc.halted] using c2, by simpa [Event.asTake,
        Event.asConsume, Event.asDiscard, StartPc.pending, StartPc.fresh, StartPc.halted] using c3,
      by simpa [Event.asTake, Event.asConsume, Event.asDiscard, StartPc.pending, StartPc.fresh,
          StartPc.halted] using c4, by simpa [Event.asTake, Event.asConsume, Event.asDiscard,
          StartPc.pending, StartPc.fresh, StartPc.halted] using c5⟩
  | fwd i w e hw hpc ho hlen =>
    exact ⟨by simpa [Event.asTake, Event.asConsume, Event.asDiscard, StartPc.pending, StartPc.fresh,
        StartPc.halted] using c1, by simpa [Event.asTake, Event.asConsume, Event.asDiscard,
        StartPc.pending, StartPc.fresh, StartPc.halted] using c2, by simpa [Event.asTake,
        Event.asConsume, Event.asDiscard, StartPc.pending, StartPc.fresh, StartPc.halted] using c3,
      by simpa [Event.asTake, Event.asConsume, Event.asDiscard, StartPc.pending, StartPc.fresh,
          StartPc.halted] using c4, by simpa [Event.asTake, Event.asConsume, Event.asDiscard,
          StartPc.pending, StartPc.fresh, StartPc.halted] using c5⟩
  | closerWake hpc hwg =>
    exact ⟨by simpa [Event.asTake, Event.asConsume, Event.asDiscard, StartPc.pending, StartPc.fresh,
        StartPc.halted] using c1, by simpa [Event.asTake, Event.asConsume, Event.asDiscard,
        StartPc.pending, StartPc.fresh, StartPc.halted] using c2, by simpa [Event.asTake,
        Event.asConsume, Event.asDiscard, StartPc.pending, StartPc.fresh, StartPc.halted] using c3,
      by simpa [Event.asTake, Event.asConsume, Event.asDiscard, StartPc.pending, StartPc.fresh,
          StartPc.halted] using c4, by simpa [Event.asTake, Event.asConsume, Event.asDiscard,
          StartPc.pending, StartPc.fresh, StartPc.halted] using c5⟩
  | closeOut hpc =>
    exact ⟨by simpa [Event.asTake, Event.asConsume, Event.asDiscard, StartPc.pending, StartPc.fresh,
        StartPc.halted] using c1, by simpa [Event.asTake, Event.asConsume, Event.asDiscard,
        StartPc.pending, StartPc.fresh, StartPc.halted] using c2, by simpa [Event.asTake,
        Event.asConsume, Event.asDiscard, StartPc.pending, StartPc.fresh, StartPc.halted] using c3,
      by simpa [Event.asTake, Event.asConsume, Event.asDiscard, StartPc.pending, StartPc.fresh,
          StartPc.halted] using c4, by simpa [Event.asTake, Event.asConsume, Event.asDiscard,
          StartPc.pending, StartPc.fresh, StartPc.halted] using c5⟩
  | take i e rest hpc ho =>
    have hf := c4 (by simp [hpc, StartPc.fresh])
    refine ⟨?_, by simpa [Event.asTake, Event.asConsume, Event.asDiscard, StartPc.pending,
        StartPc.fresh, StartPc.halted] using c2, by simpa [Event.asTake, Event.asConsume,
        Event.asDiscard, StartPc.pending, StartPc.fresh, StartPc.halted] using c3, ?_,
        by simp [Event.asTake, Event.asConsume, Event.asDiscard, StartPc.pending, StartPc.fresh,
        StartPc.halted]⟩
    · simp [Event.asTake, Event.asConsume, Event.asDiscard, StartPc.pending, StartPc.fresh,
        StartPc.halted, hpc, hf.2] at c1 ⊢
      rw [c1]
    · intro _
      simpa [Event.asTake, Event.asConsume, Event.asDiscard, StartPc.pending, StartPc.fresh,
          StartPc.halted] using hf
  | discard i e rest hpc ho =>
    have hh := c5 (by simp [hpc, StartPc.halted])
    rw [c2] at hh
    have hstop := deliveredSpec_stop C c0 _ [(i, e)] hh
    refine ⟨?_, ?_, ?_, by simp [Event.asTake, Event.asConsume, Event.asDiscard, StartPc.pending,
        StartPc.fresh, StartPc.halted, hpc], ?_⟩
    · simp [Event.asTake, Event.asConsume, Event.asDiscard, StartPc.pending, StartPc.fresh,
        StartPc.halted, hpc] at c1 ⊢
      rw [c1, List.append_assoc]
    · simp only [consumeL_append, consumeL_cons, consumeL_nil, discardL_append, discardL_cons,
        discardL_nil, Event.asConsume, Event.asDiscard, Option.toList, List.append_nil,
        List.nil_append, ← List.append_assoc, hstop.1]
      exact c2
    · simp only [consumeL_append, consumeL_cons, consumeL_nil, discardL_append, discardL_cons,
        discardL_nil, Event.asConsume, Event.asDiscard, Option.toList, List.append_nil,
        List.nil_append, ← List.append_assoc, hstop.2]
      exact c3
    · intro _
      simpa [Event.asTake, Event.asConsume, Event.asDiscard, StartPc.pending, StartPc.fresh,
          StartPc.halted, hpc] using c5 (by simp [hpc, StartPc.halted])
  | loopEnd d hpc ho hc =>
    refine ⟨by simpa [Event.asTake, Event.asConsume, Event.asDiscard, StartPc.pending,
        StartPc.fresh, StartPc.halted, hpc] using c1, by simpa [Event.asTake, Event.asConsume,
        Event.asDiscard, StartPc.pending, StartPc.fresh, StartPc.halted] using c2,
        by simpa [Event.asTake, Event.asConsume, Event.asDiscard, StartPc.pending, StartPc.fresh,
        StartPc.halted] using c3,
      by simp [Event.asTake, Event.asConsume, Event.asDiscard, StartPc.pending, StartPc.fresh,
          StartPc.halted], ?_⟩
    intro hh
    simpa [Event.asTake, Event.asConsume, Event.asDiscard, StartPc.pending, StartPc.fresh,
        StartPc.halted] using c5 (by simpa [Event.asTake, Event.asConsume, Event.asDiscard,
        StartPc.pending, StartPc.fresh, StartPc.halted, hpc] using hh)
  | consumeOk i e hpc hok =>
    have hf := c4 (by simp [hpc, StartPc.fresh])
    have hall : ∀ r ∈ deliveredSpec C c0 (List.map Prod.fst (consumeL s.log)), r.2 = true := by
      have h0 := c2
      rw [hf.2, List.append_nil] at h0
      rw [← h0]
      exact hf.1
    have hsn := deliveredSpec_snoc C c0 _ (i, e) hall
    have hc : s.c = consumerAfter C c0 (List.map Prod.fst (consumeL s.log)) := by
      simpa [hf.2] using c3
    have hcl : consumeL s.log = deliveredSpec C c0 (List.map Prod.fst (consumeL s.log)) := by
      simpa [hf.2] using c2
    rw [← hc] at hsn
    simp only [hok] at hsn
    refine ⟨?_, ?_, ?_, ?_, ?_⟩
    · simp [Event.asTake, Event.asConsume, Event.asDiscard, StartPc.pending, StartPc.fresh,
        StartPc.halted, hpc, hf.2] at c1 ⊢
      rw [c1]
    · simp only [consumeL_append, consumeL_cons, consumeL_nil, discardL_append, discardL_cons,
        discardL_nil, Event.asConsume, Event.asDiscard, Option.toList, List.append_nil,
        List.nil_append, List.map_append, List.map_cons, List.map_nil, hf.2, hsn.1]
      rw [← hcl]
    · simp only [consumeL_append, consumeL_cons, consumeL_nil, discardL_append, discardL_cons,
        discardL_nil, Event.asConsume, Event.asDiscard, Option.toList, List.append_nil,
        List.nil_append, List.map_append, List.map_cons, List.map_nil, hf.2, hsn.2]
    · intro _
      refine ⟨?_, by simpa [Event.asTake, Event.asConsume, Event.asDiscard, StartPc.pending,
          StartPc.fresh, StartPc.halted] using hf.2⟩
      intro r hr
      simp [Event.asTake, Event.asConsume, Event.asDiscard, StartPc.pending, StartPc.fresh,
          StartPc.halted] at hr
      rcases hr with hr | hr
      · exact hf.1 r hr
      · rw [hr]
    · simp [Event.asTake, Event.asConsume, Event.asDiscard, StartPc.pending, StartPc.fresh,
        StartPc.halted]
  | consumeStop i e hpc hok =>
    have hf := c4 (by simp [hpc, StartPc.fresh])
    have hall : ∀ r ∈ deliveredSpec C c0 (List.map Prod.fst (consumeL s.log)), r.2 = true := by
      have h0 := c2
      rw [hf.2, List.append_nil] at h0
      rw [← h0]
      exact hf.1
    have hsn := deliveredSpec_snoc C c0 _ (i, e) hall
    have hc : s.c = consumerAfter C c0 (List.map Prod.fst (consumeL s.log)) := by
      simpa [hf.2] using c3
    have hcl : consumeL s.log = deliveredSpec C c0 (List.map Prod.fst (consumeL s.log)) := by
      simpa [hf.2] using c2
    rw [← hc] at hsn
    simp only [hok] at hsn
    refine ⟨?_, ?_, ?_, ?_, ?_⟩
    · simp [Event.asTake, Event.asConsume, Event.asDiscard, StartPc.pending, StartPc.fresh,
        StartPc.halted, hpc, hf.2] at c1 ⊢
      rw [c1]
    · simp only [consumeL_append, consumeL_cons, consumeL_nil, discardL_append, discardL_cons,
        discardL_nil, Event.asConsume, Event.asDiscard, Option.toList, List.append_nil,
        List.nil_append, List.map_append, List.map_cons, List.map_nil, hf.2, hsn.1]
      rw [← hcl]
    · simp only [consumeL_append, consumeL_cons, consumeL_nil, discardL_append, discardL_cons,
        discardL_nil, Event.asConsume, Event.asDiscard, Option.toList, List.append_nil,
        List.nil_append, List.map_append, List.map_cons, List.map_nil, hf.2, hsn.2]
    · simp [Event.asTake, Event.asConsume, Event.asDiscard, StartPc.pending, StartPc.fresh,
        StartPc.halted]
    · intro _
      exact ⟨((i, e), false), by simp [Event.asTake, Event.asConsume, Event.asDiscard,
          StartPc.pending, StartPc.fresh, StartPc.halted], rfl⟩
  | cancelInWin hpc ht =>
    refine ⟨by simpa [Event.asTake, Event.asConsume, Event.asDiscard, StartPc.pending,
        StartPc.fresh, StartPc.halted, hpc] using c1, by simpa [Event.asTake, Event.asConsume,
        Event.asDiscard, StartPc.pending, StartPc.fresh, StartPc.halted] using c2,
        by simpa [Event.asTake, Event.asConsume, Event.asDiscard, StartPc.pending, StartPc.fresh,
        StartPc.halted] using c3,
      by simp [Event.asTake, Event.asConsume, Event.asDiscard, StartPc.pending, StartPc.fresh,
          StartPc.halted], ?_⟩
    intro hh
    simpa [Event.asTake, Event.asConsume, Event.asDiscard, StartPc.pending, StartPc.fresh,
        StartPc.halted] using c5 (by simpa [Event.asTake, Event.asConsume, Event.asDiscard,
        StartPc.pending, StartPc.fresh, StartPc.halted, hpc] using hh)
  | cancelInLose hpc ht =>
    refine ⟨by simpa [Event.asTake, Event.asConsume, Event.asDiscard, StartPc.pending,
        StartPc.fresh, StartPc.halted, hpc] using c1, by simpa [Event.asTake, Event.asConsume,
        Event.asDiscard, StartPc.pending, StartPc.fresh, StartPc.halted] using c2,
        by simpa [Event.asTake, Event.asConsume, Event.asDiscard, StartPc.pending, StartPc.fresh,
        StartPc.halted] using c3,
      by simp [Event.asTake, Event.asConsume, Event.asDiscard, StartPc.pending, StartPc.fresh,
          StartPc.halted], ?_⟩
    intro hh
    simpa [Event.asTake, Event.asConsume, Event.asDiscard, StartPc.pending, StartPc.fresh,
        StartPc.halted] using c5 (by simpa [Event.asTake, Event.asConsume, Event.asDiscard,
        StartPc.pending, StartPc.fresh, StartPc.halted, hpc] using hh)
  | cancelInDone hpc =>
    refine ⟨by simpa [Event.asTake, Event.asConsume, Event.asDiscard, StartPc.pending,
        StartPc.fresh, StartPc.halted, hpc] using c1, by simpa [Event.asTake, Event.asConsume,
        Event.asDiscard, StartPc.pending, StartPc.fresh, StartPc.halted] using c2,
        by simpa [Event.asTake, Event.asConsume, Event.asDiscard, StartPc.pending, StartPc.fresh,
        StartPc.halted] using c3,
      by simp [Event.asTake, Event.asConsume, Event.asDiscard, StartPc.pending, StartPc.fresh,
          StartPc.halted], ?_⟩
    intro hh
    simpa [Event.asTake, Event.asConsume, Event.asDiscard, StartPc.pending, StartPc.fresh,
        StartPc.halted] using c5 (by simpa [Event.asTake, Event.asConsume, Event.asDiscard,
        StartPc.pending, StartPc.fresh, StartPc.halted, hpc] using hh)
  | cancelOutWin hpc ht =>
    refine ⟨by simpa [Event.asTake, Event.asConsume, Event.asDiscard, StartPc.pending,
        StartPc.fresh, StartPc.halted, hpc] using c1, by simpa [Event.asTake, Event.asConsume,
        Event.asDiscard, StartPc.pending, StartPc.fresh, StartPc.halted] using c2,
        by simpa [Event.asTake, Event.asConsume, Event.asDiscard, StartPc.pending, StartPc.fresh,
        StartPc.halted] using c3,
      by simp [Event.asTake, Event.asConsume, Event.asDiscard, StartPc.pending, StartPc.fresh,
          StartPc.halted], ?_⟩
    intro hh
    simpa [Event.asTake, Event.asConsume, Event.asDiscard, StartPc.pending, StartPc.fresh,
        StartPc.halted] using c5 (by simpa [Event.asTake, Event.asConsume, Event.asDiscard,
        StartPc.pending, StartPc.fresh, StartPc.halted, hpc] using hh)
  | cancelOutLose hpc ht =>
    refine ⟨by simpa [Event.asTake, Event.asConsume, Event.asDiscard, StartPc.pending,
        StartPc.fresh, StartPc.halted, hpc] using c1, by simpa [Event.asTake, Event.asConsume,
        Event.asDiscard, StartPc.pending, StartPc.fresh, StartPc.halted] using c2,
        by simpa [Event.asTake, Event.asConsume, Event.asDiscard, StartPc.pending, StartPc.fresh,
        StartPc.halted] using c3,
      by simp [Event.asTake, Event.asConsume, Event.asDiscard, StartPc.pending, StartPc.fresh,
          StartPc.halted], ?_⟩
    intro hh
    simpa [Event.asTake, Event.asConsume, Event.asDiscard, StartPc.pending, StartPc.fresh,
        StartPc.halted] using c5 (by simpa [Event.asTake, Event.asConsume, Event.asDiscard,
        StartPc.pending, StartPc.fresh, StartPc.halted, hpc] using hh)
  | cancelOutDone hpc =>
    refine ⟨by simpa [Event.asTake, Event.asConsume, Event.asDiscard, StartPc.pending,
        StartPc.fresh, StartPc.halted, hpc] using c1, by simpa [Event.asTake, Event.asConsume,
        Event.asDiscard, StartPc.pending, StartPc.fresh, StartPc.halted] using c2,
        by simpa [Event.asTake, Event.asConsume, Event.asDiscard, StartPc.pending, StartPc.fresh,
        StartPc.halted] using c3,
      by simp [Event.asTake, Event.asConsume, Event.asDiscard, StartPc.pending, StartPc.fresh,
          StartPc.halted], ?_⟩
    intro hh
    simpa [Event.asTake, Event.asConsume, Event.asDiscard, StartPc.pending, StartPc.fresh,
        StartPc.halted] using c5 (by simpa [Event.asTake, Event.asConsume, Event.asDiscard,
        StartPc.pending, StartPc.fresh, StartPc.halted, hpc] using hh)
  | waiterWake hpc htwg =>
    exact ⟨by simpa [Event.asTake, Event.asConsume, Event.asDiscard, StartPc.pending, StartPc.fresh,
        StartPc.halted] using c1, by simpa [Event.asTake, Event.asConsume, Event.asDiscard,
        StartPc.pending, StartPc.fresh, StartPc.halted] using c2, by simpa [Event.asTake,
        Event.asConsume, Event.asDiscard, StartPc.pending, StartPc.fresh, StartPc.halted] using c3,
      by simpa [Event.asTake, Event.asConsume, Event.asDiscard, StartPc.pending, StartPc.fresh,
          StartPc.halted] using c4, by simpa [Event.asTake, Event.asConsume, Event.asDiscard,
          StartPc.pending, StartPc.fresh, StartPc.halted] using c5⟩
  | extWin ht =>
    exact ⟨by simpa [Event.asTake, Event.asConsume, Event.asDiscard, StartPc.pending, StartPc.fresh,
        StartPc.halted] using c1, by simpa [Event.asTake, Event.asConsume, Event.asDiscard,
        StartPc.pending, StartPc.fresh, StartPc.halted] using c2, by simpa [Event.asTake,
        Event.asConsume, Event.asDiscard, StartPc.pending, StartPc.fresh, StartPc.halted] using c3,
      by simpa [Event.asTake, Event.asConsume, Event.asDiscard, StartPc.pending, StartPc.fresh,
          StartPc.halted] using c4, by simpa [Event.asTake, Event.asConsume, Event.asDiscard,
          StartPc.pending, StartPc.fresh, StartPc.halted] using c5⟩
  | extLose ht =>
    exact ⟨by simpa [Event.asTake, Event.asConsume, Event.asDiscard, StartPc.pending, StartPc.fresh,
        StartPc.halted] using c1, by simpa [Event.asTake, Event.asConsume, Event.asDiscard,
        StartPc.pending, StartPc.fresh, StartPc.halted] using c2, by simpa [Event.asTake,
        Event.asConsume, Event.asDiscard, StartPc.pending, StartPc.fresh, StartPc.halted] using c3,
      by simpa [Event.asTake, Event.asConsume, Event.asDiscard, StartPc.pending, StartPc.fresh,
          StartPc.halted] using c4, by simpa [Event.asTake, Event.asConsume, Event.asDiscard,
          StartPc.pending, StartPc.fresh, StartPc.halted] using c5⟩
  | extDone hext =>
    exact ⟨by simpa [Event.asTake, Event.asConsume, Event.asDiscard, StartPc.pending, StartPc.fresh,
        StartPc.halted] using c1, by simpa [Event.asTake, Event.asConsume, Event.asDiscard,
        StartPc.pending, StartPc.fresh, StartPc.halted] using c2, by simpa [Event.asTake,
        Event.asConsume, Event.asDiscard, StartPc.pending, StartPc.fresh, StartPc.halted] using c3,
      by simpa [Event.asTake, Event.asConsume, Event.asDiscard, StartPc.pending, StartPc.fresh,
          StartPc.halted] using c4, by simpa [Event.asTake, Event.asConsume, Event.asDiscard,
          StartPc.pending, StartPc.fresh, StartPc.halted] using c5⟩
  | closeQ hpc =>
    exact ⟨by simpa [Event.asTake, Event.asConsume, Event.asDiscard, StartPc.pending, StartPc.fresh,
        StartPc.halted] using c1, by simpa [Event.asTake, Event.asConsume, Event.asDiscard,
        StartPc.pending, StartPc.fresh, StartPc.halted] using c2, by simpa [Event.asTake,
        Event.asConsume, Event.asDiscard, StartPc.pending, StartPc.fresh, StartPc.halted] using c3,
      by simpa [Event.asTake, Event.asConsume, Event.asDiscard, StartPc.pending, StartPc.fresh,
          StartPc.halted] using c4, by simpa [Event.asTake, Event.asConsume, Event.asDiscard,
          StartPc.pending, StartPc.fresh, StartPc.halted] using c5⟩

/-! ## Causality invariant -/

theorem ofTag_nil_of_tags {E : Type} (i n : Nat) (l : List (Nat × E))
    (h : ∀ x ∈ l, x.1 < n) (hi : n ≤ i) : ofTag i l = [] := by
  unfold ofTag
  rw [List.map_eq_nil_iff, List.filter_eq_nil_iff]
  intro x hx
  have := h x hx
  simp
  omega

theorem recv_le_stream {E σ : Type} (errs : List (InChan E)) (s : State E σ)
    (hB : InvB errs s) (i : Nat) :
    (recvOf i s.log).length ≤ (streamOf errs s.log i).length := by
  cases hw : s.ws[i]? with
  | some w =>
    rw [hB.stream i w hw]
    simp
  | none =>
    have hlen : s.ws.length ≤ i := by
      by_contra hcon
      rw [List.getElem?_eq_getElem (by omega)] at hw
      cases hw
    rw [← ofTag_recvL, ofTag_nil_of_tags i s.ws.length _ hB.tagsR hlen]
    simp

theorem beforeSignal_snoc_closeQ {E : Type} (l : List (Event E)) (h : afterSignal l = []) :
    beforeSignal (l ++ [Event.closeQ]) = l := by
  unfold afterSignal at h
  rw [List.dropWhile_eq_nil_iff] at h
  unfold beforeSignal
  rw [List.takeWhile_append_of_pos h]
  simp [List.takeWhile_cons, Event.isCloseQ]

/-- Every step appends to the log; it appends the closing of `q` only when it closes `q`. -/
theorem step_log {E σ : Type} (C : Consumer E σ) (s s1 : State E σ) (a : Action E)
    (hs : Step C s a s1) :
    ∃ m : List (Event E), s1.log = s.log ++ m ∧
      (((∀ ev ∈ m, ev.isCloseQ = false) ∧ s1.q = s.q) ∨ (m = [Event.closeQ] ∧ s1.q = true)) := by
  cases hs
  case closeQ hpc => exact ⟨[Event.closeQ], rfl, Or.inr ⟨rfl, rfl⟩⟩
  case close | eof | pass | sendClosed | closerWake | loopEnd | waiterWake =>
    refine ⟨[], (List.append_nil _).symm, Or.inl ⟨?_, rfl⟩⟩
    intro ev hev
    cases hev
  all_goals exact ⟨_, rfl, Or.inl ⟨by simp [Event.isCloseQ], rfl⟩⟩

theorem InvE_init {E σ : Type} (c : σ) (errs : List (InChan E)) : InvE errs (NewHandler c errs) := by
  constructor
  intro i
  simp [NewHandler, beforeSignal]

theorem InvE_step {E σ : Type} (C : Consumer E σ) (errs : List (InChan E)) (s s1 : State E σ)
    (a : Action E) (hB : InvB errs s) (hH : InvH s) (hB1 : InvB errs s1) (hH1 : InvH s1)
    (h : InvE errs s) (hs : Step C s a s1) : InvE errs s1 := by
  constructor
  intro i
  cases hq1 : s1.q with
  | false =>
    rw [beforeSignal_of_nil _ (hH1.sigF hq1)]
    exact recv_le_stream errs s1 hB1 i
  | true =>
    obtain ⟨m, hm, hcase⟩ := step_log C s s1 a hs
    rw [hm]
    rcases hcase with ⟨_, hqq⟩ | ⟨hmq, _⟩
    · rw [beforeSignal_append_of_ne _ _ (hH.sigT (by rw [← hqq]; exact hq1))]
      exact h.causal i
    · cases hq : s.q with
      | true =>
        rw [beforeSignal_append_of_ne _ _ (hH.sigT hq)]
        exact h.causal i
      | false =>
        rw [hmq, beforeSignal_snoc_closeQ _ (hH.sigF hq)]
        exact recv_le_stream errs s hB i

/-! ## The invariants hold in every reachable state -/

theorem Inv_init {E σ : Type} (C : Consumer E σ) (c : σ) (errs : List (InChan E)) :
    Inv C c errs (NewHandler c errs) :=
  ⟨InvA_init c errs, InvB_init c errs, InvH_init c errs, InvD_init c errs, InvC_init C c errs,
    InvE_init c errs⟩

theorem Inv_step {E σ : Type} (C : Consumer E σ) (c : σ) (errs : List (InChan E))
    (s s1 : State E σ) (a : Action E) (h : Inv C c errs s) (hs : Step C s a s1) :
    Inv C c errs s1 :=
  ⟨InvA_step C s s1 a h.ctl hs, InvB_step C errs s s1 a h.flow hs,
    InvH_step C s s1 a h.ctl h.hand hs, InvD_step C s s1 a h.ctl h.hand h.late hs,
    InvC_step C c s s1 a h.cons hs,
    InvE_step C errs s s1 a h.flow h.hand (InvB_step C errs s s1 a h.flow hs)
      (InvH_step C s s1 a h.ctl h.hand hs) h.causal hs⟩

theorem Inv_exec {E σ : Type} (C : Consumer E σ) (c : σ) (errs : List (InChan E))
    (s : State E σ) (h : Inv C c errs s) (acts : List (Action E)) :
    Inv C c errs (exec C s acts) :=
  exec_induct C (Inv C c errs) (fun s s1 a h hs => Inv_step C c errs s s1 a h hs) s h acts

theorem Inv_reachable {E σ : Type} (C : Consumer E σ) (c : σ) (errs : List (InChan E))
    (s : State E σ) (h : Reachable C c errs s) : Inv C c errs s := by
  obtain ⟨acts, rfl⟩ := h
  exact Inv_exec C c errs _ (Inv_init C c errs) acts

/-- Once `q` is closed it stays closed. -/
theorem q_stays {E σ : Type} (C : Consumer E σ) (s : State E σ) (hq : s.q = true)
    (acts : List (Action E)) : (exec C s acts).q = true := by
  refine exec_induct C (fun s => s.q = true) ?_ s hq acts
  intro s s1 a h hs
  cases hs <;> first | exact h | rfl

/-! ## Cancellation handshake -/

/-- C3: `Cancel` returns true exactly when no earlier `Cancel` on the handler has
taken the single permit.  In every reachable state the outcomes of all `Cancel`
calls so far (external ones and those of the consumption loop), in the order in
which their `select` ran, are empty or a single true followed by falses; the next
`Cancel` returns true iff none has returned true yet; a `Cancel` that returns
false leaves the handler fields as they are; and once the consumption loop has
finished the permit is taken, so every further `Cancel` returns false. -/
theorem cancel_first_wins {E σ : Type} (C : Consumer E σ) (c : σ) (errs : List (InChan E))
    (s : State E σ) (h : Reachable C c errs s) :
    ((s.t = false ∧ cancelL s.log = []) ∨
      (s.t = true ∧ ∃ n : Nat, cancelL s.log = true :: List.replicate n false)) ∧
    (∀ ext : Bool, ((Cancel_select ext s).1 = true ↔ true ∉ cancelL s.log)) ∧
    ((Cancel s).1 = true ↔ true ∉ cancelL s.log) ∧
    (∀ ext : Bool, (Cancel_select ext s).1 = false →
      handlerView (Cancel_select ext s).2 = handlerView s) ∧
    ((Cancel s).1 = false → handlerView (Cancel s).2 = handlerView s) ∧
    (s.start = StartPc.finished → s.t = true ∧ (Cancel s).1 = false) := by
  have hI := Inv_reachable C c errs s h
  have hshape := hI.hand.shape
  have hsel : ∀ ext : Bool, ((Cancel_select ext s).1 = true ↔ true ∉ cancelL s.log) := by
    intro ext
    rcases hshape with ⟨ht, hl⟩ | ⟨ht, n, hl⟩
    · simp [Cancel_select, ht, hl]
    · simp [Cancel_select, ht, hl]
  have hview : ∀ ext : Bool, (Cancel_select ext s).1 = false →
      handlerView (Cancel_select ext s).2 = handlerView s := by
    intro ext hf
    cases ht : s.t with
    | false => simp [Cancel_select, ht] at hf
    | true => simp [Cancel_select, ht, handlerView]
  refine ⟨hshape, hsel, ?_, hview, ?_, ?_⟩
  · rw [← hsel true]
    cases hc : (Cancel_select true s).1 <;> simp [Cancel, hc]
  · intro hf
    have hc : (Cancel_select true s).1 = false := by
      cases hc : (Cancel_select true s).1 with
      | false => rfl
      | true => simp [Cancel, hc] at hf
    simpa [Cancel, hc] using hview true hc
  · intro hfin
    have ht : s.t = true := hI.ctl.did_t (by simp [hfin, StartPc.didCancel])
    exact ⟨ht, by simp [Cancel, Cancel_select, ht]⟩

/-- Witness of C3 on three `Cancel` calls: the outcomes are true, false, false. -/
theorem cancel_first_wins_witness :
    Reachable DefaultConsumer () cancelErrs
        (exec DefaultConsumer (NewHandler () cancelErrs) cancelThrice) ∧
      cancelL (exec DefaultConsumer (NewHandler () cancelErrs) cancelThrice).log
        = [true, false, false] ∧
      ((Cancel (exec DefaultConsumer (NewHandler () cancelErrs) cancelThrice)).1 = true ↔
        true ∉ cancelL (exec DefaultConsumer (NewHandler () cancelErrs) cancelThrice).log) :=
  ⟨⟨cancelThrice, rfl⟩, by decide,
    (cancel_first_wins DefaultConsumer () cancelErrs _ ⟨cancelThrice, rfl⟩).2.2.1⟩

/-- C9: in every reachable state the latch `twg` is 1 or 0 and `twg.Done()` has
run at most once; `q` is closed only if the permit is taken, the latch is zero
and some `Cancel` call has returned true; and once `q` is closed it is closed in
every later state. -/
theorem signal_only_after_cancel {E σ : Type} (C : Consumer E σ) (c : σ)
    (errs : List (InChan E)) (s : State E σ) (h : Reachable C c errs s) :
    (s.twg = 1 ∨ s.twg = 0) ∧
    (retL s.log).count true ≤ 1 ∧
    (s.q = true → s.t = true ∧ s.twg = 0 ∧ true ∈ retL s.log) ∧
    (s.q = true → ∀ acts : List (Action E), (exec C s acts).q = true) := by
  have hI := Inv_reachable C c errs s h
  have hl := hI.ctl.latch
  have hr := hI.hand.rets
  have htw : s.twg = 1 ∨ s.twg = 0 := by
    rcases hl with hl | hl | hl
    · exact Or.inl hl.2.1
    · exact Or.inl hl.2.1
    · exact Or.inr hl.2.1
  refine ⟨htw, by omega, ?_, fun hq acts => q_stays C s hq acts⟩
  intro hq
  have hw : s.waiter = WaiterPc.done := hI.ctl.q_iff.mp hq
  have h0 : s.twg = 0 := hI.ctl.waiter_twg (by simp [hw])
  refine ⟨?_, h0, ?_⟩
  · rcases hl with hl | hl | hl
    · omega
    · omega
    · exact hl.1
  · apply List.count_pos_iff.mp
    omega

/-- Witness of C9 on the schedule of `testCancel`, in which `q` gets closed. -/
theorem signal_only_after_cancel_witness :
    Reachable DefaultConsumer () cancelErrs
        (exec DefaultConsumer (NewHandler () cancelErrs) cancelSched) ∧
      (exec DefaultConsumer (NewHandler () cancelErrs) cancelSched).q = true ∧
      ((exec DefaultConsumer (NewHandler () cancelErrs) cancelSched).t = true ∧
        (exec DefaultConsumer (NewHandler () cancelErrs) cancelSched).twg = 0 ∧
        true ∈ retL (exec DefaultConsumer (NewHandler () cancelErrs) cancelSched).log) :=
  ⟨⟨cancelSched, rfl⟩, by decide,
    (signal_only_after_cancel DefaultConsumer () cancelErrs _ ⟨cancelSched, rfl⟩).2.2.1
      (by decide)⟩

/-! ## Consumption, ordering and late receives -/

theorem deliveredSpec_all_true_fst {E σ : Type} (C : Consumer E σ) (c : σ) (M : List (Nat × E))
    (h : ∀ r ∈ deliveredSpec C c M, r.2 = true) : (deliveredSpec C c M).map Prod.fst = M := by
  induction M generalizing c with
  | nil => rfl
  | cons y ys ih =>
    cases hy : (C.Consume c y.2).1 with
    | false => simp [deliveredSpec, hy] at h
    | true =>
      have h2 : ∀ r ∈ deliveredSpec C (C.Consume c y.2).2 ys, r.2 = true := by
        intro r hr
        apply h
        simp [deliveredSpec, hy, hr]
      simp [deliveredSpec, hy, ih _ h2]

/-- C2: the consumption loop passes to `Consume` exactly the values of the merged
sequence up to and including the first for which `Consume` returns false.  The
loop as written (`startLoop`, with its `done` flag) makes the calls `deliveredSpec`
describes; in every reachable state every value read from the merged channel
is delivered, about to be delivered, or discarded; the calls made are those
`deliveredSpec` prescribes for the values read; once the loop has ended the
values read are the whole merged sequence; `Consume` has returned false at most
once, and only as the last call; and values are discarded only after a false. -/
theorem consume_until_first_false {E σ : Type} (C : Consumer E σ) (c : σ)
    (errs : List (InChan E)) (s : State E σ) (h : Reachable C c errs s) :
    (∀ (c1 : σ) (M : List (Nat × E)), startLoop C c1 false M = deliveredSpec C c1 M) ∧
    takeL s.log = (consumeL s.log).map Prod.fst ++ s.start.pending ++ discardL s.log ∧
    (s.start.pending = [] → consumeL s.log = deliveredSpec C c (takeL s.log)) ∧
    (s.start.past = true →
      takeL s.log = fwdL s.log ∧ consumeL s.log = deliveredSpec C c (fwdL s.log)) ∧
    ((consumeL s.log).map Prod.snd).count false ≤ 1 ∧
    (∀ r ∈ (consumeL s.log).dropLast, r.2 = true) ∧
    (discardL s.log ≠ [] → ∃ r ∈ consumeL s.log, r.2 = false) := by
  have hI := Inv_reachable C c errs s h
  have hsplit := hI.cons.split
  have hspec := hI.cons.spec
  have hpend : s.start.pending = [] → consumeL s.log = deliveredSpec C c (takeL s.log) := by
    intro hp
    rw [hsplit, hp, List.append_nil]
    exact hspec
  refine ⟨fun c1 M => startLoop_eq_deliveredSpec C c1 M, hsplit, hpend, ?_, ?_, ?_, ?_⟩
  · intro hpast
    have hout := (hI.ctl.past_out hpast).2
    have hm := hI.flow.merged
    rw [hout, List.append_nil] at hm
    have hp : s.start.pending = [] := by
      cases hst : s.start <;> simp [hst, StartPc.past, StartPc.pending] at hpast ⊢
    exact ⟨hm.symm, by rw [hm]; exact hpend hp⟩
  · have := deliveredSpec_count C c ((consumeL s.log).map Prod.fst ++ discardL s.log)
    rwa [← hspec] at this
  · have := deliveredSpec_dropLast C c ((consumeL s.log).map Prod.fst ++ discardL s.log)
    rwa [← hspec] at this
  · intro hd
    by_contra hcon
    have hall : ∀ r ∈ deliveredSpec C c ((consumeL s.log).map Prod.fst ++ discardL s.log),
        r.2 = true := by
      rw [← hspec]
      intro r hr
      cases hr2 : r.2 with
      | true => rfl
      | false => exact absurd ⟨r, hr, hr2⟩ hcon
    have hfst := deliveredSpec_all_true_fst C c _ hall
    rw [← hspec] at hfst
    exact hd (List.self_eq_append_right.mp hfst)

/-- Witness of C2: with the consumer that refuses 2 and the stream 1, 2, 3 the
loop ends having consumed 1 and 2 and discarded 3. -/
theorem consume_until_first_false_witness :
    Reachable (stopAt 2) () stopErrs (exec (stopAt 2) (NewHandler () stopErrs) stopSched) ∧
      (exec (stopAt 2) (NewHandler () stopErrs) stopSched).start.past = true ∧
      consumeL (exec (stopAt 2) (NewHandler () stopErrs) stopSched).log
        = [((0, 1), true), ((0, 2), false)] ∧
      discardL (exec (stopAt 2) (NewHandler () stopErrs) stopSched).log = [(0, 3)] ∧
      consumeL (exec (stopAt 2) (NewHandler () stopErrs) stopSched).log
        = deliveredSpec (stopAt 2) ()
            (fwdL (exec (stopAt 2) (NewHandler () stopErrs) stopSched).log) :=
  ⟨⟨stopSched, rfl⟩, by decide, by decide, by decide,
    ((consume_until_first_false (stopAt 2) () stopErrs _ ⟨stopSched, rfl⟩).2.2.2.1
      (by decide)).2⟩

/-- C7: for each input stream the part of the merged sequence that comes from it
is an initial segment of the stream's values, in the stream's order, whether or
not cancellation happened; and the consumption loop reads, and the consumer
sees, an initial segment of the merged sequence in the merged order. -/
theorem merged_keeps_stream_order {E σ : Type} (C : Consumer E σ) (c : σ)
    (errs : List (InChan E)) (s : State E σ) (h : Reachable C c errs s)
    (i : Nat) (hi : i < errs.length) :
    ofTag i (fwdL s.log) <+: streamOf errs s.log i ∧
    takeL s.log <+: fwdL s.log ∧
    (consumeL s.log).map Prod.fst <+: takeL s.log := by
  have hI := Inv_reachable C c errs s h
  have hlen := hI.flow.len
  obtain ⟨w, hw⟩ := getElem?_of_lt s.ws i (by omega)
  refine ⟨?_, ?_, ?_⟩
  · rw [ofTag_fwdL, hI.flow.stream i w hw, hI.flow.flow i w hw]
    exact ⟨w.pc.held ++ dropOf i s.log ++ w.ch.buf, by simp [List.append_assoc]⟩
  · rw [hI.flow.merged]
    exact List.prefix_append _ _
  · rw [hI.cons.split, List.append_assoc]
    exact List.prefix_append _ _

/-- Witness of C7 on the schedule of `testRangeAll`, for the stream of index 1. -/
theorem merged_keeps_stream_order_witness :
    Reachable mapConsumer [] rangeAllErrs
        (exec mapConsumer (NewHandler [] rangeAllErrs) rangeAllSched) ∧
      1 < rangeAllErrs.length ∧
      ofTag 1 (fwdL (exec mapConsumer (NewHandler [] rangeAllErrs) rangeAllSched).log)
        <+: streamOf rangeAllErrs
          (exec mapConsumer (NewHandler [] rangeAllErrs) rangeAllSched).log 1 :=
  ⟨⟨rangeAllSched, rfl⟩, by decide,
    (merged_keeps_stream_order mapConsumer [] rangeAllErrs _ ⟨rangeAllSched, rfl⟩ 1
      (by decide)).1⟩

theorem suffix_of_split {α : Type} (a b r buf : List α) (h : r ++ buf = a ++ b)
    (hl : r.length ≤ a.length + 1) : b.drop 1 <:+ buf := by
  have h1 : buf = (a ++ b).drop r.length := by
    rw [← h]
    simp
  have h2 : b.drop 1 = (a ++ b).drop (a.length + 1) := by
    rw [List.drop_append_eq_append_drop]
    simp
  have h3 : (a ++ b).drop (a.length + 1)
      = ((a ++ b).drop r.length).drop (a.length + 1 - r.length) := by
    rw [List.drop_drop]
    congr 1
    omega
  rw [h2, h3, ← h1]
  exact List.drop_suffix _ _

/-- C6: after `q` has been closed a worker receives at most one further value;
what it forwards was received before `q` was closed; every value offered on its
channel after `q` was closed, except possibly the first, is still waiting in the
channel; and a worker at its cancellation check with `q` closed returns at its
next step without forwarding. -/
theorem at_most_one_late_receive {E σ : Type} (C : Consumer E σ) (c : σ)
    (errs : List (InChan E)) (s : State E σ) (h : Reachable C c errs s)
    (i : Nat) (w : Worker E) (hw : s.ws[i]? = some w) :
    (recvOf i (afterSignal s.log)).length ≤ 1 ∧
    fwdOf i s.log <+: recvOf i (beforeSignal s.log) ∧
    (offerOf i (afterSignal s.log)).drop 1 <:+ w.ch.buf ∧
    (∀ e : E, s.q = true → w.pc = WorkerPc.check e →
      ((next C s (Action.worker i)).ws[i]?).map Worker.pc = some WorkerPc.done ∧
      fwdL (next C s (Action.worker i)).log = fwdL s.log) := by
  have hI := Inv_reachable C c errs s h
  have hlate := hI.late.late i w hw
  have hflow := hI.flow.flow i w hw
  have hstream := hI.flow.stream i w hw
  have hsplit : recvOf i s.log
      = recvOf i (beforeSignal s.log) ++ recvOf i (afterSignal s.log) := by
    rw [← recvOf_append, before_append_after]
  refine ⟨hlate.1, ?_, ?_, ?_⟩
  · have hp1 : fwdOf i s.log <+: recvOf i s.log := by
      rw [hflow, List.append_assoc]
      exact List.prefix_append _ _
    have hp2 : recvOf i (beforeSignal s.log) <+: recvOf i s.log := by
      rw [hsplit]
      exact List.prefix_append _ _
    apply List.prefix_of_prefix_length_le hp1 hp2
    · have hlen := congrArg List.length hflow
      have hlen2 := congrArg List.length hsplit
      simp only [List.length_append] at hlen hlen2
      by_cases hnil : recvOf i (afterSignal s.log) = []
      · rw [hnil] at hlen2
        simp at hlen2
        omega
      · have h1 := hlate.1
        have hpos : 0 < w.pc.held.length + (dropOf i s.log).length := by
          rcases hlate.2 hnil with ⟨e, he⟩ | ⟨_, hd⟩
          · simp [he, WorkerPc.held]
          · have := List.length_pos.mpr hd
            omega
        omega
  · have hcausal := hI.causal.causal i
    have hso : streamOf errs s.log i
        = streamOf errs (beforeSignal s.log) i ++ offerOf i (afterSignal s.log) := by
      unfold streamOf
      rw [List.append_assoc, ← offerOf_append, before_append_after]
    apply suffix_of_split (streamOf errs (beforeSignal s.log) i) _ (recvOf i s.log)
    · rw [← hso, hstream]
    · have hlen2 := congrArg List.length hsplit
      simp only [List.length_append] at hlen2
      have := hlate.1
      omega
  · intro e hq hpc
    have hp := hI.ctl.noPanic
    have hi := getElem?_lt_length _ _ _ hw
    simp [next, step, workerStep, hp, hw, hpc, hq, Event.asFwd, List.getElem?_set, hi]

/-- Witness of C6 on the schedule of `testCancel`: after `Wait` can return, of
the two `ch2 <- nil` the worker of `ch2` has received one and the other is still
waiting. -/
theorem at_most_one_late_receive_witness :
    Reachable DefaultConsumer () cancelErrs
        (exec DefaultConsumer (NewHandler () cancelErrs) cancelSched) ∧
      (exec DefaultConsumer (NewHandler () cancelErrs) cancelSched).ws[1]?
        = some { ch := { buf := [none], closed := false }, pc := WorkerPc.done } ∧
      (offerOf 1 (afterSignal (exec DefaultConsumer (NewHandler () cancelErrs) cancelSched).log)).drop 1
        <:+ [none] :=
  ⟨⟨cancelSched, rfl⟩, by decide,
    (at_most_one_late_receive DefaultConsumer () cancelErrs _ ⟨cancelSched, rfl⟩ 1
      { ch := { buf := [none], closed := false }, pc := WorkerPc.done } (by decide)).2.2.1⟩

/-! ## What happens after `q` is closed -/

/-- When `Consume` is about to be called although `q` is closed, the permit was
taken by an external `Cancel`: the consumption loop's own cancellations (the
consumer returning false, the merged channel running dry) are never followed by
a call of `Consume`. -/
theorem late_consume_needs_external_cancel {E σ : Type} (C : Consumer E σ) (c : σ)
    (errs : List (InChan E)) (s : State E σ) (h : Reachable C c errs s)
    (hq : s.q = true) (i : Nat) (e : E) (hst : s.start = StartPc.deliver i e) :
    true ∈ extCancelL s.log := by
  have hI := Inv_reachable C c errs s h
  have hw : s.waiter = WaiterPc.done := hI.ctl.q_iff.mp hq
  have h0 : s.twg = 0 := hI.ctl.waiter_twg (by simp [hw])
  have ht : s.t = true := by
    rcases hI.ctl.latch with hl | hl | hl
    · omega
    · omega
    · exact hl.1
  rcases hI.hand.winner ht with hwin | hquiet
  · exact hwin
  · simp [hst, StartPc.quiet] at hquiet

/-- C4 fails on the code: after an external `Cancel` has closed `q`, the
consumption loop still reads the value 7 from the merged channel and calls
`Consume` on it. -/
theorem consume_after_signal :
    (exec (stopAt 0) (NewHandler () lateErrs) lateConsumeSched).q = true ∧
      (exec (stopAt 0) (NewHandler () lateErrs) lateConsumeSched).start = StartPc.deliver 0 7 ∧
      (step (stopAt 0) (exec (stopAt 0) (NewHandler () lateErrs) lateConsumeSched)
          Action.start).map (fun s => consumeL s.log) = some [((0, 7), true)] := by
  decide

/-- C5 as stated fails on the code: with `q` closed, the worker still receives
the value 7 from its input channel. -/
theorem receive_after_signal :
    (exec (stopAt 0) (NewHandler () lateErrs) earlyCancelSched).q = true ∧
      recvL (exec (stopAt 0) (NewHandler () lateErrs) earlyCancelSched).log = [] ∧
      (step (stopAt 0) (exec (stopAt 0) (NewHandler () lateErrs) earlyCancelSched)
          (Action.worker 0)).map (fun s => recvL s.log) = some [(0, 7)] := by
  decide

/-- C5 amended: after `Wait` returns at most one more value is read from each of
the handler's error channels.  In every reachable state each merger worker has
received at most one value from its input channel since `q` was closed, and a
worker that has received one receives nothing at its next step: it is at its
cancellation check, where it returns, or it has returned. -/
theorem late_read_at_most_once {E σ : Type} (C : Consumer E σ) (c : σ)
    (errs : List (InChan E)) (s : State E σ) (h : Reachable C c errs s)
    (i : Nat) (w : Worker E) (hw : s.ws[i]? = some w) :
    (recvOf i (afterSignal s.log)).length ≤ 1 ∧
    (recvOf i (afterSignal s.log) ≠ [] →
      recvL (next C s (Action.worker i)).log = recvL s.log ∧
      ((next C s (Action.worker i)).ws[i]?).map Worker.pc = some WorkerPc.done) := by
  have hI := Inv_reachable C c errs s h
  have hlate := hI.late.late i w hw
  refine ⟨hlate.1, ?_⟩
  intro hne
  have hi := getElem?_lt_length _ _ _ hw
  have hq : s.q = true := by
    cases hq : s.q with
    | true => rfl
    | false =>
      have := hI.hand.sigF hq
      rw [this] at hne
      exact absurd rfl hne
  rcases hlate.2 hne with ⟨e, hpc⟩ | ⟨hpc, _⟩
  · simp [next, step, workerStep, hI.ctl.noPanic, hw, hpc, hq, Event.asRecv,
      List.getElem?_set, hi]
  · simp [next, step, workerStep, hI.ctl.noPanic, hw, hpc]

/-- Witness of the amended C5: in the state of the counterexample after the
worker's late receive of 7, the worker has received one value since `q` was
closed, and its next step receives nothing and makes it return. -/
theorem late_read_at_most_once_witness :
    Reachable (stopAt 0) () lateErrs
        (exec (stopAt 0) (NewHandler () lateErrs) (earlyCancelSched ++ [Action.worker 0])) ∧
      (exec (stopAt 0) (NewHandler () lateErrs) (earlyCancelSched ++ [Action.worker 0])).ws[0]?
        = some { ch := { buf := [], closed := false }, pc := WorkerPc.check 7 } ∧
      recvOf 0 (afterSignal
        (exec (stopAt 0) (NewHandler () lateErrs) (earlyCancelSched ++ [Action.worker 0])).log)
        = [7] ∧
      recvL (next (stopAt 0)
          (exec (stopAt 0) (NewHandler () lateErrs) (earlyCancelSched ++ [Action.worker 0]))
          (Action.worker 0)).log
        = recvL (exec (stopAt 0) (NewHandler () lateErrs)
            (earlyCancelSched ++ [Action.worker 0])).log :=
  ⟨⟨earlyCancelSched ++ [Action.worker 0], rfl⟩, by decide, by decide,
    ((late_read_at_most_once (stopAt 0) () lateErrs _
      ⟨earlyCancelSched ++ [Action.worker 0], rfl⟩ 0
      { ch := { buf := [], closed := false }, pc := WorkerPc.check 7 } (by decide)).2
      (by decide)).1⟩

/-! ## Tagged lists as multisets -/

theorem retag_eq {E : Type} (i : Nat) (l : List (Nat × E)) (h : ∀ x ∈ l, x.1 = i) :
    l = (l.map Prod.snd).map (fun e => (i, e)) := by
  induction l with
  | nil => rfl
  | cons x xs ih =>
    have hx : x.1 = i := h x (List.mem_cons_self x xs)
    have hxs := ih (fun y hy => h y (List.mem_cons_of_mem x hy))
    rw [List.map_cons, List.map_cons, ← hxs, ← hx]

theorem filter_tag_eq {E : Type} (i : Nat) (l : List (Nat × E)) :
    l.filter (fun x => decide (x.1 = i)) = (ofTag i l).map (fun e => (i, e)) := by
  unfold ofTag
  apply retag_eq
  intro x hx
  simpa using (List.mem_filter.mp hx).2

theorem tag_split {E : Type} (n : Nat) (A : List (Nat × E)) (hA : ∀ x ∈ A, x.1 < n + 1) :
    A.Perm (A.filter (fun x => decide (x.1 < n)) ++ A.filter (fun x => decide (x.1 = n))) := by
  have h1 := (List.filter_append_perm (fun x : Nat × E => decide (x.1 < n)) A).symm
  have h2 : A.filter (fun x => !decide (x.1 < n)) = A.filter (fun x => decide (x.1 = n)) := by
    apply List.filter_congr
    intro x hx
    have := hA x hx
    by_cases hlt : x.1 < n
    · have hne : ¬ x.1 = n := by omega
      simp [hlt, hne]
    · have heq : x.1 = n := by omega
      simp [heq]
  rw [h2] at h1
  exact h1

theorem ofTag_filter_lt {E : Type} (i n : Nat) (hi : i < n) (A : List (Nat × E)) :
    ofTag i (A.filter (fun x => decide (x.1 < n))) = ofTag i A := by
  unfold ofTag
  rw [List.filter_filter]
  congr 1
  apply List.filter_congr
  intro x _
  by_cases hx : x.1 = i
  · have : x.1 < n := by omega
    simp [hx, hi]
  · simp [hx]

/-- Two tagged lists that agree tag by tag are permutations of each other. -/
theorem perm_of_tags {E : Type} (N : Nat) (A B : List (Nat × E))
    (hA : ∀ x ∈ A, x.1 < N) (hB : ∀ x ∈ B, x.1 < N)
    (h : ∀ i, i < N → ofTag i A = ofTag i B) : A.Perm B := by
  induction N generalizing A B with
  | zero =>
    have hAn : A = [] := List.eq_nil_iff_forall_not_mem.mpr (fun x hx => by have := hA x hx; omega)
    have hBn : B = [] := List.eq_nil_iff_forall_not_mem.mpr (fun x hx => by have := hB x hx; omega)
    rw [hAn, hBn]
  | succ n ih =>
    have hlow : (A.filter (fun x => decide (x.1 < n))).Perm (B.filter (fun x => decide (x.1 < n))) := by
      apply ih
      · intro x hx
        simpa using (List.mem_filter.mp hx).2
      · intro x hx
        simpa using (List.mem_filter.mp hx).2
      · intro i hi
        rw [ofTag_filter_lt i n hi, ofTag_filter_lt i n hi]
        exact h i (by omega)
    have htop : A.filter (fun x => decide (x.1 = n)) = B.filter (fun x => decide (x.1 = n)) := by
      rw [filter_tag_eq, filter_tag_eq, h n (by omega)]
    refine (tag_split n A hA).trans ?_
    refine List.Perm.trans ?_ (tag_split n B hB).symm
    rw [htop]
    exact List.Perm.append_right _ hlow

/-- A tagged list whose part with tag `i` is the `i`-th of the given lists is,
forgetting the tags, a permutation of their concatenation. -/
theorem perm_flatten {E : Type} (ss : List (List E)) (A : List (Nat × E))
    (hA : ∀ x ∈ A, x.1 < ss.length)
    (h : ∀ i, i < ss.length → ofTag i A = ss.getD i []) :
    (A.map Prod.snd).Perm ss.flatten := by
  induction ss using List.reverseRecOn generalizing A with
  | nil =>
    have hAn : A = [] := List.eq_nil_iff_forall_not_mem.mpr (fun x hx => by
      have := hA x hx
      simp at this)
    rw [hAn]
    simp
  | append_singleton ss l ih =>
    have hlen : (ss ++ [l]).length = ss.length + 1 := by simp
    have hsplit := tag_split ss.length A (fun x hx => by have := hA x hx; omega)
    have hlow : ((A.filter (fun x => decide (x.1 < ss.length))).map Prod.snd).Perm ss.flatten := by
      apply ih
      · intro x hx
        simpa using (List.mem_filter.mp hx).2
      · intro i hi
        rw [ofTag_filter_lt i ss.length hi, h i (by omega)]
        simp [List.getD, List.getElem?_append_left hi]
    have htop : (A.filter (fun x => decide (x.1 = ss.length))).map Prod.snd = l := by
      have := h ss.length (by omega)
      simpa [ofTag, List.getD] using this
    have := hsplit.map Prod.snd
    rw [List.map_append, htop] at this
    refine this.trans ?_
    rw [List.flatten_append]
    simpa using List.Perm.append_right l hlow

/-! ## Conservation of values -/

/-- A value is dropped only when `q` is closed. -/
theorem drop_needs_signal {E σ : Type} (C : Consumer E σ) (c : σ) (errs : List (InChan E))
    (s : State E σ) (h : Reachable C c errs s) (hd : dropL s.log ≠ []) : s.q = true := by
  obtain ⟨acts, rfl⟩ := h
  revert hd
  refine exec_induct C (fun s => dropL s.log ≠ [] → s.q = true) ?_ _ ?_ acts
  · intro s s1 a ih hs
    cases hs
    case drop hq => intro _; exact hq
    case closeQ => intro _; rfl
    all_goals simpa [Event.asDrop] using ih
  · simp [NewHandler]

/-- In a state in which the consumption loop has left its loop every worker has returned. -/
theorem past_all_done {E σ : Type} (s : State E σ) (hA : InvA s) (hp : s.start.past = true)
    (i : Nat) (w : Worker E) (hw : s.ws[i]? = some w) : w.pc = WorkerPc.done := by
  have hc : s.closer = CloserPc.done := hA.closed_iff.mp (hA.past_out hp).1
  have hwg : s.wg = 0 := hA.closer_wg (by simp [hc])
  have h0 : liveCount s.ws = 0 := by
    have := hA.wg_eq
    omega
  exact liveCount_zero s.ws h0 i w hw

/-- C8 as stated fails on the code: in the complete execution `dropSched` the
worker received 7 from its input channel, and the consumption loop received
nothing from the merged channel. -/
theorem received_not_all_consumed :
    (exec (stopAt 0) (NewHandler () dropErrs) dropSched).start = StartPc.finished ∧
      recvL (exec (stopAt 0) (NewHandler () dropErrs) dropSched).log = [(0, 7)] ∧
      takeL (exec (stopAt 0) (NewHandler () dropErrs) dropSched).log = [] ∧
      ¬ (recvL (exec (stopAt 0) (NewHandler () dropErrs) dropSched).log).Perm
          (takeL (exec (stopAt 0) (NewHandler () dropErrs) dropSched).log) := by
  refine ⟨by decide, by decide, by decide, ?_⟩
  intro hperm
  have hlen := hperm.length_eq
  have h1 : recvL (exec (stopAt 0) (NewHandler () dropErrs) dropSched).log = [(0, 7)] := by
    decide
  have h2 : takeL (exec (stopAt 0) (NewHandler () dropErrs) dropSched).log = [] := by decide
  rw [h1, h2] at hlen
  simp at hlen

/-- C8 amended: every value a worker forwards is received by the consumption
loop exactly once and in order, or is still in the merged buffer; every value the
loop received is delivered to `Consume`, about to be, or discarded; a worker drops
at most one of the values it received, and none unless `q` is closed; and in a
complete execution the values received from the input streams are, as a
multiset, the values the consumption loop received together with the dropped
ones, so the two multisets are equal when nothing was dropped. -/
theorem received_consumed_or_dropped {E σ : Type} (C : Consumer E σ) (c : σ)
    (errs : List (InChan E)) (s : State E σ) (h : Reachable C c errs s) :
    fwdL s.log = takeL s.log ++ s.out ∧
    takeL s.log = (consumeL s.log).map Prod.fst ++ s.start.pending ++ discardL s.log ∧
    (∀ i : Nat, (dropOf i s.log).length ≤ 1) ∧
    (dropL s.log ≠ [] → s.q = true) ∧
    (s.start.past = true → (recvL s.log).Perm (takeL s.log ++ dropL s.log)) ∧
    (s.start.past = true → dropL s.log = [] → (recvL s.log).Perm (takeL s.log)) := by
  have hI := Inv_reachable C c errs s h
  have hperm : s.start.past = true → (recvL s.log).Perm (takeL s.log ++ dropL s.log) := by
    intro hp
    have hout := (hI.ctl.past_out hp).2
    have hm := hI.flow.merged
    rw [hout, List.append_nil] at hm
    rw [← hm]
    apply perm_of_tags s.ws.length
    · exact hI.flow.tagsR
    · intro x hx
      rcases List.mem_append.mp hx with hx | hx
      · exact hI.flow.tagsF x hx
      · exact hI.flow.tagsD x hx
    · intro i hi
      obtain ⟨w, hw⟩ := getElem?_of_lt s.ws i hi
      have hdone := past_all_done s hI.ctl hp i w hw
      have hflow := hI.flow.flow i w hw
      rw [hdone] at hflow
      rw [ofTag_append, ofTag_recvL, ofTag_fwdL, ofTag_dropL, hflow]
      simp [WorkerPc.held]
  refine ⟨hI.flow.merged, hI.cons.split, hI.flow.drop_le,
    drop_needs_signal C c errs s h, hperm, ?_⟩
  intro hp hd
  have := hperm hp
  rwa [hd, List.append_nil] at this

/-- Witness of the amended C8 on the complete execution `dropSched`. -/
theorem received_consumed_or_dropped_witness :
    Reachable (stopAt 0) () dropErrs (exec (stopAt 0) (NewHandler () dropErrs) dropSched) ∧
      (exec (stopAt 0) (NewHandler () dropErrs) dropSched).start.past = true ∧
      (recvL (exec (stopAt 0) (NewHandler () dropErrs) dropSched).log).Perm
        (takeL (exec (stopAt 0) (NewHandler () dropErrs) dropSched).log ++
          dropL (exec (stopAt 0) (NewHandler () dropErrs) dropSched).log) :=
  ⟨⟨dropSched, rfl⟩, by decide,
    (received_consumed_or_dropped (stopAt 0) () dropErrs _ ⟨dropSched, rfl⟩).2.2.2.2.1
      (by decide)⟩

/-! ## The merged buffer -/

theorem Reachable_exec {E σ : Type} (C : Consumer E σ) (c : σ) (errs : List (InChan E))
    (s : State E σ) (h : Reachable C c errs s) (acts : List (Action E)) :
    Reachable C c errs (exec C s acts) := by
  obtain ⟨as, rfl⟩ := h
  exact ⟨as ++ acts, exec_append C _ as acts⟩

theorem exec_replicate_succ {E σ : Type} (C : Consumer E σ) (s : State E σ) (a : Action E)
    (k : Nat) :
    exec C s (List.replicate (k + 1) a) = exec C (next C s a) (List.replicate k a) := rfl

/-- A worker that is about to forward a value finds the merged channel open. -/
theorem sending_open {E σ : Type} (s : State E σ) (hA : InvA s) (i : Nat) (w : Worker E)
    (e : E) (hw : s.ws[i]? = some w) (hpc : w.pc = WorkerPc.send e) :
    s.outClosed = false ∧ s.start.past = false := by
  have hpos := liveCount_pos s.ws i w hw (by simp [Worker.live, hpc])
  have hopen : s.outClosed = false := by
    cases ho : s.outClosed with
    | false => rfl
    | true =>
      have hc : s.closer = CloserPc.done := hA.closed_iff.mp ho
      have hwg : s.wg = 0 := hA.closer_wg (by simp [hc])
      have := hA.wg_eq
      omega
  refine ⟨hopen, ?_⟩
  cases hp : s.start.past with
  | false => rfl
  | true =>
    have := (hA.past_out hp).1
    rw [hopen] at this
    cases this

/-- From the head of its loop the consumption loop frees a slot of the merged
buffer in at most one step. -/
theorem free_from_loop {E σ : Type} (C : Consumer E σ) (s : State E σ) (hA : InvA s)
    (hpos : 0 < s.cap) (d : Bool) (hst : s.start = StartPc.loop d) :
    ∃ k, k ≤ 1 ∧ (exec C s (List.replicate k Action.start)).out.length < s.cap ∧
      (exec C s (List.replicate k Action.start)).ws = s.ws := by
  have hp := hA.noPanic
  have hle := hA.out_le
  cases ho : s.out with
  | nil => exact ⟨0, by omega, by simpa [exec, ho] using hpos, rfl⟩
  | cons x rest =>
    refine ⟨1, le_refl 1, ?_, ?_⟩
    · rw [ho] at hle
      simp only [List.length_cons] at hle
      cases d <;> simp [exec, next, step, start, hp, hst, ho] <;> omega
    · cases d <;> simp [exec, next, step, start, hp, hst, ho]

theorem next_start_keeps {E σ : Type} (C : Consumer E σ) (s : State E σ) :
    (next C s Action.start).ws = s.ws ∧ (next C s Action.start).cap = s.cap := by
  rcases next_cases C s Action.start with h | h
  · rw [h]
    exact ⟨rfl, rfl⟩
  · generalize next C s Action.start = s1 at h
    cases h <;> exact ⟨rfl, rfl⟩

/-- While a worker holds a checked value, the consumption loop frees a slot of
the merged buffer within four of its steps. -/
theorem free_within_four {E σ : Type} (C : Consumer E σ) (c : σ) (errs : List (InChan E))
    (s : State E σ) (h : Reachable C c errs s) (i : Nat) (w : Worker E) (e : E)
    (hw : s.ws[i]? = some w) (hpc : w.pc = WorkerPc.send e) :
    ∃ k, k ≤ 4 ∧ (exec C s (List.replicate k Action.start)).out.length < s.cap ∧
      (exec C s (List.replicate k Action.start)).ws = s.ws := by
  have hA := (Inv_reachable C c errs s h).ctl
  have hp := hA.noPanic
  have hpos : 0 < s.cap := by
    have := getElem?_lt_length _ _ _ hw
    have := hA.cap_eq
    omega
  have hnp := (sending_open s hA i w e hw hpc).2
  -- one step of the loop, then recurse on the successor
  have hnext : Reachable C c errs (next C s Action.start) :=
    Reachable_exec C c errs s h [Action.start]
  have hA1 := (Inv_reachable C c errs _ hnext).ctl
  have hk1 := next_start_keeps C s
  have lift : ∀ (k b : Nat), k ≤ b →
      (exec C (next C s Action.start) (List.replicate k Action.start)).out.length
        < (next C s Action.start).cap →
      (exec C (next C s Action.start) (List.replicate k Action.start)).ws
        = (next C s Action.start).ws →
      ∃ k2, k2 ≤ b + 1 ∧ (exec C s (List.replicate k2 Action.start)).out.length < s.cap ∧
        (exec C s (List.replicate k2 Action.start)).ws = s.ws := by
    intro k b hkb h1 h2
    refine ⟨k + 1, by omega, ?_, ?_⟩
    · rw [exec_replicate_succ, ← hk1.2]
      exact h1
    · rw [exec_replicate_succ, h2, hk1.1]
  have hpos1 : 0 < (next C s Action.start).cap := by rw [hk1.2]; exact hpos
  -- from `cancelInDone`
  have fromDone : ∀ (s0 : State E σ), Reachable C c errs s0 → 0 < s0.cap →
      s0.start = StartPc.cancelInDone →
      ∃ k, k ≤ 2 ∧ (exec C s0 (List.replicate k Action.start)).out.length < s0.cap ∧
        (exec C s0 (List.replicate k Action.start)).ws = s0.ws := by
    intro s0 hr0 hp0 hst0
    have hA0 := (Inv_reachable C c errs s0 hr0).ctl
    have hn0 : Reachable C c errs (next C s0 Action.start) :=
      Reachable_exec C c errs s0 hr0 [Action.start]
    have hAn := (Inv_reachable C c errs _ hn0).ctl
    have hk0 := next_start_keeps C s0
    have hst1 : (next C s0 Action.start).start = StartPc.loop true := by
      simp [next, step, start, hA0.noPanic, hst0]
    obtain ⟨k, hk, h1, h2⟩ := free_from_loop C _ hAn (by rw [hk0.2]; exact hp0) true hst1
    refine ⟨k + 1, by omega, ?_, ?_⟩
    · rw [exec_replicate_succ, ← hk0.2]
      exact h1
    · rw [exec_replicate_succ, h2, hk0.1]
  -- from `cancelIn`
  have fromIn : ∀ (s0 : State E σ), Reachable C c errs s0 → 0 < s0.cap →
      s0.start = StartPc.cancelIn →
      ∃ k, k ≤ 3 ∧ (exec C s0 (List.replicate k Action.start)).out.length < s0.cap ∧
        (exec C s0 (List.replicate k Action.start)).ws = s0.ws := by
    intro s0 hr0 hp0 hst0
    have hA0 := (Inv_reachable C c errs s0 hr0).ctl
    have hn0 : Reachable C c errs (next C s0 Action.start) :=
      Reachable_exec C c errs s0 hr0 [Action.start]
    have hAn := (Inv_reachable C c errs _ hn0).ctl
    have hk0 := next_start_keeps C s0
    cases ht : s0.t with
    | true =>
      have hst1 : (next C s0 Action.start).start = StartPc.loop true := by
        simp [next, step, start, Cancel_select, hA0.noPanic, hst0, ht]
      obtain ⟨k, hk, h1, h2⟩ := free_from_loop C _ hAn (by rw [hk0.2]; exact hp0) true hst1
      refine ⟨k + 1, by omega, ?_, ?_⟩
      · rw [exec_replicate_succ, ← hk0.2]
        exact h1
      · rw [exec_replicate_succ, h2, hk0.1]
    | false =>
      have hst1 : (next C s0 Action.start).start = StartPc.cancelInDone := by
        simp [next, step, start, Cancel_select, hA0.noPanic, hst0, ht]
      obtain ⟨k, hk, h1, h2⟩ := fromDone _ hn0 (by rw [hk0.2]; exact hp0) hst1
      refine ⟨k + 1, by omega, ?_, ?_⟩
      · rw [exec_replicate_succ, ← hk0.2]
        exact h1
      · rw [exec_replicate_succ, h2, hk0.1]
  cases hst : s.start with
  | loop d =>
    obtain ⟨k, hk, h1, h2⟩ := free_from_loop C s hA hpos d hst
    exact ⟨k, by omega, h1, h2⟩
  | deliver j e1 =>
    cases hok : (C.Consume s.c e1).1 with
    | true =>
      have hst1 : (next C s Action.start).start = StartPc.loop false := by
        simp [next, step, start, hp, hst, hok]
      obtain ⟨k, hk, h1, h2⟩ := free_from_loop C _ hA1 hpos1 false hst1
      obtain ⟨k2, hk2, r1, r2⟩ := lift k 1 hk h1 h2
      exact ⟨k2, by omega, r1, r2⟩
    | false =>
      have hst1 : (next C s Action.start).start = StartPc.cancelIn := by
        simp [next, step, start, hp, hst, hok]
      obtain ⟨k, hk, h1, h2⟩ := fromIn _ hnext hpos1 hst1
      exact lift k 3 hk h1 h2
  | cancelIn =>
    obtain ⟨k, hk, h1, h2⟩ := fromIn s h hpos hst
    exact ⟨k, by omega, h1, h2⟩
  | cancelInDone =>
    obtain ⟨k, hk, h1, h2⟩ := fromDone s h hpos hst
    exact ⟨k, by omega, h1, h2⟩
  | cancelOut => simp [hst, StartPc.past] at hnp
  | cancelOutDone => simp [hst, StartPc.past] at hnp
  | finished => simp [hst, StartPc.past] at hnp

/-- C10 as stated fails on the code: `q` is closed, the only worker holds the
checked value 8, and the merged buffer of capacity one is full with 7, so the
free space 0 is less than the number 1 of pending forwards. -/
theorem buffer_full_at_signal :
    (exec (stopAt 0) (NewHandler () fullErrs) fullSched).q = true ∧
      (exec (stopAt 0) (NewHandler () fullErrs) fullSched).cap = 1 ∧
      (exec (stopAt 0) (NewHandler () fullErrs) fullSched).out = [(0, 7)] ∧
      (exec (stopAt 0) (NewHandler () fullErrs) fullSched).ws.countP Worker.sending = 1 ∧
      ¬ ((exec (stopAt 0) (NewHandler () fullErrs) fullSched).ws.countP Worker.sending ≤
          (exec (stopAt 0) (NewHandler () fullErrs) fullSched).cap -
            (exec (stopAt 0) (NewHandler () fullErrs) fullSched).out.length) := by
  decide

/-- C10 amended: the merged channel has capacity exactly the number of input
streams and never holds more values than that; while a worker holds a checked
value the merged channel is open and the consumption loop is inside its loop; and
within at most four steps of the consumption loop the buffer has a free slot and
the worker's pending forward is accepted. -/
theorem forward_never_stranded {E σ : Type} (C : Consumer E σ) (c : σ)
    (errs : List (InChan E)) (s : State E σ) (h : Reachable C c errs s) :
    s.cap = errs.length ∧ s.out.length ≤ s.cap ∧
    ∀ (i : Nat) (w : Worker E) (e : E), s.ws[i]? = some w → w.pc = WorkerPc.send e →
      s.outClosed = false ∧ s.start.past = false ∧
      ∃ k, k ≤ 4 ∧
        (step C (exec C s (List.replicate k Action.start)) (Action.worker i)).map
            (fun s2 => fwdL s2.log)
          = some (fwdL (exec C s (List.replicate k Action.start)).log ++ [(i, e)]) := by
  have hI := Inv_reachable C c errs s h
  refine ⟨by rw [hI.ctl.cap_eq, hI.flow.len], hI.ctl.out_le, ?_⟩
  intro i w e hw hpc
  have hopen := sending_open s hI.ctl i w e hw hpc
  refine ⟨hopen.1, hopen.2, ?_⟩
  obtain ⟨k, hk, hfree, hws⟩ := free_within_four C c errs s h i w e hw hpc
  refine ⟨k, hk, ?_⟩
  have hr2 := Reachable_exec C c errs s h (List.replicate k Action.start)
  have hA2 := (Inv_reachable C c errs _ hr2).ctl
  have hw2 : (exec C s (List.replicate k Action.start)).ws[i]? = some w := by rw [hws]; exact hw
  have hopen2 := sending_open _ hA2 i w e hw2 hpc
  have hcap2 : (exec C s (List.replicate k Action.start)).cap = s.cap := by
    rw [hA2.cap_eq, hws, hI.ctl.cap_eq]
  rw [← hcap2] at hfree
  simp [step, workerStep, hA2.noPanic, hw2, hpc, hopen2.1, hfree, Event.asFwd]

/-- Witness of the amended C10 in the state of the counterexample: the buffer is
full, and after steps of the consumption loop the forward of 8 is accepted. -/
theorem forward_never_stranded_witness :
    Reachable (stopAt 0) () fullErrs (exec (stopAt 0) (NewHandler () fullErrs) fullSched) ∧
      (exec (stopAt 0) (NewHandler () fullErrs) fullSched).ws[0]?
        = some { ch := { buf := [], closed := false }, pc := WorkerPc.send 8 } ∧
      (exec (stopAt 0) (NewHandler () fullErrs) fullSched).outClosed = false ∧
      fwdL (exec (stopAt 0) (NewHandler () fullErrs) (fullSched ++ [Action.start,
          Action.worker 0])).log
        = [(0, 7), (0, 8)] :=
  ⟨⟨fullSched, rfl⟩, by decide,
    ((forward_never_stranded (stopAt 0) () fullErrs _ ⟨fullSched, rfl⟩).2.2 0
      { ch := { buf := [], closed := false }, pc := WorkerPc.send 8 } 8 (by decide) rfl).1,
    by decide⟩

/-! ## Streams that end, a consumer that accepts everything, no external cancel -/

theorem exec_induct_on {E σ : Type} (C : Consumer E σ) (P : State E σ → Prop)
    (ok : Action E → Prop)
    (hstep : ∀ (s s1 : State E σ) (a : Action E), ok a → P s → Step C s a s1 → P s1)
    (s : State E σ) (h0 : P s) (acts : List (Action E)) (hok : ∀ a ∈ acts, ok a) :
    P (exec C s acts) := by
  induction acts generalizing s with
  | nil => exact h0
  | cons a as ih =>
    have : exec C s (a :: as) = exec C (next C s a) as := rfl
    rw [this]
    apply ih
    · rcases next_cases C s a with h | h
      · rw [h]; exact h0
      · exact hstep s _ a (hok a (List.mem_cons_self a as)) h0 h
    · intro b hb
      exact hok b (List.mem_cons_of_mem a hb)

theorem InvF_init {E σ : Type} (c : σ) (streams : List (List E)) :
    InvF (NewHandler c (closedStreams streams)) := by
  constructor <;> simp [NewHandler, mergeErrors, closedStreams, StartPc.plain]

set_option maxHeartbeats 2000000 in
theorem InvF_step {E σ : Type} (C : Consumer E σ) (hC : ∀ (c1 : σ) (e : E), (C.Consume c1 e).1 = true)
    (s s1 : State E σ) (a : Action E) (ha : a ≠ Action.cancel) (hA : InvA s) (h : InvF s)
    (hs : Step C s a s1) : InvF s1 := by
  obtain ⟨f1, f2, f3, f4, f5, f6, f7, f8⟩ := h
  cases hs with
  | offer i e w hw hc =>
    have := f4 i w hw
    rw [hc] at this
    cases this
  | close i w hw hc =>
    have := f4 i w hw
    rw [hc] at this
    cases this
  | recv i w e rest hw hpc hb =>
    refine ⟨f1, f2, f3, ?_, by simpa [Event.offerAt, Event.dropAt, Event.asDiscard,
        StartPc.plain] using f5, by simpa [Event.offerAt, Event.dropAt, Event.asDiscard,
        StartPc.plain] using f6,
      by simpa [Event.offerAt, Event.dropAt, Event.asDiscard, StartPc.plain] using f7, ?_⟩
    · intro j w1 hj
      rcases getElem?_set_some _ _ _ _ _ hj with ⟨rfl, rfl⟩ | ⟨hne, hj1⟩
      · exact f4 j w hw
      · exact f4 j w1 hj1
    · intro j w1 hj hd
      rcases getElem?_set_some _ _ _ _ _ hj with ⟨rfl, rfl⟩ | ⟨hne, hj1⟩
      · cases hd
      · exact f8 j w1 hj1 hd
  | eof i w hw hpc hb hc =>
    refine ⟨f1, f2, f3, ?_, by simpa [Event.offerAt, Event.dropAt, Event.asDiscard,
        StartPc.plain] using f5, by simpa [Event.offerAt, Event.dropAt, Event.asDiscard,
        StartPc.plain] using f6,
      by simpa [Event.offerAt, Event.dropAt, Event.asDiscard, StartPc.plain] using f7, ?_⟩
    · intro j w1 hj
      rcases getElem?_set_some _ _ _ _ _ hj with ⟨rfl, rfl⟩ | ⟨hne, hj1⟩
      · exact f4 j w hw
      · exact f4 j w1 hj1
    · intro j w1 hj hd
      rcases getElem?_set_some _ _ _ _ _ hj with ⟨rfl, rfl⟩ | ⟨hne, hj1⟩
      · exact hb
      · exact f8 j w1 hj1 hd
  | drop i w e hw hpc hq =>
    exfalso
    have hw0 : s.waiter = WaiterPc.done := hA.q_iff.mp hq
    have h0 : s.twg = 0 := hA.waiter_twg (by simp [hw0])
    have ht : s.t = true := by
      rcases hA.latch with hl | hl | hl
      · omega
      · omega
      · exact hl.1
    have hpast : s.start.past = true := by
      rcases f3 ht with hst | hst <;> simp [hst, StartPc.past]
    have hc : s.closer = CloserPc.done := hA.closed_iff.mp (hA.past_out hpast).1
    have hwg : s.wg = 0 := hA.closer_wg (by simp [hc])
    have hpos := liveCount_pos s.ws i w hw (by simp [Worker.live, hpc])
    have := hA.wg_eq
    omega
  | pass i w e hw hpc hq =>
    refine ⟨f1, f2, f3, ?_, by simpa [Event.offerAt, Event.dropAt, Event.asDiscard,
        StartPc.plain] using f5, by simpa [Event.offerAt, Event.dropAt, Event.asDiscard,
        StartPc.plain] using f6,
      by simpa [Event.offerAt, Event.dropAt, Event.asDiscard, StartPc.plain] using f7, ?_⟩
    · intro j w1 hj
      rcases getElem?_set_some _ _ _ _ _ hj with ⟨rfl, rfl⟩ | ⟨hne, hj1⟩
      · exact f4 j w hw
      · exact f4 j w1 hj1
    · intro j w1 hj hd
      rcases getElem?_set_some _ _ _ _ _ hj with ⟨rfl, rfl⟩ | ⟨hne, hj1⟩
      · cases hd
      · exact f8 j w1 hj1 hd
  | sendClosed i w e hw hpc ho =>
    exact ⟨f1, by simpa [Event.offerAt, Event.dropAt, Event.asDiscard, StartPc.plain] using f2,
        by simpa [Event.offerAt, Event.dropAt, Event.asDiscard, StartPc.plain] using f3, f4,
        by simpa [Event.offerAt, Event.dropAt, Event.asDiscard, StartPc.plain] using f5,
      by simpa [Event.offerAt, Event.dropAt, Event.asDiscard,
          StartPc.plain] using f6, by simpa [Event.offerAt, Event.dropAt, Event.asDiscard,
          StartPc.plain] using f7, f8⟩
  | fwd i w e hw hpc ho hlen =>
    refine ⟨f1, f2, f3, ?_, by simpa [Event.offerAt, Event.dropAt, Event.asDiscard,
        StartPc.plain] using f5, by simpa [Event.offerAt, Event.dropAt, Event.asDiscard,
        StartPc.plain] using f6,
      by simpa [Event.offerAt, Event.dropAt, Event.asDiscard, StartPc.plain] using f7, ?_⟩
    · intro j w1 hj
      rcases getElem?_set_some _ _ _ _ _ hj with ⟨rfl, rfl⟩ | ⟨hne, hj1⟩
      · exact f4 j w hw
      · exact f4 j w1 hj1
    · intro j w1 hj hd
      rcases getElem?_set_some _ _ _ _ _ hj with ⟨rfl, rfl⟩ | ⟨hne, hj1⟩
      · cases hd
      · exact f8 j w1 hj1 hd
  | closerWake hpc hwg =>
    exact ⟨f1, by simpa [Event.offerAt, Event.dropAt, Event.asDiscard, StartPc.plain] using f2,
        by simpa [Event.offerAt, Event.dropAt, Event.asDiscard, StartPc.plain] using f3, f4,
        by simpa [Event.offerAt, Event.dropAt, Event.asDiscard, StartPc.plain] using f5,
      by simpa [Event.offerAt, Event.dropAt, Event.asDiscard,
          StartPc.plain] using f6, by simpa [Event.offerAt, Event.dropAt, Event.asDiscard,
          StartPc.plain] using f7, f8⟩
  | closeOut hpc =>
    exact ⟨f1, by simpa [Event.offerAt, Event.dropAt, Event.asDiscard, StartPc.plain] using f2,
        by simpa [Event.offerAt, Event.dropAt, Event.asDiscard, StartPc.plain] using f3, f4,
        by simpa [Event.offerAt, Event.dropAt, Event.asDiscard, StartPc.plain] using f5,
      by simpa [Event.offerAt, Event.dropAt, Event.asDiscard,
          StartPc.plain] using f6, by simpa [Event.offerAt, Event.dropAt, Event.asDiscard,
          StartPc.plain] using f7, f8⟩
  | take i e rest hpc ho =>
    exact ⟨f1, by simp [Event.offerAt, Event.dropAt, Event.asDiscard, StartPc.plain],
        by simpa [hpc] using f3, f4, by simpa [Event.offerAt, Event.dropAt, Event.asDiscard,
        StartPc.plain] using f5,
      by simpa [Event.offerAt, Event.dropAt, Event.asDiscard,
          StartPc.plain] using f6, by simpa [Event.offerAt, Event.dropAt, Event.asDiscard,
          StartPc.plain] using f7, f8⟩
  | discard i e rest hpc ho =>
    simp [hpc, StartPc.plain] at f2
  | loopEnd d hpc ho hc =>
    refine ⟨f1, by simp [Event.offerAt, Event.dropAt, Event.asDiscard, StartPc.plain], ?_, f4, f5,
        f6, f7, f8⟩
    intro ht
    rcases f3 ht with hst | hst <;> simp [hpc] at hst
  | consumeOk i e hpc hok =>
    refine ⟨f1, by simp [Event.offerAt, Event.dropAt, Event.asDiscard, StartPc.plain], ?_, f4,
        by simpa [Event.offerAt, Event.dropAt, Event.asDiscard, StartPc.plain] using f5,
        by simpa [Event.offerAt, Event.dropAt, Event.asDiscard, StartPc.plain] using f6,
      by simpa [Event.offerAt, Event.dropAt, Event.asDiscard, StartPc.plain] using f7, f8⟩
    intro ht
    rcases f3 ht with hst | hst <;> simp [hpc] at hst
  | consumeStop i e hpc hok =>
    rw [hC] at hok
    cases hok
  | cancelInWin hpc ht =>
    simp [hpc, StartPc.plain] at f2
  | cancelInLose hpc ht =>
    simp [hpc, StartPc.plain] at f2
  | cancelInDone hpc =>
    simp [hpc, StartPc.plain] at f2
  | cancelOutWin hpc ht =>
    exact ⟨f1, by simp [Event.offerAt, Event.dropAt, Event.asDiscard, StartPc.plain],
        fun _ => Or.inl rfl, f4, by simpa [Event.offerAt, Event.dropAt, Event.asDiscard,
        StartPc.plain] using f5,
      by simpa [Event.offerAt, Event.dropAt, Event.asDiscard,
          StartPc.plain] using f6, by simpa [Event.offerAt, Event.dropAt, Event.asDiscard,
          StartPc.plain] using f7, f8⟩
  | cancelOutLose hpc ht =>
    rcases f3 ht with hst | hst <;> simp [hpc] at hst
  | cancelOutDone hpc =>
    exact ⟨f1, by simp [Event.offerAt, Event.dropAt, Event.asDiscard, StartPc.plain],
        fun _ => Or.inr rfl, f4, by simpa [Event.offerAt, Event.dropAt, Event.asDiscard,
        StartPc.plain] using f5,
      by simpa [Event.offerAt, Event.dropAt, Event.asDiscard,
          StartPc.plain] using f6, by simpa [Event.offerAt, Event.dropAt, Event.asDiscard,
          StartPc.plain] using f7, f8⟩
  | waiterWake hpc htwg =>
    exact ⟨f1, by simpa [Event.offerAt, Event.dropAt, Event.asDiscard, StartPc.plain] using f2,
        by simpa [Event.offerAt, Event.dropAt, Event.asDiscard, StartPc.plain] using f3, f4,
        by simpa [Event.offerAt, Event.dropAt, Event.asDiscard, StartPc.plain] using f5,
      by simpa [Event.offerAt, Event.dropAt, Event.asDiscard,
          StartPc.plain] using f6, by simpa [Event.offerAt, Event.dropAt, Event.asDiscard,
          StartPc.plain] using f7, f8⟩
  | extWin ht =>
    exact absurd rfl ha
  | extLose ht =>
    exact absurd rfl ha
  | extDone hext =>
    omega
  | closeQ hpc =>
    exact ⟨f1, by simpa [Event.offerAt, Event.dropAt, Event.asDiscard, StartPc.plain] using f2,
        by simpa [Event.offerAt, Event.dropAt, Event.asDiscard, StartPc.plain] using f3, f4,
        by simpa [Event.offerAt, Event.dropAt, Event.asDiscard, StartPc.plain] using f5,
      by simpa [Event.offerAt, Event.dropAt, Event.asDiscard,
          StartPc.plain] using f6, by simpa [Event.offerAt, Event.dropAt, Event.asDiscard,
          StartPc.plain] using f7, f8⟩

theorem InvF_exec {E σ : Type} (C : Consumer E σ)
    (hC : ∀ (c1 : σ) (e : E), (C.Consume c1 e).1 = true) (c : σ) (streams : List (List E))
    (acts : List (Action E)) (hno : ∀ a ∈ acts, a ≠ Action.cancel) :
    Inv C c (closedStreams streams) (exec C (NewHandler c (closedStreams streams)) acts) ∧
      InvF (exec C (NewHandler c (closedStreams streams)) acts) := by
  refine exec_induct_on C (fun s => Inv C c (closedStreams streams) s ∧ InvF s)
    (fun a => a ≠ Action.cancel) ?_ _ ⟨Inv_init C c _, InvF_init c streams⟩ acts hno
  intro s s1 a ha hP hs
  exact ⟨Inv_step C c _ s s1 a hP.1 hs, InvF_step C hC s s1 a ha hP.1.ctl hP.2 hs⟩

theorem closedStreams_getD {E : Type} (streams : List (List E)) (i : Nat) :
    (((closedStreams streams)[i]?).map InChan.buf).getD [] = streams.getD i [] := by
  unfold closedStreams
  rw [List.getElem?_map]
  cases h : streams[i]? <;> simp [List.getD, h]

/-- At the moment `q` is closed: the errors passed to `Consume` are a permutation
of the values of all streams, stream by stream in order, and nothing was discarded. -/
theorem consumed_at_signal {E σ : Type} (C : Consumer E σ)
    (hC : ∀ (c1 : σ) (e : E), (C.Consume c1 e).1 = true) (c : σ) (streams : List (List E))
    (acts : List (Action E)) (hno : ∀ a ∈ acts, a ≠ Action.cancel)
    (hwait : Wait (exec C (NewHandler c (closedStreams streams)) acts) = some ()) :
    ((consumeL (exec C (NewHandler c (closedStreams streams)) acts).log).map
        (fun r => r.1.2)).Perm streams.flatten ∧
    (∀ i : Nat, i < streams.length →
      ofTag i ((consumeL (exec C (NewHandler c (closedStreams streams)) acts).log).map Prod.fst)
        = streams.getD i []) ∧
    discardL (exec C (NewHandler c (closedStreams streams)) acts).log = [] := by
  obtain ⟨hI, hF⟩ := InvF_exec C hC c streams acts hno
  generalize exec C (NewHandler c (closedStreams streams)) acts = s at hI hF hwait
  have hq : s.q = true := by
    cases hq : s.q with
    | true => rfl
    | false => simp [Wait, hq] at hwait
  have hw0 : s.waiter = WaiterPc.done := hI.ctl.q_iff.mp hq
  have h0 : s.twg = 0 := hI.ctl.waiter_twg (by simp [hw0])
  have ht : s.t = true := by
    rcases hI.ctl.latch with hl | hl | hl
    · omega
    · omega
    · exact hl.1
  have hpast : s.start.past = true := by
    rcases hF.taken ht with hst | hst <;> simp [hst, StartPc.past]
  have hpend : s.start.pending = [] := by
    rcases hF.taken ht with hst | hst <;> simp [hst, StartPc.pending]
  have hout := (hI.ctl.past_out hpast).2
  have hm := hI.flow.merged
  rw [hout, List.append_nil] at hm
  have hsplit := hI.cons.split
  rw [hpend, hF.noDiscard, List.append_nil, List.append_nil] at hsplit
  have hcons : (consumeL s.log).map Prod.fst = fwdL s.log := by rw [← hsplit, hm]
  have hlen : s.ws.length = streams.length := by
    rw [hI.flow.len]
    simp [closedStreams]
  have htag : ∀ i : Nat, i < streams.length →
      ofTag i ((consumeL s.log).map Prod.fst) = streams.getD i [] := by
    intro i hi
    obtain ⟨w, hw⟩ := getElem?_of_lt s.ws i (by omega)
    have hdone := past_all_done s hI.ctl hpast i w hw
    have hflow := hI.flow.flow i w hw
    have hstream := hI.flow.stream i w hw
    rw [hdone, hF.noDrop i] at hflow
    rw [hF.drained i w hw hdone, List.append_nil] at hstream
    unfold streamOf at hstream
    rw [hF.noOffer i, List.append_nil, closedStreams_getD] at hstream
    rw [hcons, ofTag_fwdL, hstream, hflow]
    simp [WorkerPc.held]
  refine ⟨?_, htag, hF.noDiscard⟩
  have hperm := perm_flatten streams ((consumeL s.log).map Prod.fst)
    (by
      intro x hx
      rw [hcons] at hx
      have := hI.flow.tagsF x hx
      omega)
    htag
  simpa [List.map_map] using hperm


/-! ## Every such execution can be completed -/

theorem weight_set {E : Type} (ws : List (Worker E)) (i : Nat) (w w1 : Worker E)
    (h : ws[i]? = some w) :
    ((ws.set i w1).map Worker.weight).sum + w.weight
      = (ws.map Worker.weight).sum + w1.weight := by
  induction ws generalizing i with
  | nil => simp at h
  | cons x xs ih =>
    cases i with
    | zero =>
      simp at h
      subst h
      simp
      omega
    | succ n =>
      simp at h
      have := ih n h
      simp only [List.set_cons_succ, List.map_cons, List.sum_cons] at this ⊢
      omega

theorem exists_live {E : Type} (ws : List (Worker E)) (h : 0 < liveCount ws) :
    ∃ (i : Nat) (w : Worker E), ws[i]? = some w ∧ w.live = true := by
  unfold liveCount at h
  obtain ⟨w, hw, hl⟩ := List.countP_pos_iff.mp h
  obtain ⟨i, hi⟩ := List.mem_iff_getElem?.mp hw
  exact ⟨i, w, hi, hl⟩

set_option maxHeartbeats 2000000 in
theorem remaining_step {E σ : Type} (C : Consumer E σ)
    (hC : ∀ (c1 : σ) (e : E), (C.Consume c1 e).1 = true)
    (s s1 : State E σ) (a : Action E) (ha : a ≠ Action.cancel) (hA : InvA s) (h : InvF s)
    (hs : Step C s a s1) : remaining s1 < remaining s := by
  obtain ⟨f1, f2, f3, f4, f5, f6, f7, f8⟩ := h
  cases hs with
  | offer i e w hw hc =>
    have := f4 i w hw
    rw [hc] at this
    cases this
  | close i w hw hc =>
    have := f4 i w hw
    rw [hc] at this
    cases this
  | recv i w e rest hw hpc hb =>
    have hsum := weight_set s.ws i w { ch := { buf := rest, closed := w.ch.closed }, pc := WorkerPc.check e } hw
    simp only [remaining, Worker.weight, WorkerPc.weight, CloserPc.weight, StartPc.weight,
        WaiterPc.weight, hpc, hb, List.length_cons, List.length_append,
      List.length_singleton, List.length_nil] at hsum ⊢
    omega
  | eof i w hw hpc hb hc =>
    have hsum := weight_set s.ws i w { w with pc := WorkerPc.done } hw
    simp only [remaining, Worker.weight, WorkerPc.weight, CloserPc.weight, StartPc.weight,
        WaiterPc.weight, hpc, hb, List.length_cons, List.length_append,
      List.length_singleton, List.length_nil] at hsum ⊢
    omega
  | drop i w e hw hpc hq =>
    exfalso
    have hw0 : s.waiter = WaiterPc.done := hA.q_iff.mp hq
    have h0 : s.twg = 0 := hA.waiter_twg (by simp [hw0])
    have ht : s.t = true := by
      rcases hA.latch with hl | hl | hl
      · omega
      · omega
      · exact hl.1
    have hpast : s.start.past = true := by
      rcases f3 ht with hst | hst <;> simp [hst, StartPc.past]
    have hc : s.closer = CloserPc.done := hA.closed_iff.mp (hA.past_out hpast).1
    have hwg : s.wg = 0 := hA.closer_wg (by simp [hc])
    have hpos := liveCount_pos s.ws i w hw (by simp [Worker.live, hpc])
    have := hA.wg_eq
    omega
  | pass i w e hw hpc hq =>
    have hsum := weight_set s.ws i w { w with pc := WorkerPc.send e } hw
    simp only [remaining, Worker.weight, WorkerPc.weight, CloserPc.weight, StartPc.weight,
        WaiterPc.weight, hpc, List.length_cons, List.length_append,
      List.length_singleton, List.length_nil] at hsum ⊢
    omega
  | sendClosed i w e hw hpc ho =>
    exfalso
    have hpos := liveCount_pos s.ws i w hw (by simp [Worker.live, hpc])
    have hc : s.closer = CloserPc.done := hA.closed_iff.mp ho
    have hwg : s.wg = 0 := hA.closer_wg (by simp [hc])
    have := hA.wg_eq
    omega
  | fwd i w e hw hpc ho hlen =>
    have hsum := weight_set s.ws i w { w with pc := WorkerPc.recv } hw
    simp only [remaining, Worker.weight, WorkerPc.weight, CloserPc.weight, StartPc.weight,
        WaiterPc.weight, hpc, List.length_cons, List.length_append,
      List.length_singleton, List.length_nil] at hsum ⊢
    omega
  | closerWake hpc hwg =>
    simp only [remaining, Worker.weight, WorkerPc.weight, CloserPc.weight, StartPc.weight,
        WaiterPc.weight, hpc]
    omega
  | closeOut hpc =>
    simp only [remaining, Worker.weight, WorkerPc.weight, CloserPc.weight, StartPc.weight,
        WaiterPc.weight, hpc]
    omega
  | take i e rest hpc ho =>
    simp only [remaining, Worker.weight, WorkerPc.weight, CloserPc.weight, StartPc.weight,
        WaiterPc.weight, hpc, ho, List.length_cons]
    omega
  | discard i e rest hpc ho =>
    simp [hpc, StartPc.plain] at f2
  | loopEnd d hpc ho hc =>
    simp only [remaining, Worker.weight, WorkerPc.weight, CloserPc.weight, StartPc.weight,
        WaiterPc.weight, hpc, ho]
    omega
  | consumeOk i e hpc hok =>
    simp only [remaining, Worker.weight, WorkerPc.weight, CloserPc.weight, StartPc.weight,
        WaiterPc.weight, hpc]
    omega
  | consumeStop i e hpc hok =>
    rw [hC] at hok
    cases hok
  | cancelInWin hpc ht =>
    simp [hpc, StartPc.plain] at f2
  | cancelInLose hpc ht =>
    simp [hpc, StartPc.plain] at f2
  | cancelInDone hpc =>
    simp [hpc, StartPc.plain] at f2
  | cancelOutWin hpc ht =>
    simp only [remaining, Worker.weight, WorkerPc.weight, CloserPc.weight, StartPc.weight,
        WaiterPc.weight, hpc]
    omega
  | cancelOutLose hpc ht =>
    rcases f3 ht with hst | hst <;> simp [hpc] at hst
  | cancelOutDone hpc =>
    simp only [remaining, Worker.weight, WorkerPc.weight, CloserPc.weight, StartPc.weight,
        WaiterPc.weight, hpc]
    omega
  | waiterWake hpc htwg =>
    simp only [remaining, Worker.weight, WorkerPc.weight, CloserPc.weight, StartPc.weight,
        WaiterPc.weight, hpc]
    omega
  | extWin ht =>
    exact absurd rfl ha
  | extLose ht =>
    exact absurd rfl ha
  | extDone hext =>
    omega
  | closeQ hpc =>
    simp only [remaining, Worker.weight, WorkerPc.weight, CloserPc.weight, StartPc.weight,
        WaiterPc.weight, hpc]
    omega

/-- While `q` is open some party other than an external canceller has a step to take. -/
theorem progress {E σ : Type} (C : Consumer E σ) (s : State E σ) (hA : InvA s) (hF : InvF s)
    (hq : s.q = false) : ∃ a : Action E, a ≠ Action.cancel ∧ (step C s a).isSome = true := by
  have hp := hA.noPanic
  cases hw : s.waiter with
  | closing => exact ⟨Action.waiter, by simp, by simp [step, waitAndClose, hp, hw]⟩
  | done =>
    have := hA.q_iff.mpr hw
    rw [hq] at this
    cases this
  | waiting =>
    by_cases htwg : s.twg = 0
    · exact ⟨Action.waiter, by simp, by simp [step, waitAndClose, hp, hw, htwg]⟩
    · cases hst : s.start with
      | deliver j e =>
        refine ⟨Action.start, by simp, ?_⟩
        cases hok : (C.Consume s.c e).1 <;> simp [step, start, hp, hst, hok]
      | cancelIn => have := hF.plain; simp [hst, StartPc.plain] at this
      | cancelInDone => have := hF.plain; simp [hst, StartPc.plain] at this
      | cancelOut =>
        refine ⟨Action.start, by simp, ?_⟩
        cases ht : s.t <;> simp [step, start, Cancel_select, hp, hst, ht]
      | cancelOutDone => exact ⟨Action.start, by simp, by simp [step, start, hp, hst]⟩
      | finished =>
        exfalso
        have ht := hA.did_t (by simp [hst, StartPc.didCancel])
        have hext := hF.noExt
        rcases hA.latch with hl | hl | hl
        · rw [ht] at hl
          cases hl.1
        · have := hl.2.2
          simp [hst, StartPc.holds, hext] at this
        · exact htwg hl.2.1
      | loop d =>
        cases ho : s.out with
        | cons x rest =>
          refine ⟨Action.start, by simp, ?_⟩
          cases d <;> simp [step, start, hp, hst, ho]
        | nil =>
          cases hoc : s.outClosed with
          | true => exact ⟨Action.start, by simp, by simp [step, start, hp, hst, ho, hoc]⟩
          | false =>
            cases hcl : s.closer with
            | closing => exact ⟨Action.closer, by simp, by simp [step, closerStep, hp, hcl]⟩
            | done =>
              have := hA.closed_iff.mpr hcl
              rw [hoc] at this
              cases this
            | waiting =>
              by_cases hwg : s.wg = 0
              · exact ⟨Action.closer, by simp, by simp [step, closerStep, hp, hcl, hwg]⟩
              · have hpos : 0 < liveCount s.ws := by
                  have := hA.wg_eq
                  omega
                obtain ⟨i, w, hwi, hlive⟩ := exists_live s.ws hpos
                refine ⟨Action.worker i, by simp, ?_⟩
                have hi := getElem?_lt_length _ _ _ hwi
                have hcap := hA.cap_eq
                cases hpc : w.pc with
                | recv =>
                  cases hb : w.ch.buf with
                  | nil =>
                    have hc := hF.closed i w hwi
                    simp [step, workerStep, hp, hwi, hpc, hb, hc]
                  | cons e rest => simp [step, workerStep, hp, hwi, hpc, hb]
                | check e => cases hqq : s.q <;> simp [step, workerStep, hp, hwi, hpc, hqq]
                | send e =>
                  have hlt : s.out.length < s.cap := by
                    rw [ho, hcap]
                    simpa using (by omega : 0 < s.ws.length)
                  simp [step, workerStep, hp, hwi, hpc, hoc, hlt]
                | done => simp [Worker.live, hpc] at hlive

/-- Every execution over closed streams with an accepting consumer and without
external cancel can be continued, without external cancel, until `q` is closed. -/
theorem completes_from {E σ : Type} (C : Consumer E σ)
    (hC : ∀ (c1 : σ) (e : E), (C.Consume c1 e).1 = true) (c : σ) (errs : List (InChan E))
    (n : Nat) (s : State E σ) (hn : remaining s ≤ n) (hI : Inv C c errs s) (hF : InvF s) :
    ∃ acts : List (Action E), (∀ a ∈ acts, a ≠ Action.cancel) ∧ (exec C s acts).q = true := by
  induction n generalizing s with
  | zero =>
    cases hq : s.q with
    | true => exact ⟨[], by simp, hq⟩
    | false =>
      obtain ⟨a, ha, hsome⟩ := progress C s hI.ctl hF hq
      obtain ⟨s1, hs1⟩ := Option.isSome_iff_exists.mp hsome
      have := remaining_step C hC s s1 a ha hI.ctl hF (step_sound C hs1).2
      omega
  | succ n ih =>
    cases hq : s.q with
    | true => exact ⟨[], by simp, hq⟩
    | false =>
      obtain ⟨a, ha, hsome⟩ := progress C s hI.ctl hF hq
      obtain ⟨s1, hs1⟩ := Option.isSome_iff_exists.mp hsome
      have hstep := (step_sound C hs1).2
      have hlt := remaining_step C hC s s1 a ha hI.ctl hF hstep
      obtain ⟨acts, hno, hfin⟩ := ih s1 (by omega) (Inv_step C c errs s s1 a hI hstep)
        (InvF_step C hC s s1 a ha hI.ctl hF hstep)
      refine ⟨a :: acts, ?_, ?_⟩
      · intro b hb
        rcases List.mem_cons.mp hb with hb | hb
        · rw [hb]; exact ha
        · exact hno b hb
      · have hnext : next C s a = s1 := by simp [next, hs1]
        have : exec C s (a :: acts) = exec C (next C s a) acts := rfl
        rw [this, hnext]
        exact hfin

/-- C1: with input streams that hold finite sequences of errors and are closed,
a consumer whose `Consume` always returns true and no external `Cancel`: every
execution can be continued until `q` is closed (`Wait` returns); and in every
execution, at the moment `q` is closed, the errors passed to `Consume` are, as a
multiset, exactly the values of all input streams, the values of each stream
were passed in the order of the stream, and nothing was discarded. -/
theorem all_errors_consumed {E σ : Type} (C : Consumer E σ)
    (hC : ∀ (c1 : σ) (e : E), (C.Consume c1 e).1 = true) (c : σ) (streams : List (List E)) :
    (∀ acts : List (Action E), (∀ a ∈ acts, a ≠ Action.cancel) →
      ∃ more : List (Action E), (∀ a ∈ more, a ≠ Action.cancel) ∧
        Wait (exec C (NewHandler c (closedStreams streams)) (acts ++ more)) = some ()) ∧
    (∀ acts : List (Action E), (∀ a ∈ acts, a ≠ Action.cancel) →
      Wait (exec C (NewHandler c (closedStreams streams)) acts) = some () →
      ((consumeL (exec C (NewHandler c (closedStreams streams)) acts).log).map
          (fun r => r.1.2)).Perm streams.flatten ∧
      (∀ i : Nat, i < streams.length →
        ofTag i ((consumeL (exec C (NewHandler c (closedStreams streams)) acts).log).map Prod.fst)
          = streams.getD i []) ∧
      discardL (exec C (NewHandler c (closedStreams streams)) acts).log = []) := by
  refine ⟨?_, fun acts hno hwait => consumed_at_signal C hC c streams acts hno hwait⟩
  intro acts hno
  obtain ⟨hI, hF⟩ := InvF_exec C hC c streams acts hno
  obtain ⟨more, hmore, hq⟩ := completes_from C hC c _ _ _ (le_refl _) hI hF
  refine ⟨more, hmore, ?_⟩
  rw [exec_append]
  simp [Wait, hq]

/-- Witness of C1, the scenario of `testRangeAll`: three closed streams holding
"0", "1", "2"; when `Wait` can return the consumer has been passed exactly these
three errors. -/
theorem all_errors_consumed_witness :
    (∀ a ∈ rangeAllSched, a ≠ Action.cancel) ∧
      Wait (exec mapConsumer (NewHandler [] (closedStreams [["0"], ["1"], ["2"]])) rangeAllSched)
        = some () ∧
      ((consumeL (exec mapConsumer (NewHandler [] (closedStreams [["0"], ["1"], ["2"]]))
          rangeAllSched).log).map (fun r => r.1.2)).Perm ["0", "1", "2"] :=
  ⟨by decide, by decide,
    ((all_errors_consumed mapConsumer (fun _ _ => rfl) [] [["0"], ["1"], ["2"]]).2 rangeAllSched
      (by decide) (by decide)).1⟩

end Errmux
